import Mathlib

/-! # Asteroids: the per-tick simulation of `main.go`

A shallow embedding of the simulation core of `src/main.go` (`Update`,
`updatePlaying`, `updateGameOver`, `restartGame`, `createAsteroid`, `distance`
and the game built in `main`), followed by theorems about it.

Modelling decisions, all visible in the definitions below.

* `float64` values are elements of an arbitrary linearly ordered field `F`
  with a floor function, and the definitions of the tick compute in exact
  arithmetic.  Every definition is executable at `F = ℚ`.
* Where a statement turns on the rounding of `float64` (the speed cap, the
  radii and rates of `createAsteroid`, the stars under a ship at rest), the
  blocks it is about have a second definition, named `...Rounded`, that takes a
  rounding function `rnd` and applies it to the result of every operation.
  The theorems hold for every `rnd` that rounds to a nearest `float64`; the
  rounding of IEEE 754 with 53 bits, `round64`, is one, and the concrete
  evaluations use it.  Each operation is rounded on its own (no fused
  multiply-add); the range of the exponent is not bounded, so overflow,
  subnormal numbers, infinities and NaN are outside the embedding.
* `math.Sin`, `math.Cos`, `math.Sqrt`, the process-wide `math/rand` source and
  the growth policy of the runtime's `append` are not code of this repository;
  they are the fields of `Env`.  `math.Mod` and the conversion to `uint8` are
  defined (`fmod`, `toUint8`).
* Go `int` is a 64-bit two's-complement integer: every `++`, `--` and `+=` on an
  `int` field goes through `wrapInt`.
* `g.asteroids` is a `Slice`: a list together with the capacity of its backing
  array, because `updatePlaying` keeps the pointer `a := &g.asteroids[i]` across
  an `append`.  The other collections never hold a pointer across an `append`
  and are plain lists.
* The position of the global random source is the field `rng` of `Game`; the
  `font` field (rendering only) is left out.
* Loops that delete from the slice they iterate over are index loops with
  fuel; the fuel handed to them by `updatePlaying` is shown to be enough.
-/

set_option linter.unusedSectionVars false

namespace Asteroids

/-! ## Numbers -/

/-- Go `int` arithmetic on a 64-bit target: reduce into `[-2^63, 2^63)`. -/
def wrapInt (n : Int) : Int := (n + 2 ^ 63) % 2 ^ 64 - 2 ^ 63

section Model

variable {F : Type} [LinearOrderedField F] [FloorRing F]

/-- Truncation toward zero, as in the conversion of a `float64` to an integer. -/
def trunc (x : F) : Int := if 0 ≤ x then ⌊x⌋ else ⌈x⌉

/-- Go `math.Mod(x, y)`: the remainder `x - y * trunc (x / y)`; its sign agrees
with `x` and its magnitude is below `|y|`. -/
def fmod (x y : F) : F := x - y * (trunc (x / y) : F)

/-- Go `uint8(x)` for a `float64` `x`: truncation, then the low byte. -/
def toUint8 (x : F) : Nat := (trunc x % 256).toNat

/-! ## Constants (`const ( ... )`) -/

abbrev screenWidth : F := 640
abbrev screenHeight : F := 480
abbrev shipSize : F := 20
abbrev asteroidSize : F := 30
abbrev maxVelocity : F := 5
/-- The constant `acceleration = 0.1`. -/
abbrev acceleration : F := 1 / 10
/-- The constant `friction = 0.99`. -/
abbrev friction : F := 99 / 100
abbrev bulletSpeed : F := 10
abbrev bulletLifetime : Int := 60
abbrev numStars : Nat := 200
abbrev numStarLayers : Nat := 5
abbrev numAsteroidVertices : Nat := 10
/-- The constant `specialAsteroidProb = 0.1`. -/
abbrev specialAsteroidProb : F := 1 / 10
abbrev specialAsteroidExpansionTime : Int := 180

/-- The constant `math.Pi`, an exact decimal in Go's constant arithmetic. -/
def Pi : F :=
  314159265358979323846264338327950288419716939937510582097494459 / 10 ^ 62

/-! ## Data model -/

inductive GameState where
  | StatePlaying
  | StateGameOver
  deriving DecidableEq, Repr

inductive AsteroidType where
  | NormalAsteroid
  | SpecialAsteroid
  deriving DecidableEq, Repr

structure Ship (F : Type) where
  angle : F
  dx : F
  dy : F
  thrusting : Bool

structure Asteroid (F : Type) where
  x : F
  y : F
  dx : F
  dy : F
  size : F
  rotation : F
  rotationSpeed : F
  points : List F
  asteroidType : AsteroidType
  expansionTime : Int

structure Bullet (F : Type) where
  x : F
  y : F
  dx : F
  dy : F
  lifetime : Int

structure Star (F : Type) where
  x : F
  y : F
  brightness : F
  layer : Int

/-- The type `color.RGBA`: four `uint8` channels. -/
structure RGBA where
  R : Nat
  G : Nat
  B : Nat
  A : Nat
  deriving DecidableEq, Repr

structure Particle (F : Type) where
  x : F
  y : F
  dx : F
  dy : F
  color : RGBA
  lifetime : F

/-- A Go slice seen from its owner: the elements and the capacity of the
backing array. -/
structure Slice (α : Type) where
  data : List α
  cap : Nat

structure Game (F : Type) where
  ship : Ship F
  asteroids : Slice (Asteroid F)
  bullets : List (Bullet F)
  stars : List (Star F)
  particles : List (Particle F)
  score : Int
  state : GameState
  worldX : F
  worldY : F
  tick : Int
  rng : Nat

/-- What the program takes from outside the repository: the `math` functions,
the stream of the global random source (`float64 k` is the value of the `k`-th
call when it is `rand.Float64()`, `intn k n` when it is `rand.Intn(n)`), and the
capacity `append` gives a new backing array. -/
structure Env (F : Type) where
  sin : F → F
  cos : F → F
  sqrt : F → F
  float64 : Nat → F
  intn : Nat → Nat → Nat
  growCap : Nat → Nat

/-- The four keys `updatePlaying` and `updateGameOver` poll with
`ebiten.IsKeyPressed`. -/
structure Keys where
  left : Bool
  right : Bool
  up : Bool
  space : Bool

/-- The zero value `Ship{}`. -/
def Ship.zero : Ship F := { angle := 0, dx := 0, dy := 0, thrusting := false }

/-- The zero value of `Asteroid`, as `make([]Asteroid, n)` fills it in. -/
def Asteroid.zero : Asteroid F :=
  { x := 0, y := 0, dx := 0, dy := 0, size := 0, rotation := 0, rotationSpeed := 0,
    points := [], asteroidType := AsteroidType.NormalAsteroid, expansionTime := 0 }

/-- The zero value of `Star`. -/
def Star.zero : Star F := { x := 0, y := 0, brightness := 0, layer := 0 }

/-! ## Slices -/

/-- The call `append(s, x)`: in place when there is room, else a new backing
array of capacity `grow s.cap`. -/
def Slice.append {α : Type} (grow : Nat → Nat) (s : Slice α) (x : α) : Slice α :=
  if s.data.length < s.cap then { data := s.data ++ [x], cap := s.cap }
  else { data := s.data ++ [x], cap := grow s.cap }

/-- The call `append(s[:i], s[i+1:]...)`: always in place. -/
def Slice.remove {α : Type} (s : Slice α) (i : Nat) : Slice α :=
  { data := s.data.eraseIdx i, cap := s.cap }

/-- The assignment `s[i] = x`. -/
def Slice.set {α : Type} (s : Slice α) (i : Nat) (x : α) : Slice α :=
  { data := s.data.set i x, cap := s.cap }

/-! ## `distance` and `createAsteroid` -/

/-- The function `distance`. -/
def distance (E : Env F) (x1 y1 x2 y2 : F) : F :=
  E.sqrt ((x1 - x2) * (x1 - x2) + (y1 - y2) * (y1 - y2))

/-- The radius drawn for vertex `i` of an asteroid created at stream position `c`. -/
def vertexRadius (E : Env F) (c : Nat) (size : F) (i : Nat) : F :=
  size / 2 + E.float64 (c + 4 + i) * size / 4 - size / 8

/-- The angle of vertex `i`. -/
def vertexAngle (i : Nat) : F := (i : F) * (2 * Pi / (numAsteroidVertices : F))

/-- The function `createAsteroid`, reading the random source from position `c`;
returns the asteroid and the next position. -/
def createAsteroid (E : Env F) (c : Nat) (x y size : F) : Asteroid F × Nat :=
  let asteroidType :=
    if E.float64 c < specialAsteroidProb then AsteroidType.SpecialAsteroid
    else AsteroidType.NormalAsteroid
  let asteroid : Asteroid F :=
    { x := x
      y := y
      dx := (E.float64 (c + 1) * 2 - 1) * 2
      dy := (E.float64 (c + 2) * 2 - 1) * 2
      size := size
      rotation := 0
      rotationSpeed := (E.float64 (c + 3) - 1 / 2) * (1 / 10)
      points := List.replicate (numAsteroidVertices * 2) 0
      asteroidType := asteroidType
      expansionTime := specialAsteroidExpansionTime }
  let points := (List.range numAsteroidVertices).foldl
    (fun pts i =>
      (pts.set (i * 2) (E.cos (vertexAngle i) * vertexRadius E c size i)).set (i * 2 + 1)
        (E.sin (vertexAngle i) * vertexRadius E c size i))
    asteroid.points
  ({ asteroid with points := points }, c + 4 + numAsteroidVertices)

/-! ## `updatePlaying`, phase by phase -/

/-- Ship rotation: the two `if ebiten.IsKeyPressed(...)` on `KeyLeft` and `KeyRight`. -/
def rotateShip (keys : Keys) (s : Ship F) : Ship F :=
  let s1 := if keys.left then { s with angle := s.angle - 1 / 10 } else s
  if keys.right then { s1 with angle := s1.angle + 1 / 10 } else s1

/-- Ship thrust. -/
def thrustShip (E : Env F) (keys : Keys) (s : Ship F) : Ship F :=
  let s1 := { s with thrusting := keys.up }
  if s1.thrusting then
    { s1 with dx := s1.dx + E.cos s1.angle * acceleration,
              dy := s1.dy + E.sin s1.angle * acceleration }
  else s1

/-- Apply friction and limit speed. -/
def frictionCap (E : Env F) (s : Ship F) : Ship F :=
  let dx := s.dx * friction
  let dy := s.dy * friction
  let speed := E.sqrt (dx * dx + dy * dy)
  if speed > maxVelocity then
    { s with dx := dx / speed * maxVelocity, dy := dy / speed * maxVelocity }
  else { s with dx := dx, dy := dy }

/-- The ship after the first three blocks of `updatePlaying`. -/
def shipStep (E : Env F) (keys : Keys) (s : Ship F) : Ship F :=
  frictionCap E (thrustShip E keys (rotateShip keys s))

/-- One star of the parallax loop. -/
def moveStar (ship : Ship F) (s : Star F) : Star F :=
  let parallaxFactor : F := (s.layer : F) / (numStarLayers : F)
  let x := s.x - ship.dx * parallaxFactor
  let y := s.y - ship.dy * parallaxFactor
  { s with x := fmod (x + screenWidth) screenWidth, y := fmod (y + screenHeight) screenHeight }

/-- Firing bullets: the fire key and `g.tick%10 == 0`. -/
def fire (E : Env F) (keys : Keys) (g : Game F) : Game F :=
  if keys.space ∧ Int.tmod g.tick 10 = 0 then
    { g with bullets := g.bullets ++
        [{ x := screenWidth / 2 + E.cos g.ship.angle * shipSize
           y := screenHeight / 2 + E.sin g.ship.angle * shipSize
           dx := E.cos g.ship.angle * bulletSpeed
           dy := E.sin g.ship.angle * bulletSpeed
           lifetime := bulletLifetime }] }
  else g

/-- The body of the bullet loop up to the lifetime test. -/
def advanceBullet (ship : Ship F) (b : Bullet F) : Bullet F :=
  { b with x := b.x + (b.dx - ship.dx), y := b.y + (b.dy - ship.dy),
           lifetime := wrapInt (b.lifetime - 1) }

/-- The loop `for i := 0; i < len(g.bullets); i++` with its in-place deletion
(delete at `i`, then `i--`), from index `i`. -/
def bulletLoop (ship : Ship F) : Nat → Nat → List (Bullet F) → List (Bullet F)
  | 0, _, bs => bs
  | fuel + 1, i, bs =>
    match bs[i]? with
    | none => bs
    | some b =>
      let bs1 := bs.set i (advanceBullet ship b)
      if (advanceBullet ship b).lifetime ≤ 0 then bulletLoop ship fuel i (bs1.eraseIdx i)
      else bulletLoop ship fuel (i + 1) bs1

/-- Movement, rotation and wrap of one asteroid (through the pointer `a`). -/
def moveAsteroid (ship : Ship F) (a : Asteroid F) : Asteroid F :=
  let x1 := a.x + (a.dx - ship.dx)
  let y1 := a.y + (a.dy - ship.dy)
  let x2 := fmod (x1 + screenWidth) screenWidth
  let y2 := fmod (y1 + screenHeight) screenHeight
  { a with x := if x2 < 0 then x2 + screenWidth else x2,
           y := if y2 < 0 then y2 + screenHeight else y2,
           rotation := a.rotation + a.rotationSpeed }

/-- The first two statements of the `SpecialAsteroid` block: the countdown and
the size. -/
def pulse (E : Env F) (a : Asteroid F) : Asteroid F :=
  let e := wrapInt (a.expansionTime - 1)
  { a with expansionTime := e,
           size := asteroidSize *
             (1 + E.sin ((e : F) / (specialAsteroidExpansionTime : F) * Pi) * (1 / 2)) }

/-- One particle of the explosion, drawn at stream position `c`. -/
def burstParticle (E : Env F) (c : Nat) (a : Asteroid F) : Particle F :=
  let angle := E.float64 c * 2 * Pi
  let speed := E.float64 (c + 1) * 5
  { x := a.x, y := a.y, dx := E.cos angle * speed, dy := E.sin angle * speed,
    color := { R := 255, G := 255, B := 0, A := 255 }, lifetime := 3 * 60 }

/-- The loop `for j := 0; j < 100; j++` appending the explosion to the
particles; returns the particles and the next stream position. -/
def explode (E : Env F) (a : Asteroid F) (ps : List (Particle F)) (c : Nat) :
    List (Particle F) × Nat :=
  (List.range 100).foldl (fun st _ => (st.1 ++ [burstParticle E st.2 a], st.2 + 2)) (ps, c)

/-- The scan `for j := 0; j < len(g.bullets); j++` up to its `break`: the index
of the first bullet closer than `a.size/2`, counted from `j`. -/
def hitScan (E : Env F) (a : Asteroid F) : List (Bullet F) → Nat → Option Nat
  | [], _ => none
  | b :: bs, j =>
    if distance E a.x a.y b.x b.y < a.size / 2 then some j else hitScan E a bs (j + 1)

/-- The branch `if a.size > 25`: append one child, then write the other through
the pointer `a`. The pointer was taken before the `append`; when the `append`
moves the slice to a new backing array the write lands in the old one, and
`g.asteroids[i]` keeps the parent. Both children are drawn in either case. -/
def splitAsteroid (E : Env F) (i : Nat) (a : Asteroid F) (g : Game F) : Game F :=
  let child1 := createAsteroid E g.rng a.x a.y (a.size / 2)
  let appended := g.asteroids.append E.growCap child1.1
  let child2 := createAsteroid E child1.2 a.x a.y (a.size / 2)
  if g.asteroids.data.length < g.asteroids.cap then
    { g with asteroids := appended.set i child2.1, rng := child2.2 }
  else
    { g with asteroids := appended, rng := child2.2 }

/-- What happens on a hit by bullet `j`: split or remove, then remove the bullet
and add to the score. Returns the game and the index the loop continues at
(`i + 1` after a split; `i` after a removal, where `i--` precedes the `i++`). -/
def resolveHit (E : Env F) (i j : Nat) (a : Asteroid F) (g : Game F) : Game F × Nat :=
  let r : Game F × Nat :=
    if a.size > 25 then (splitAsteroid E i a g, i + 1)
    else ({ g with asteroids := g.asteroids.remove i }, i)
  ({ r.1 with bullets := r.1.bullets.eraseIdx j, score := wrapInt (r.1.score + 10) }, r.2)

/-- The bullet scan of the loop body for the asteroid `a` at index `i`. -/
def collide (E : Env F) (i : Nat) (a : Asteroid F) (g : Game F) : Game F × Nat :=
  match hitScan E a g.bullets 0 with
  | none => (g, i + 1)
  | some j => resolveHit E i j a g

/-- The asteroid behind the pointer `a` when the loop body reaches its test
`a.expansionTime <= 0` or, for a normal asteroid, its bullet scan. -/
def advanceAsteroid (E : Env F) (ship : Ship F) (a0 : Asteroid F) : Asteroid F :=
  let a1 := moveAsteroid ship a0
  if a1.asteroidType = AsteroidType.SpecialAsteroid then pulse E a1 else a1

/-- The body of the asteroid loop at index `i`, whose element is `a0`; returns
the game and the index the loop continues at (after `i--` and `i++`). -/
def asteroidBody (E : Env F) (i : Nat) (a0 : Asteroid F) (g : Game F) : Game F × Nat :=
  let a1 := moveAsteroid g.ship a0
  let g1 := { g with asteroids := g.asteroids.set i a1 }
  if a1.asteroidType = AsteroidType.SpecialAsteroid then
    let a2 := pulse E a1
    let g2 := { g1 with asteroids := g1.asteroids.set i a2 }
    if a2.expansionTime ≤ 0 then
      let ex := explode E a2 g2.particles g2.rng
      ({ g2 with particles := ex.1, rng := ex.2, asteroids := g2.asteroids.remove i }, i)
    else collide E i a2 g2
  else collide E i a1 g1

/-- The loop `for i := 0; i < len(g.asteroids); i++`, from index `i`; returns
the game and the index it stopped at. -/
def asteroidLoop (E : Env F) : Nat → Nat → Game F → Game F × Nat
  | 0, i, g => (g, i)
  | fuel + 1, i, g =>
    match g.asteroids.data[i]? with
    | none => (g, i)
    | some a => asteroidLoop E fuel (asteroidBody E i a g).2 (asteroidBody E i a g).1

/-- The body of the particle loop up to the lifetime test. -/
def advanceParticle (p : Particle F) : Particle F :=
  let lifetime := p.lifetime - 1
  let r := toUint8 ((p.color.R : F) * (lifetime / (3 * 60)))
  let gr := toUint8 ((p.color.G : F) * (lifetime / (3 * 60)))
  { p with x := p.x + p.dx, y := p.y + p.dy, lifetime := lifetime,
           color := { p.color with R := r, G := gr } }

/-- The loop `for i := 0; i < len(g.particles); i++` with its in-place deletion,
from index `i`. -/
def particleLoop : Nat → Nat → List (Particle F) → List (Particle F)
  | 0, _, ps => ps
  | fuel + 1, i, ps =>
    match ps[i]? with
    | none => ps
    | some p =>
      let ps1 := ps.set i (advanceParticle p)
      if (advanceParticle p).lifetime ≤ 0 then particleLoop fuel i (ps1.eraseIdx i)
      else particleLoop fuel (i + 1) ps1

/-- The game after the ship, world-offset and star blocks. -/
def shipPhase (E : Env F) (keys : Keys) (g : Game F) : Game F :=
  let ship := shipStep E keys g.ship
  { g with ship := ship, worldX := g.worldX + ship.dx, worldY := g.worldY + ship.dy,
           stars := g.stars.map (moveStar ship) }

/-- The game after firing and the bullet loop. -/
def bulletPhase (E : Env F) (keys : Keys) (g : Game F) : Game F :=
  let g1 := fire E keys (shipPhase E keys g)
  { g1 with bullets := bulletLoop g1.ship g1.bullets.length 0 g1.bullets }

/-- The game after the asteroid loop. -/
def asteroidPhase (E : Env F) (keys : Keys) (g : Game F) : Game F :=
  let g1 := bulletPhase E keys g
  (asteroidLoop E (g1.asteroids.data.length + g1.bullets.length) 0 g1).1

/-- The game after the particle loop. -/
def particlePhase (E : Env F) (keys : Keys) (g : Game F) : Game F :=
  let g1 := asteroidPhase E keys g
  { g1 with particles := particleLoop g1.particles.length 0 g1.particles }

/-- The method `updatePlaying`. -/
def updatePlaying (E : Env F) (keys : Keys) (g : Game F) : Game F :=
  let g1 := particlePhase E keys g
  if g1.asteroids.data.length = 0 then { g1 with state := GameState.StateGameOver } else g1

/-! ## `restartGame`, `updateGameOver`, `Update`, `main` -/

/-- The loop `for i := range g.asteroids` of `restartGame` and of `main`. -/
def seedAsteroids (E : Env F) (as : List (Asteroid F)) (c : Nat) : List (Asteroid F) × Nat :=
  (List.range as.length).foldl
    (fun st i =>
      let r := createAsteroid E (st.2 + 2) ((E.intn st.2 640 : Nat) : F)
        ((E.intn (st.2 + 1) 480 : Nat) : F) asteroidSize
      (st.1.set i r.1, r.2))
    (as, c)

/-- The method `restartGame`. -/
def restartGame (E : Env F) (g : Game F) : Game F :=
  let seeded := seedAsteroids E (List.replicate 5 Asteroid.zero) g.rng
  { g with ship := Ship.zero, asteroids := { data := seeded.1, cap := 5 }, bullets := [],
           particles := [], score := 0, state := GameState.StatePlaying, worldX := 0,
           worldY := 0, rng := seeded.2 }

/-- The method `updateGameOver`. -/
def updateGameOver (E : Env F) (keys : Keys) (g : Game F) : Game F :=
  if keys.space then restartGame E g else g

/-- The method `Update`. -/
def Update (E : Env F) (keys : Keys) (g : Game F) : Game F :=
  let g1 := { g with tick := wrapInt (g.tick + 1) }
  match g1.state with
  | GameState.StatePlaying => updatePlaying E keys g1
  | GameState.StateGameOver => updateGameOver E keys g1

/-- The loop `for i := range game.stars` of `main`. -/
def seedStars (E : Env F) (ss : List (Star F)) (c : Nat) : List (Star F) × Nat :=
  (List.range ss.length).foldl
    (fun st i =>
      (st.1.set i
        { x := ((E.intn st.2 640 : Nat) : F)
          y := ((E.intn (st.2 + 1) 480 : Nat) : F)
          brightness := E.float64 (st.2 + 2) * (1 / 2) + 1 / 2
          layer := (E.intn (st.2 + 3) numStarLayers : Nat) + 1 },
       st.2 + 4))
    (ss, c)

/-- The game `main` hands to `ebiten.RunGame`. -/
def mainGame (E : Env F) : Game F :=
  let seeded := seedAsteroids E (List.replicate 15 Asteroid.zero) 0
  let stars := seedStars E (List.replicate numStars Star.zero) seeded.2
  { ship := Ship.zero, asteroids := { data := seeded.1, cap := 15 }, bullets := [],
    stars := stars.1, particles := [], score := 0, state := GameState.StatePlaying,
    worldX := 0, worldY := 0, tick := 0, rng := stars.2 }

/-- The games the running program can be in: `mainGame`, then any number of
`Update` calls, each with its own key state. -/
inductive Reachable (E : Env F) : Game F → Prop where
  | start : Reachable E (mainGame E)
  | step (keys : Keys) (g : Game F) : Reachable E g → Reachable E (Update E keys g)

/-! ## Predicates used in the statements -/

/-- The argument of `math.Sqrt` in the friction-and-cap step for a ship entering
it: the squared speed after friction. -/
def squaredSpeed (s : Ship F) : F :=
  s.dx * friction * (s.dx * friction) + s.dy * friction * (s.dy * friction)

/-- The value `math.Sqrt` returns at `v` is the non-negative square root of `v`. -/
def SqrtExactAt (E : Env F) (v : F) : Prop := 0 ≤ E.sqrt v ∧ E.sqrt v * E.sqrt v = v

/-- On screen: `0 ≤ x < screenWidth` and `0 ≤ y < screenHeight`. -/
def OnScreen (x y : F) : Prop := 0 ≤ x ∧ x < 640 ∧ 0 ≤ y ∧ y < 480

/-- A Special asteroid whose countdown is at 0 or below after its next
decrement: the asteroid loop explodes it when it reaches it. -/
def expiring (a : Asteroid F) : Bool :=
  decide (a.asteroidType = AsteroidType.SpecialAsteroid ∧ wrapInt (a.expansionTime - 1) ≤ 0)

/-- The score register after `k` hits: `g.score += 10`, `k` times, in `int`
arithmetic. -/
def scoreAfter (k : Nat) (s : Int) : Int := (fun t => wrapInt (t + 10))^[k] s

/-- Every bullet of `bs` is within hit distance of `a`: closer than `a.size/2`. -/
def allWithinHit (E : Env F) (a : Asteroid F) (bs : List (Bullet F)) : Prop :=
  ∀ b ∈ bs, distance E a.x a.y b.x b.y < a.size / 2

/-- The red and green channel of a burst particle after `k` advances, as the
particle loop computes it: every advance multiplies the channel it finds by
`lifetime / 180` and truncates. -/
def cumulativeFade : Nat → Nat
  | 0 => 255
  | k + 1 => cumulativeFade k * (180 - (k + 1)) / 180

/-- The channel proportional to the remaining lifetime: `⌊255 * (180 - k) / 180⌋`. -/
def proportionalFade (k : Nat) : Nat := 255 * (180 - k) / 180

/-- The functional pass the bullet loop is compared with: map every bullet to
`(x + dx - ship.dx, y + dy - ship.dy, lifetime - 1)`, the decrement being that
of a Go `int`, then keep those with `lifetime > 0`, in order. -/
def bulletPass (ship : Ship F) (bs : List (Bullet F)) : List (Bullet F) :=
  (bs.map (fun b =>
    ({ x := b.x + b.dx - ship.dx, y := b.y + b.dy - ship.dy, dx := b.dx, dy := b.dy,
       lifetime := wrapInt (b.lifetime - 1) } : Bullet F))).filter
    (fun b => decide (b.lifetime > 0))

/-- The sine `math.Sin` returns is positive at `c/180 * Pi` for every whole
`c` from 1 to 179, as the real sine is inside `(0, π)`. -/
def SinPositiveInside (E : Env F) : Prop :=
  ∀ c : Int, 1 ≤ c → c ≤ 179 → 0 < E.sin ((c : F) / 180 * Pi)

/-! ## The arithmetic of `float64` with its rounding

The definitions above compute in exact arithmetic. Where a statement turns on
the rounding of `float64`, the blocks of the source it is about have a second
definition here, in which a rounding function `rnd` is applied to the result of
every arithmetic operation and to every constant that is not a `float64`, each
operation being rounded on its own. With `rnd = id` such a definition is the one
above; `round64` is the rounding of IEEE 754. `math.Mod` is exact, and
`math.Sqrt`, `math.Sin` and `math.Cos` stay the functions of `Env`. -/

/-- The rounding `rnd` of arithmetic results has relative error at most `u`. -/
def RoundsWithin (rnd : F → F) (u : F) : Prop := ∀ x, |rnd x - x| ≤ u * |x|

/-- A `float64` value, the range of the exponent aside: an integer of magnitude
below `2^53` times a power of two. -/
def IsFloat64 (x : F) : Prop := ∃ n j : Int, |n| < 2 ^ 53 ∧ x = (n : F) * 2 ^ j

/-- Rounding to a nearest `float64`: the relative error is at most `2^-53`, and a
result is never on the other side of a `float64` value than the exact number. -/
def RoundsToNearest (rnd : F → F) : Prop :=
  RoundsWithin rnd (1 / 2 ^ 53) ∧
  ∀ a x, IsFloat64 a → (a ≤ x → a ≤ rnd x) ∧ (x ≤ a → rnd x ≤ a)

/-- The nearest integer, ties to the even one. -/
def roundEven (y : ℚ) : Int :=
  if y - ⌊y⌋ < 1 / 2 then ⌊y⌋
  else if 1 / 2 < y - ⌊y⌋ then ⌊y⌋ + 1
  else if ⌊y⌋ % 2 = 0 then ⌊y⌋ else ⌊y⌋ + 1

/-- The conversion of an exact result to `float64`: IEEE 754 round to nearest,
ties to even, with a significand of 53 bits. The exponent is not bounded:
overflow and subnormal numbers are outside. -/
def round64 (x : ℚ) : ℚ :=
  if x = 0 then 0
  else (roundEven (x / 2 ^ (Int.log 2 |x| - 52)) : ℚ) * 2 ^ (Int.log 2 |x| - 52)

/-- Ship rotation with rounding; the constant 0.1 is not a `float64`. -/
def rotateShipRounded (rnd : F → F) (keys : Keys) (s : Ship F) : Ship F :=
  let s1 := if keys.left then { s with angle := rnd (s.angle - rnd (1 / 10)) } else s
  if keys.right then { s1 with angle := rnd (s1.angle + rnd (1 / 10)) } else s1

/-- Ship thrust with rounding. -/
def thrustShipRounded (rnd : F → F) (E : Env F) (keys : Keys) (s : Ship F) : Ship F :=
  let s1 := { s with thrusting := keys.up }
  if s1.thrusting then
    { s1 with dx := rnd (s1.dx + rnd (E.cos s1.angle * rnd acceleration)),
              dy := rnd (s1.dy + rnd (E.sin s1.angle * rnd acceleration)) }
  else s1

/-- Apply friction and limit speed, with rounding; the constant 0.99 is not a
`float64`, the constant 5 is. -/
def frictionCapRounded (rnd : F → F) (E : Env F) (s : Ship F) : Ship F :=
  let dx := rnd (s.dx * rnd friction)
  let dy := rnd (s.dy * rnd friction)
  let speed := E.sqrt (rnd (rnd (dx * dx) + rnd (dy * dy)))
  if speed > maxVelocity then
    { s with dx := rnd (rnd (dx / speed) * maxVelocity),
             dy := rnd (rnd (dy / speed) * maxVelocity) }
  else { s with dx := dx, dy := dy }

/-- The ship after the first three blocks of `updatePlaying`, with rounding. -/
def shipStepRounded (rnd : F → F) (E : Env F) (keys : Keys) (s : Ship F) : Ship F :=
  frictionCapRounded rnd E (thrustShipRounded rnd E keys (rotateShipRounded rnd keys s))

/-- One star of the parallax loop, with rounding; `math.Mod` is exact. -/
def moveStarRounded (rnd : F → F) (ship : Ship F) (s : Star F) : Star F :=
  let parallaxFactor : F := rnd ((s.layer : F) / (numStarLayers : F))
  let x := rnd (s.x - rnd (ship.dx * parallaxFactor))
  let y := rnd (s.y - rnd (ship.dy * parallaxFactor))
  { s with x := fmod (rnd (x + screenWidth)) screenWidth,
           y := fmod (rnd (y + screenHeight)) screenHeight }

/-- The game after the ship, world-offset and star blocks, with rounding. -/
def shipPhaseRounded (rnd : F → F) (E : Env F) (keys : Keys) (g : Game F) : Game F :=
  let ship := shipStepRounded rnd E keys g.ship
  { g with ship := ship, worldX := rnd (g.worldX + ship.dx), worldY := rnd (g.worldY + ship.dy),
           stars := g.stars.map (moveStarRounded rnd ship) }

/-- The blocks of `updatePlaying` from "Firing bullets" to its end, run on the
game `g0` that the blocks before them leave. -/
def laterBlocks (E : Env F) (keys : Keys) (g0 : Game F) : Game F :=
  let f := fire E keys g0
  let g1 := { f with bullets := bulletLoop f.ship f.bullets.length 0 f.bullets }
  let g2 := (asteroidLoop E (g1.asteroids.data.length + g1.bullets.length) 0 g1).1
  let g3 := { g2 with particles := particleLoop g2.particles.length 0 g2.particles }
  if g3.asteroids.data.length = 0 then { g3 with state := GameState.StateGameOver } else g3

/-- The method `updatePlaying` with rounding in its ship, world-offset and star
blocks. The blocks after them write none of the fields these blocks write and
are taken as they are in `updatePlaying`. -/
def updatePlayingRounded (rnd : F → F) (E : Env F) (keys : Keys) (g : Game F) : Game F :=
  laterBlocks E keys (shipPhaseRounded rnd E keys g)

/-- The method `Update` over `updatePlayingRounded`. -/
def UpdateRounded (rnd : F → F) (E : Env F) (keys : Keys) (g : Game F) : Game F :=
  let g1 := { g with tick := wrapInt (g.tick + 1) }
  match g1.state with
  | GameState.StatePlaying => updatePlayingRounded rnd E keys g1
  | GameState.StateGameOver => updateGameOver E keys g1

/-- The squared speed after friction as the code computes it, with rounding: the
argument of `math.Sqrt`. -/
def squaredSpeedRounded (rnd : F → F) (s : Ship F) : F :=
  rnd (rnd (rnd (s.dx * rnd friction) * rnd (s.dx * rnd friction)) +
    rnd (rnd (s.dy * rnd friction) * rnd (s.dy * rnd friction)))

/-- The value `math.Sqrt` returns at `v` is non-negative and within a relative
error of `2^-53` of the square root of `v`. -/
def SqrtRoundedAt (E : Env F) (v : F) : Prop :=
  0 ≤ E.sqrt v ∧ (1 - 1 / 2 ^ 53) ^ 2 * v ≤ E.sqrt v * E.sqrt v ∧
  E.sqrt v * E.sqrt v ≤ (1 + 1 / 2 ^ 53) ^ 2 * v

/-- The radius drawn for vertex `i`, with rounding. -/
def vertexRadiusRounded (rnd : F → F) (E : Env F) (c : Nat) (size : F) (i : Nat) : F :=
  rnd (rnd (rnd (size / 2) + rnd (rnd (E.float64 (c + 4 + i) * size) / 4)) - rnd (size / 8))

/-- The angle of vertex `i`, with rounding: the constant
`2 * math.Pi / numAsteroidVertices` is exact before it becomes a `float64`. -/
def vertexAngleRounded (rnd : F → F) (i : Nat) : F :=
  rnd ((i : F) * rnd (2 * Pi / (numAsteroidVertices : F)))

/-- The function `createAsteroid`, with rounding; the constants 0.1 are not
`float64` values, the constants 0.5, 1 and 2 are. -/
def createAsteroidRounded (rnd : F → F) (E : Env F) (c : Nat) (x y size : F) :
    Asteroid F × Nat :=
  let asteroidType :=
    if E.float64 c < rnd specialAsteroidProb then AsteroidType.SpecialAsteroid
    else AsteroidType.NormalAsteroid
  let asteroid : Asteroid F :=
    { x := x
      y := y
      dx := rnd (rnd (rnd (E.float64 (c + 1) * 2) - 1) * 2)
      dy := rnd (rnd (rnd (E.float64 (c + 2) * 2) - 1) * 2)
      size := size
      rotation := 0
      rotationSpeed := rnd (rnd (E.float64 (c + 3) - 1 / 2) * rnd (1 / 10))
      points := List.replicate (numAsteroidVertices * 2) 0
      asteroidType := asteroidType
      expansionTime := specialAsteroidExpansionTime }
  let points := (List.range numAsteroidVertices).foldl
    (fun pts i =>
      (pts.set (i * 2)
        (rnd (E.cos (vertexAngleRounded rnd i) * vertexRadiusRounded rnd E c size i))).set
        (i * 2 + 1) (rnd (E.sin (vertexAngleRounded rnd i) * vertexRadiusRounded rnd E c size i)))
    asteroid.points
  ({ asteroid with points := points }, c + 4 + numAsteroidVertices)

/-! ## Concrete inputs

Used to instantiate the theorems below at `F = ℚ`. The functions of `sampleEnv`
are exact where they are evaluated: `cos 0 = 1`, `sin 0 = 0`, and `Rat.sqrt` on
squares of rationals. -/

/-- An environment over `ℚ`: every draw is 1/2 (so created asteroids are Normal
and at rest), `rand.Intn` returns 0, `append` doubles the capacity. -/
def sampleEnv : Env ℚ :=
  { sin := fun _ => 0, cos := fun _ => 1, sqrt := Rat.sqrt, float64 := fun _ => 1 / 2,
    intn := fun _ _ => 0, growCap := fun c => 2 * c + 1 }

/-- No key held. -/
def idle : Keys := { left := false, right := false, up := false, space := false }

/-- A normal asteroid of the initial size, at rest. -/
def rock : Asteroid ℚ :=
  { x := 100, y := 100, dx := 0, dy := 0, size := 30, rotation := 0, rotationSpeed := 0,
    points := [], asteroidType := AsteroidType.NormalAsteroid, expansionTime := 180 }

/-- A bullet at the centre of `rock`. -/
def shot : Bullet ℚ := { x := 100, y := 100, dx := 0, dy := 0, lifetime := 5 }

/-- One asteroid under one bullet, in a slice with `len = cap`, as `make` leaves
it. -/
def fullGame : Game ℚ :=
  { ship := Ship.zero, asteroids := { data := [rock], cap := 1 }, bullets := [shot], stars := [],
    particles := [], score := 0, state := GameState.StatePlaying, worldX := 0, worldY := 0,
    tick := 0, rng := 0 }

/-- A normal asteroid at the split threshold or below. -/
def pebble : Asteroid ℚ :=
  { x := 100, y := 100, dx := 0, dy := 0, size := 20, rotation := 0, rotationSpeed := 0,
    points := [], asteroidType := AsteroidType.NormalAsteroid, expansionTime := 180 }

/-- One small asteroid under one bullet, with the score register at its
largest value. -/
def brimGame : Game ℚ :=
  { ship := Ship.zero, asteroids := { data := [pebble], cap := 1 }, bullets := [shot], stars := [],
    particles := [], score := 2 ^ 63 - 1, state := GameState.StatePlaying, worldX := 0, worldY := 0,
    tick := 0, rng := 0 }

/-- Only the fire key held. -/
def fireKey : Keys := { left := false, right := false, up := false, space := true }

/-- A finished game: no asteroid left, some score, bullets still in flight. -/
def stoppedGame : Game ℚ :=
  { ship := { angle := 1, dx := 3, dy := 4, thrusting := true },
    asteroids := { data := [], cap := 5 }, bullets := [shot], stars := [], particles := [],
    score := 70, state := GameState.StateGameOver, worldX := 12, worldY := 7, tick := 0, rng := 3 }

/-- The finished game at the last tick the counter can hold. -/
def lastTickGame : Game ℚ := { stoppedGame with tick := 2 ^ 63 - 1 }

/-- A ship moving at speed 10 once friction is applied: `(6, 8)`. -/
def fastShip : Ship ℚ := { angle := 0, dx := 200 / 33, dy := 800 / 99, thrusting := false }

/-- The one-asteroid game with the fast ship. -/
def fastGame : Game ℚ := { fullGame with ship := fastShip }

/-- A bullet about to cross the right edge of the screen. -/
def strayShot : Bullet ℚ := { x := 639, y := 100, dx := 10, dy := 0, lifetime := 5 }

/-- One large asteroid and one bullet far from it. -/
def strayGame : Game ℚ := { fullGame with bullets := [strayShot] }

/-- The fast-ship game with two stars, in the nearest and the farthest layer. -/
def starGame : Game ℚ :=
  { fastGame with
      stars := [{ x := 0, y := 0, brightness := 1, layer := 5 },
                { x := 639, y := 479, brightness := 1 / 2, layer := 1 }] }

/-- A Special asteroid one tick before its explosion. -/
def flare : Asteroid ℚ :=
  { x := 100, y := 100, dx := 0, dy := 0, size := 30, rotation := 0, rotationSpeed := 0,
    points := [], asteroidType := AsteroidType.SpecialAsteroid, expansionTime := 1 }

/-- The flare alone, with a bullet on top of it and no particles. -/
def flareGame : Game ℚ := { fullGame with asteroids := { data := [flare], cap := 1 } }

/-- A Playing game with the ship at rest, a heading, a world offset and two
stars on screen. -/
def restGame : Game ℚ :=
  { ship := { angle := 1, dx := 0, dy := 0, thrusting := true },
    asteroids := { data := [rock], cap := 1 }, bullets := [],
    stars := [{ x := 0, y := 0, brightness := 1, layer := 5 },
              { x := 639, y := 479, brightness := 1 / 2, layer := 1 }],
    particles := [], score := 0, state := GameState.StatePlaying, worldX := 12, worldY := 7,
    tick := 0, rng := 0 }

/-- A second bullet, at distance 5 from the centre of `rock`. -/
def shot2 : Bullet ℚ := { x := 103, y := 104, dx := 0, dy := 0, lifetime := 7 }

/-- One asteroid of size 30 under two bullets, in a slice with room for one
more. -/
def twinGame : Game ℚ :=
  { fullGame with asteroids := { data := [rock], cap := 2 }, bullets := [shot, shot2] }

/-- One asteroid of size 20 under the same two bullets. -/
def pebbleTwinGame : Game ℚ := { twinGame with asteroids := { data := [pebble], cap := 1 } }

/-- Bhaskara's rational approximation of the sine on `[0, π]`, with the
constant `Pi` for π: positive inside the interval, 0 at its ends, 1 at `π/2`. -/
def bhaskaraSin (t : ℚ) : ℚ := 16 * t * (Pi - t) / (5 * Pi * Pi - 4 * t * (Pi - t))

/-- An environment with a sine that is positive on `(0, π)` and a first draw
below 0.1: the asteroid created at stream position 0 is Special, every other
one is Normal, and all are created at rest. -/
def pulseEnv : Env ℚ :=
  { sampleEnv with sin := bhaskaraSin, float64 := fun k => if k = 0 then 1 / 20 else 1 / 2 }

/-- One asteroid under one bullet, in a slice with room for one more. -/
def roomGame : Game ℚ := { fullGame with asteroids := { data := [rock], cap := 2 } }

/-- A Special asteroid of the initial size halfway through its countdown. -/
def ember : Asteroid ℚ :=
  { x := 100, y := 100, dx := 0, dy := 0, size := 30, rotation := 0, rotationSpeed := 0,
    points := [], asteroidType := AsteroidType.SpecialAsteroid, expansionTime := 91 }

/-- The Special asteroid `ember` alone in a full slice, with a bullet on top
of it; the stream position is past the one draw that makes a child Special. -/
def emberGame : Game ℚ :=
  { fullGame with asteroids := { data := [ember], cap := 1 }, rng := 1 }

/-- A star at the `float64` values of 0.1 and 0.7. -/
def driftStar : Star ℚ :=
  { x := 3602879701896397 / 2 ^ 55, y := 3152519739159347 / 2 ^ 52, brightness := 1, layer := 1 }

/-- The game `restGame` with that one star. -/
def driftGame : Game ℚ := { restGame with stars := [driftStar] }

/-- A ship far above the speed cap: velocity `(500, 1200)`. -/
def heavyShip : Ship ℚ := { angle := 0, dx := 500, dy := 1200, thrusting := false }

/-- The one-asteroid game with the ship `heavyShip`. -/
def heavyGame : Game ℚ := { fullGame with ship := heavyShip }

/-- The environment `sampleEnv` with every draw at the largest `float64` below 1. -/
def brinkEnv : Env ℚ := { sampleEnv with float64 := fun _ => 1 - 1 / 2 ^ 53 }

/-- The environment `sampleEnv` with every draw at 0. -/
def floorEnv : Env ℚ := { sampleEnv with float64 := fun _ => 0 }

/-! # Lemmas -/

/-! ## Integers and `math.Mod` -/

theorem wrapInt_of_range (n : Int) (h1 : -2 ^ 63 ≤ n) (h2 : n < 2 ^ 63) : wrapInt n = n := by
  unfold wrapInt
  omega

theorem wrapInt_lt (n : Int) : -2 ^ 63 ≤ wrapInt n ∧ wrapInt n < 2 ^ 63 := by
  unfold wrapInt
  omega

theorem scoreAfter_of_range (k : Nat) (s : Int) (h1 : -2 ^ 63 ≤ s) (h2 : s + 10 * k < 2 ^ 63) :
    scoreAfter k s = s + 10 * k := by
  induction k with
  | zero => simp [scoreAfter]
  | succ n ih =>
    rw [scoreAfter, Function.iterate_succ_apply', ← scoreAfter]
    push_cast at h2
    rw [ih (by omega)]
    rw [wrapInt_of_range _ (by omega) (by push_cast; omega)]
    push_cast
    ring

theorem fmod_of_nonneg (x y : F) (hx : 0 ≤ x) (hy : 0 < y) :
    0 ≤ fmod x y ∧ fmod x y < y := by
  have hq : 0 ≤ x / y := div_nonneg hx hy.le
  have h1 : (⌊x / y⌋ : F) ≤ x / y := Int.floor_le _
  have h2 : x / y < ⌊x / y⌋ + 1 := Int.lt_floor_add_one _
  have hxy : x / y * y = x := div_mul_cancel₀ x hy.ne'
  simp only [fmod, trunc, hq, if_true]
  constructor
  · have := mul_le_mul_of_nonneg_right h1 hy.le
    rw [hxy] at this
    linarith [mul_comm y (⌊x / y⌋ : F)]
  · have := mul_lt_mul_of_pos_right h2 hy
    rw [hxy] at this
    linarith [mul_comm y (⌊x / y⌋ : F)]

theorem fmod_of_neg (x y : F) (hx : x < 0) (hy : 0 < y) :
    -y < fmod x y ∧ fmod x y ≤ 0 := by
  have hq : ¬ 0 ≤ x / y := not_le.mpr (div_neg_of_neg_of_pos hx hy)
  have h1 : x / y ≤ (⌈x / y⌉ : F) := Int.le_ceil _
  have h2 : (⌈x / y⌉ : F) < x / y + 1 := Int.ceil_lt_add_one _
  have hxy : x / y * y = x := div_mul_cancel₀ x hy.ne'
  simp only [fmod, trunc, hq, if_false]
  constructor
  · have := mul_lt_mul_of_pos_right h2 hy
    rw [add_mul, hxy] at this
    linarith [mul_comm y (⌈x / y⌉ : F)]
  · have := mul_le_mul_of_nonneg_right h1 hy.le
    rw [hxy] at this
    linarith [mul_comm y (⌈x / y⌉ : F)]

/-- The wrap of the asteroid loop puts every coordinate into `[0, m)`. -/
theorem wrap_range (v m : F) (hm : 0 < m) :
    0 ≤ (if fmod (v + m) m < 0 then fmod (v + m) m + m else fmod (v + m) m) ∧
    (if fmod (v + m) m < 0 then fmod (v + m) m + m else fmod (v + m) m) < m := by
  by_cases hv : 0 ≤ v + m
  · have h := fmod_of_nonneg (v + m) m hv hm
    rw [if_neg (not_lt.mpr h.1)]
    exact h
  · have h := fmod_of_neg (v + m) m (not_le.mp hv) hm
    split_ifs with h0
    · constructor <;> linarith
    · exact ⟨not_lt.mp h0, by linarith⟩

/-! ## `createAsteroid` -/

theorem createAsteroid_points (E : Env F) (c : Nat) (x y s : F) :
    (createAsteroid E c x y s).1.points =
      (List.range numAsteroidVertices).flatMap (fun i =>
        [E.cos (vertexAngle i) * vertexRadius E c s i, E.sin (vertexAngle i) * vertexRadius E c s i]) := by
  simp only [createAsteroid, numAsteroidVertices, List.range_succ, List.range_zero, List.nil_append,
    List.cons_append, List.foldl_cons, List.foldl_nil, List.flatMap_cons, List.flatMap_nil,
    List.replicate, List.set_cons_zero, List.set_cons_succ, Nat.reduceMul, Nat.reduceAdd, List.append_nil]

theorem createAsteroid_fields (E : Env F) (c : Nat) (x y s : F) :
    (createAsteroid E c x y s).1.x = x ∧ (createAsteroid E c x y s).1.y = y ∧
    (createAsteroid E c x y s).1.size = s ∧ (createAsteroid E c x y s).1.rotation = 0 ∧
    (createAsteroid E c x y s).1.expansionTime = 180 ∧
    (createAsteroid E c x y s).1.dx = (E.float64 (c + 1) * 2 - 1) * 2 ∧
    (createAsteroid E c x y s).1.dy = (E.float64 (c + 2) * 2 - 1) * 2 ∧
    (createAsteroid E c x y s).1.rotationSpeed = (E.float64 (c + 3) - 1 / 2) * (1 / 10) ∧
    (createAsteroid E c x y s).2 = c + 14 :=
  ⟨rfl, rfl, rfl, rfl, rfl, rfl, rfl, rfl, rfl⟩

theorem createAsteroid_snd (E : Env F) (c : Nat) (x y s : F) :
    (createAsteroid E c x y s).2 = c + 14 := rfl

theorem createAsteroid_vertex (E : Env F) (c : Nat) (x y s : F) (i : Nat) (hi : i < 10) :
    (createAsteroid E c x y s).1.points[2 * i]? =
        some (E.cos (vertexAngle i) * vertexRadius E c s i) ∧
    (createAsteroid E c x y s).1.points[2 * i + 1]? =
        some (E.sin (vertexAngle i) * vertexRadius E c s i) := by
  rw [createAsteroid_points]
  interval_cases i <;> exact ⟨rfl, rfl⟩

theorem createAsteroid_not_expiring (E : Env F) (c : Nat) (x y s : F) :
    expiring (createAsteroid E c x y s).1 = false := by
  have h : wrapInt 179 = 179 := by decide
  have ht : (createAsteroid E c x y s).1.expansionTime = 180 := rfl
  simp [expiring, ht, h]

/-! ## The deleting loops as functional passes -/

theorem bulletLoop_append (ship : Ship F) :
    ∀ (fuel : Nat) (pre rest : List (Bullet F)), rest.length ≤ fuel →
      bulletLoop ship fuel pre.length (pre ++ rest) =
        pre ++ (rest.map (advanceBullet ship)).filter (fun b => decide (0 < b.lifetime)) := by
  intro fuel
  induction fuel with
  | zero =>
    intro pre rest h
    have : rest = [] := List.length_eq_zero.mp (Nat.le_zero.mp h)
    subst this
    simp [bulletLoop]
  | succ n ih =>
    intro pre rest h
    cases rest with
    | nil => simp [bulletLoop]
    | cons b r =>
      have hr : r.length ≤ n := by simpa using h
      rw [bulletLoop]
      simp only [List.getElem?_append_right (Nat.le_refl _), Nat.sub_self, List.getElem?_cons_zero]
      have hset : (pre ++ b :: r).set pre.length (advanceBullet ship b) =
          pre ++ advanceBullet ship b :: r := by
        rw [List.set_append_right _ _ (Nat.le_refl _)]
        simp
      rw [hset]
      by_cases hd : (advanceBullet ship b).lifetime ≤ 0
      · have her : (pre ++ advanceBullet ship b :: r).eraseIdx pre.length = pre ++ r := by
          rw [List.eraseIdx_append_of_length_le (Nat.le_refl _)]
          simp
        simp only [hd, if_true, her]
        rw [ih pre r hr]
        have : ¬ 0 < (advanceBullet ship b).lifetime := not_lt.mpr hd
        simp [List.filter_cons, this]
      · simp only [hd, if_false]
        have h2 := ih (pre ++ [advanceBullet ship b]) r hr
        simp only [List.length_append, List.length_singleton, List.append_assoc,
          List.singleton_append] at h2
        rw [h2]
        have : 0 < (advanceBullet ship b).lifetime := not_le.mp hd
        simp [List.filter_cons, this]

theorem bulletLoop_eq (ship : Ship F) (bs : List (Bullet F)) :
    bulletLoop ship bs.length 0 bs =
      (bs.map (advanceBullet ship)).filter (fun b => decide (0 < b.lifetime)) := by
  simpa using bulletLoop_append ship bs.length [] bs (Nat.le_refl _)

theorem particleLoop_append :
    ∀ (fuel : Nat) (pre rest : List (Particle F)), rest.length ≤ fuel →
      particleLoop fuel pre.length (pre ++ rest) =
        pre ++ (rest.map advanceParticle).filter (fun p => decide (0 < p.lifetime)) := by
  intro fuel
  induction fuel with
  | zero =>
    intro pre rest h
    have : rest = [] := List.length_eq_zero.mp (Nat.le_zero.mp h)
    subst this
    simp [particleLoop]
  | succ n ih =>
    intro pre rest h
    cases rest with
    | nil => simp [particleLoop]
    | cons b r =>
      have hr : r.length ≤ n := by simpa using h
      rw [particleLoop]
      simp only [List.getElem?_append_right (Nat.le_refl _), Nat.sub_self, List.getElem?_cons_zero]
      have hset : (pre ++ b :: r).set pre.length (advanceParticle b) =
          pre ++ advanceParticle b :: r := by
        rw [List.set_append_right _ _ (Nat.le_refl _)]
        simp
      rw [hset]
      by_cases hd : (advanceParticle b).lifetime ≤ 0
      · have her : (pre ++ advanceParticle b :: r).eraseIdx pre.length = pre ++ r := by
          rw [List.eraseIdx_append_of_length_le (Nat.le_refl _)]
          simp
        simp only [hd, if_true, her]
        rw [ih pre r hr]
        have : ¬ 0 < (advanceParticle b).lifetime := not_lt.mpr hd
        simp [List.filter_cons, this]
      · simp only [hd, if_false]
        have h2 := ih (pre ++ [advanceParticle b]) r hr
        simp only [List.length_append, List.length_singleton, List.append_assoc,
          List.singleton_append] at h2
        rw [h2]
        have : 0 < (advanceParticle b).lifetime := not_le.mp hd
        simp [List.filter_cons, this]

theorem particleLoop_eq (ps : List (Particle F)) :
    particleLoop ps.length 0 ps =
      (ps.map advanceParticle).filter (fun p => decide (0 < p.lifetime)) := by
  simpa using particleLoop_append ps.length [] ps (Nat.le_refl _)

/-! ## The ship and the stars -/

/-- The friction-and-cap step, given a square root that is exact at the
squared speed. -/
theorem frictionCap_spec (E : Env F) (s : Ship F) (hsqrt : SqrtExactAt E (squaredSpeed s)) :
    (frictionCap E s).dx * (frictionCap E s).dx + (frictionCap E s).dy * (frictionCap E s).dy ≤ 25 ∧
    (E.sqrt (squaredSpeed s) > 5 →
      E.sqrt (squaredSpeed s) ≠ 0 ∧
      (frictionCap E s).dx * (frictionCap E s).dx + (frictionCap E s).dy * (frictionCap E s).dy = 25 ∧
      ∃ c : F, 0 < c ∧ (frictionCap E s).dx = c * (s.dx * friction) ∧
        (frictionCap E s).dy = c * (s.dy * friction)) ∧
    (¬ E.sqrt (squaredSpeed s) > 5 →
      (frictionCap E s).dx = s.dx * friction ∧ (frictionCap E s).dy = s.dy * friction) := by
  unfold SqrtExactAt squaredSpeed at hsqrt
  unfold squaredSpeed
  obtain ⟨h0, hsq⟩ := hsqrt
  generalize hv : E.sqrt (s.dx * friction * (s.dx * friction) + s.dy * friction * (s.dy * friction)) = v
    at h0 hsq
  have hfast : v > 5 → v ≠ 0 ∧
      (frictionCap E s).dx * (frictionCap E s).dx + (frictionCap E s).dy * (frictionCap E s).dy = 25 ∧
      ∃ c : F, 0 < c ∧ (frictionCap E s).dx = c * (s.dx * friction) ∧
        (frictionCap E s).dy = c * (s.dy * friction) := by
    intro h5
    have hv0 : v ≠ 0 := by
      intro h; rw [h] at h5; norm_num at h5
    have hdx : (frictionCap E s).dx = s.dx * friction / v * 5 := by
      simp only [frictionCap, hv, h5, if_true, maxVelocity]
    have hdy : (frictionCap E s).dy = s.dy * friction / v * 5 := by
      simp only [frictionCap, hv, h5, if_true, maxVelocity]
    refine ⟨hv0, ?_, 5 / v, by positivity, ?_, ?_⟩
    · rw [hdx, hdy]
      have : s.dx * friction / v * 5 * (s.dx * friction / v * 5) +
          s.dy * friction / v * 5 * (s.dy * friction / v * 5) =
          25 * (s.dx * friction * (s.dx * friction) + s.dy * friction * (s.dy * friction)) /
            (v * v) := by
        field_simp
        ring
      rw [this, ← hsq]
      field_simp
    · rw [hdx]; field_simp; ring
    · rw [hdy]; field_simp; ring
  have hslow : ¬ v > 5 →
      (frictionCap E s).dx = s.dx * friction ∧ (frictionCap E s).dy = s.dy * friction := by
    intro h5
    constructor <;> simp only [frictionCap, hv, h5, if_false]
  refine ⟨?_, hfast, hslow⟩
  by_cases h5 : v > 5
  · exact le_of_eq (hfast h5).2.1
  · obtain ⟨h1, h2⟩ := hslow h5
    rw [h1, h2, ← hsq]
    have : v ≤ 5 := not_lt.mp h5
    nlinarith

theorem frictionCap_abs (E : Env F) (s : Ship F) (hsqrt : SqrtExactAt E (squaredSpeed s)) :
    |(frictionCap E s).dx| ≤ 5 ∧ |(frictionCap E s).dy| ≤ 5 := by
  have h := (frictionCap_spec E s hsqrt).1
  constructor
  · exact abs_le.mpr ⟨by nlinarith [mul_self_nonneg (frictionCap E s).dy],
      by nlinarith [mul_self_nonneg (frictionCap E s).dy]⟩
  · exact abs_le.mpr ⟨by nlinarith [mul_self_nonneg (frictionCap E s).dx],
      by nlinarith [mul_self_nonneg (frictionCap E s).dx]⟩

theorem moveStar_onScreen (ship : Ship F) (st : Star F)
    (hdx : |ship.dx| ≤ 5) (hdy : |ship.dy| ≤ 5)
    (hst : OnScreen st.x st.y) (h1 : 1 ≤ st.layer) (h5 : st.layer ≤ 5) :
    OnScreen (moveStar ship st).x (moveStar ship st).y := by
  have l1 : (1 : F) ≤ (st.layer : F) := by exact_mod_cast h1
  have l5 : (st.layer : F) ≤ 5 := by exact_mod_cast h5
  have hp0 : (0 : F) ≤ (st.layer : F) / ((numStarLayers : Nat) : F) := by
    simp only [numStarLayers]; positivity
  have hp1 : (st.layer : F) / ((numStarLayers : Nat) : F) ≤ 1 := by
    simp only [numStarLayers, Nat.cast_ofNat]
    rw [div_le_one (by norm_num)]
    exact l5
  have bx : |ship.dx * ((st.layer : F) / ((numStarLayers : Nat) : F))| ≤ 5 := by
    rw [abs_mul, abs_of_nonneg hp0]
    calc |ship.dx| * ((st.layer : F) / ((numStarLayers : Nat) : F)) ≤ 5 * 1 :=
          mul_le_mul hdx hp1 hp0 (by norm_num)
      _ = 5 := by norm_num
  have by_ : |ship.dy * ((st.layer : F) / ((numStarLayers : Nat) : F))| ≤ 5 := by
    rw [abs_mul, abs_of_nonneg hp0]
    calc |ship.dy| * ((st.layer : F) / ((numStarLayers : Nat) : F)) ≤ 5 * 1 :=
          mul_le_mul hdy hp1 hp0 (by norm_num)
      _ = 5 := by norm_num
  obtain ⟨x0, x1, y0, y1⟩ := hst
  have hx := fmod_of_nonneg
    (st.x - ship.dx * ((st.layer : F) / ((numStarLayers : Nat) : F)) + 640) 640
    (by have := (abs_le.mp bx).2; linarith) (by norm_num)
  have hy := fmod_of_nonneg
    (st.y - ship.dy * ((st.layer : F) / ((numStarLayers : Nat) : F)) + 480) 480
    (by have := (abs_le.mp by_).2; linarith) (by norm_num)
  exact ⟨hx.1, hx.2, hy.1, hy.2⟩

/-! ## The body of the asteroid loop -/

theorem hitScan_bounds (E : Env F) (a : Asteroid F) :
    ∀ (bs : List (Bullet F)) (j k : Nat), hitScan E a bs j = some k → j ≤ k ∧ k < j + bs.length := by
  intro bs
  induction bs with
  | nil => intro j k h; simp [hitScan] at h
  | cons b bs ih =>
    intro j k h
    rw [hitScan] at h
    split_ifs at h with hd
    · simp only [Option.some.injEq] at h
      subst h
      simp
    · have := ih (j + 1) k h
      simp only [List.length_cons]
      omega

theorem hitScan_lt (E : Env F) (a : Asteroid F) (bs : List (Bullet F)) (k : Nat)
    (h : hitScan E a bs 0 = some k) : k < bs.length := by
  have := hitScan_bounds E a bs 0 k h
  omega

theorem advanceAsteroid_pos (E : Env F) (ship : Ship F) (a : Asteroid F) :
    (advanceAsteroid E ship a).x = (moveAsteroid ship a).x ∧
    (advanceAsteroid E ship a).y = (moveAsteroid ship a).y := by
  unfold advanceAsteroid
  simp only []
  split_ifs <;> exact ⟨rfl, rfl⟩

theorem moveAsteroid_onScreen (ship : Ship F) (a : Asteroid F) :
    OnScreen (moveAsteroid ship a).x (moveAsteroid ship a).y := by
  have hx := wrap_range (a.x + (a.dx - ship.dx)) 640 (by norm_num)
  have hy := wrap_range (a.y + (a.dy - ship.dy)) 480 (by norm_num)
  exact ⟨hx.1, hx.2, hy.1, hy.2⟩

theorem advanceAsteroid_onScreen (E : Env F) (ship : Ship F) (a : Asteroid F) :
    OnScreen (advanceAsteroid E ship a).x (advanceAsteroid E ship a).y := by
  rw [(advanceAsteroid_pos E ship a).1, (advanceAsteroid_pos E ship a).2]
  exact moveAsteroid_onScreen ship a

theorem advanceAsteroid_explodes (E : Env F) (ship : Ship F) (a : Asteroid F) :
    ((advanceAsteroid E ship a).asteroidType = AsteroidType.SpecialAsteroid ∧
      (advanceAsteroid E ship a).expansionTime ≤ 0) ↔ expiring a = true := by
  unfold advanceAsteroid expiring
  simp only [decide_eq_true_eq]
  by_cases h : a.asteroidType = AsteroidType.SpecialAsteroid
  · have h1 : (moveAsteroid ship a).asteroidType = AsteroidType.SpecialAsteroid := h
    simp only [h1, if_true]
    exact Iff.rfl
  · have h1 : ¬ (moveAsteroid ship a).asteroidType = AsteroidType.SpecialAsteroid := h
    simp only [h1, h, if_false, false_and]

theorem countdown_one_expiring (a : Asteroid F)
    (hsp : a.asteroidType = AsteroidType.SpecialAsteroid) (hcd : a.expansionTime = 1) :
    expiring a = true := by
  have h : wrapInt 0 ≤ 0 := by decide
  simp [expiring, hsp, hcd, h]

theorem explodeFold (E : Env F) (a : Asteroid F) :
    ∀ (l : List Nat) (ps : List (Particle F)) (c : Nat),
      ∃ new : List (Particle F),
        (l.foldl (fun st _ => ((st.1 ++ [burstParticle E st.2 a], st.2 + 2) :
          List (Particle F) × Nat)) (ps, c)).1 = ps ++ new ∧
        new.length = l.length ∧
        ∀ p ∈ new, p.lifetime = 3 * 60 ∧ p.x = a.x ∧ p.y = a.y ∧
          p.color = { R := 255, G := 255, B := 0, A := 255 } := by
  intro l
  induction l with
  | nil => intro ps c; exact ⟨[], by simp, rfl, by simp⟩
  | cons j l ih =>
    intro ps c
    obtain ⟨new, h1, h2, h3⟩ := ih (ps ++ [burstParticle E c a]) (c + 2)
    refine ⟨burstParticle E c a :: new, ?_, by simp [h2], ?_⟩
    · simp only [List.foldl_cons]
      rw [h1]
      simp
    · intro p hp
      rcases List.mem_cons.mp hp with rfl | hp
      · exact ⟨rfl, rfl, rfl, rfl⟩
      · exact h3 p hp

theorem explode_spec (E : Env F) (a : Asteroid F) (ps : List (Particle F)) (c : Nat) :
    ∃ new : List (Particle F), (explode E a ps c).1 = ps ++ new ∧ new.length = 100 ∧
      ∀ p ∈ new, p.lifetime = 3 * 60 ∧ p.x = a.x ∧ p.y = a.y ∧
        p.color = { R := 255, G := 255, B := 0, A := 255 } := by
  obtain ⟨new, h1, h2, h3⟩ := explodeFold E a (List.range 100) ps c
  exact ⟨new, h1, by simpa using h2, h3⟩

theorem splitAsteroid_frame (E : Env F) (i : Nat) (a : Asteroid F) (g : Game F) :
    (splitAsteroid E i a g).bullets = g.bullets ∧ (splitAsteroid E i a g).score = g.score ∧
    (splitAsteroid E i a g).particles = g.particles := by
  unfold splitAsteroid
  split_ifs <;> simp

/-- One hit: exactly one bullet goes, and the score receives `+= 10`. -/
theorem resolveHit_accounting (E : Env F) (i j : Nat) (a : Asteroid F) (g : Game F)
    (hj : j < g.bullets.length) :
    (resolveHit E i j a g).1.bullets = g.bullets.eraseIdx j ∧
    (resolveHit E i j a g).1.bullets.length + 1 = g.bullets.length ∧
    (resolveHit E i j a g).1.score = wrapInt (g.score + 10) ∧
    (resolveHit E i j a g).1.particles = g.particles := by
  have hs := splitAsteroid_frame E i a g
  have hb : (resolveHit E i j a g).1.bullets = g.bullets.eraseIdx j := by
    unfold resolveHit
    split_ifs <;> simp [hs.1]
  refine ⟨hb, ?_, ?_, ?_⟩
  · rw [hb, List.length_eraseIdx, if_pos hj]
    omega
  · unfold resolveHit
    split_ifs <;> simp [hs.2.1]
  · unfold resolveHit
    split_ifs <;> simp [hs.2.2]

/-- The body in terms of the advanced asteroid: explode, or scan the bullets. -/
theorem asteroidBody_eq (E : Env F) (i : Nat) (a0 : Asteroid F) (g : Game F) :
    asteroidBody E i a0 g =
      if (advanceAsteroid E g.ship a0).asteroidType = AsteroidType.SpecialAsteroid ∧
          (advanceAsteroid E g.ship a0).expansionTime ≤ 0 then
        ({ g with
            asteroids := { data := (g.asteroids.data.set i (advanceAsteroid E g.ship a0)).eraseIdx i,
                           cap := g.asteroids.cap },
            particles := (explode E (advanceAsteroid E g.ship a0) g.particles g.rng).1,
            rng := (explode E (advanceAsteroid E g.ship a0) g.particles g.rng).2 }, i)
      else
        collide E i (advanceAsteroid E g.ship a0)
          { g with asteroids := { data := g.asteroids.data.set i (advanceAsteroid E g.ship a0),
                                  cap := g.asteroids.cap } } := by
  unfold asteroidBody advanceAsteroid
  by_cases ht : (moveAsteroid g.ship a0).asteroidType = AsteroidType.SpecialAsteroid
  · have hp : (pulse E (moveAsteroid g.ship a0)).asteroidType = AsteroidType.SpecialAsteroid := ht
    simp only [ht, if_true, hp, true_and, Slice.set, Slice.remove, List.set_set]
  · simp only [ht, if_false, false_and, Slice.set]

/-- The five ways through the body of the asteroid loop. -/
theorem asteroidBody_cases (E : Env F) (i : Nat) (a0 : Asteroid F) (g : Game F) :
    (((advanceAsteroid E g.ship a0).asteroidType = AsteroidType.SpecialAsteroid ∧
        (advanceAsteroid E g.ship a0).expansionTime ≤ 0) ∧
      asteroidBody E i a0 g =
        ({ g with
            asteroids := { data := (g.asteroids.data.set i (advanceAsteroid E g.ship a0)).eraseIdx i,
                           cap := g.asteroids.cap },
            particles := (explode E (advanceAsteroid E g.ship a0) g.particles g.rng).1,
            rng := (explode E (advanceAsteroid E g.ship a0) g.particles g.rng).2 }, i)) ∨
    (¬ ((advanceAsteroid E g.ship a0).asteroidType = AsteroidType.SpecialAsteroid ∧
        (advanceAsteroid E g.ship a0).expansionTime ≤ 0) ∧
      hitScan E (advanceAsteroid E g.ship a0) g.bullets 0 = none ∧
      asteroidBody E i a0 g =
        ({ g with asteroids := { data := g.asteroids.data.set i (advanceAsteroid E g.ship a0),
                                 cap := g.asteroids.cap } }, i + 1)) ∨
    (∃ j, ¬ ((advanceAsteroid E g.ship a0).asteroidType = AsteroidType.SpecialAsteroid ∧
        (advanceAsteroid E g.ship a0).expansionTime ≤ 0) ∧
      hitScan E (advanceAsteroid E g.ship a0) g.bullets 0 = some j ∧
      (advanceAsteroid E g.ship a0).size > 25 ∧ g.asteroids.data.length < g.asteroids.cap ∧
      asteroidBody E i a0 g =
        ({ g with
            asteroids :=
              { data := ((g.asteroids.data.set i (advanceAsteroid E g.ship a0)) ++
                    [(createAsteroid E g.rng (advanceAsteroid E g.ship a0).x
                      (advanceAsteroid E g.ship a0).y ((advanceAsteroid E g.ship a0).size / 2)).1]).set i
                    (createAsteroid E (g.rng + 14) (advanceAsteroid E g.ship a0).x
                      (advanceAsteroid E g.ship a0).y ((advanceAsteroid E g.ship a0).size / 2)).1,
                cap := g.asteroids.cap },
            rng := g.rng + 28,
            bullets := g.bullets.eraseIdx j,
            score := wrapInt (g.score + 10) }, i + 1)) ∨
    (∃ j, ¬ ((advanceAsteroid E g.ship a0).asteroidType = AsteroidType.SpecialAsteroid ∧
        (advanceAsteroid E g.ship a0).expansionTime ≤ 0) ∧
      hitScan E (advanceAsteroid E g.ship a0) g.bullets 0 = some j ∧
      (advanceAsteroid E g.ship a0).size > 25 ∧ ¬ g.asteroids.data.length < g.asteroids.cap ∧
      asteroidBody E i a0 g =
        ({ g with
            asteroids :=
              { data := (g.asteroids.data.set i (advanceAsteroid E g.ship a0)) ++
                    [(createAsteroid E g.rng (advanceAsteroid E g.ship a0).x
                      (advanceAsteroid E g.ship a0).y ((advanceAsteroid E g.ship a0).size / 2)).1],
                cap := E.growCap g.asteroids.cap },
            rng := g.rng + 28,
            bullets := g.bullets.eraseIdx j,
            score := wrapInt (g.score + 10) }, i + 1)) ∨
    (∃ j, ¬ ((advanceAsteroid E g.ship a0).asteroidType = AsteroidType.SpecialAsteroid ∧
        (advanceAsteroid E g.ship a0).expansionTime ≤ 0) ∧
      hitScan E (advanceAsteroid E g.ship a0) g.bullets 0 = some j ∧
      ¬ (advanceAsteroid E g.ship a0).size > 25 ∧
      asteroidBody E i a0 g =
        ({ g with
            asteroids := { data := (g.asteroids.data.set i (advanceAsteroid E g.ship a0)).eraseIdx i,
                           cap := g.asteroids.cap },
            bullets := g.bullets.eraseIdx j,
            score := wrapInt (g.score + 10) }, i)) := by
  by_cases hx : (advanceAsteroid E g.ship a0).asteroidType = AsteroidType.SpecialAsteroid ∧
        (advanceAsteroid E g.ship a0).expansionTime ≤ 0
  · left
    refine ⟨hx, ?_⟩
    rw [asteroidBody_eq, if_pos hx]
  · right
    cases hh : hitScan E (advanceAsteroid E g.ship a0) g.bullets 0 with
    | none =>
      left
      refine ⟨hx, rfl, ?_⟩
      rw [asteroidBody_eq, if_neg hx]
      simp [collide, hh]
    | some j =>
      right
      by_cases hs : (advanceAsteroid E g.ship a0).size > 25
      · by_cases hc : g.asteroids.data.length < g.asteroids.cap
        · left
          refine ⟨j, hx, rfl, hs, hc, ?_⟩
          rw [asteroidBody_eq, if_neg hx]
          simp [collide, hh, resolveHit, hs, splitAsteroid, Slice.set, Slice.append, hc,
            createAsteroid_snd]
        · right; left
          refine ⟨j, hx, rfl, hs, hc, ?_⟩
          rw [asteroidBody_eq, if_neg hx]
          simp [collide, hh, resolveHit, hs, splitAsteroid, Slice.set, Slice.append, hc,
            createAsteroid_snd]
      · right; right
        refine ⟨j, hx, rfl, hs, ?_⟩
        rw [asteroidBody_eq, if_neg hx]
        simp [collide, hh, resolveHit, hs, Slice.set, Slice.remove]

/-- The five equations of the loop body. -/
theorem asteroidBody_explode (E : Env F) (i : Nat) (a0 : Asteroid F) (g : Game F)
    (hx : (advanceAsteroid E g.ship a0).asteroidType = AsteroidType.SpecialAsteroid ∧
      (advanceAsteroid E g.ship a0).expansionTime ≤ 0) :
    asteroidBody E i a0 g =
      ({ g with
          asteroids := { data := (g.asteroids.data.set i (advanceAsteroid E g.ship a0)).eraseIdx i,
                         cap := g.asteroids.cap },
          particles := (explode E (advanceAsteroid E g.ship a0) g.particles g.rng).1,
          rng := (explode E (advanceAsteroid E g.ship a0) g.particles g.rng).2 }, i) := by
  rcases asteroidBody_cases E i a0 g with h | h | h | h | h
  · exact h.2
  · exact absurd hx h.1
  · obtain ⟨_, h, -⟩ := h; exact absurd hx h
  · obtain ⟨_, h, -⟩ := h; exact absurd hx h
  · obtain ⟨_, h, -⟩ := h; exact absurd hx h

theorem asteroidBody_miss (E : Env F) (i : Nat) (a0 : Asteroid F) (g : Game F)
    (hlive : ¬ ((advanceAsteroid E g.ship a0).asteroidType = AsteroidType.SpecialAsteroid ∧
      (advanceAsteroid E g.ship a0).expansionTime ≤ 0))
    (hmiss : hitScan E (advanceAsteroid E g.ship a0) g.bullets 0 = none) :
    asteroidBody E i a0 g =
      ({ g with asteroids := { data := g.asteroids.data.set i (advanceAsteroid E g.ship a0),
                               cap := g.asteroids.cap } }, i + 1) := by
  rcases asteroidBody_cases E i a0 g with h | h | h | h | h
  · exact absurd h.1 hlive
  · exact h.2.2
  · obtain ⟨_, -, h, -⟩ := h; rw [hmiss] at h; cases h
  · obtain ⟨_, -, h, -⟩ := h; rw [hmiss] at h; cases h
  · obtain ⟨_, -, h, -⟩ := h; rw [hmiss] at h; cases h

theorem asteroidBody_remove (E : Env F) (i j : Nat) (a0 : Asteroid F) (g : Game F)
    (hlive : ¬ ((advanceAsteroid E g.ship a0).asteroidType = AsteroidType.SpecialAsteroid ∧
      (advanceAsteroid E g.ship a0).expansionTime ≤ 0))
    (hhit : hitScan E (advanceAsteroid E g.ship a0) g.bullets 0 = some j)
    (hsize : ¬ (advanceAsteroid E g.ship a0).size > 25) :
    asteroidBody E i a0 g =
        ({ g with
            asteroids := { data := (g.asteroids.data.set i (advanceAsteroid E g.ship a0)).eraseIdx i,
                           cap := g.asteroids.cap },
            bullets := g.bullets.eraseIdx j,
            score := wrapInt (g.score + 10) }, i) := by
  rcases asteroidBody_cases E i a0 g with h | h | h | h | h
  · exact absurd h.1 hlive
  · rw [h.2.1] at hhit; cases hhit
  · obtain ⟨_, -, -, h, -⟩ := h; exact absurd h hsize
  · obtain ⟨_, -, -, h, -⟩ := h; exact absurd h hsize
  · obtain ⟨k, -, hk, -, h⟩ := h
    rw [hhit] at hk
    cases hk
    exact h

theorem asteroidBody_frame (E : Env F) (i : Nat) (a : Asteroid F) (g : Game F) :
    (asteroidBody E i a g).1.state = g.state ∧ (asteroidBody E i a g).1.ship = g.ship ∧
    (asteroidBody E i a g).1.stars = g.stars ∧ (asteroidBody E i a g).1.tick = g.tick ∧
    (asteroidBody E i a g).1.worldX = g.worldX ∧ (asteroidBody E i a g).1.worldY = g.worldY := by
  rcases asteroidBody_cases E i a g with h | h | h | h | h
  · rw [h.2]; simp
  · rw [h.2.2]; simp
  · obtain ⟨_, -, -, -, -, h⟩ := h; rw [h]; simp
  · obtain ⟨_, -, -, -, -, h⟩ := h; rw [h]; simp
  · obtain ⟨_, -, -, -, h⟩ := h; rw [h]; simp

/-- The body lowers `(len - i) + number of bullets`. -/
theorem asteroidBody_measure (E : Env F) (i : Nat) (a : Asteroid F) (g : Game F)
    (hget : g.asteroids.data[i]? = some a) :
    ((asteroidBody E i a g).1.asteroids.data.length - (asteroidBody E i a g).2) +
        (asteroidBody E i a g).1.bullets.length + 1 ≤
      (g.asteroids.data.length - i) + g.bullets.length := by
  have hi : i < g.asteroids.data.length := by
    rcases List.getElem?_eq_some_iff.mp hget with ⟨h, _⟩
    exact h
  rcases asteroidBody_cases E i a g with h | h | h | h | h
  · rw [h.2]
    simp only [List.length_eraseIdx, List.length_set, hi, if_true]
    omega
  · rw [h.2.2]
    simp only [List.length_set]
    omega
  · obtain ⟨j, -, hj, -, -, h⟩ := h
    have := hitScan_lt E _ _ _ hj
    rw [h]
    simp only [List.length_eraseIdx, List.length_set, List.length_append, List.length_singleton,
      this, if_true]
    omega
  · obtain ⟨j, -, hj, -, -, h⟩ := h
    have := hitScan_lt E _ _ _ hj
    rw [h]
    simp only [List.length_eraseIdx, List.length_set, List.length_append, List.length_singleton,
      this, if_true]
    omega
  · obtain ⟨j, -, hj, -, h⟩ := h
    have := hitScan_lt E _ _ _ hj
    rw [h]
    simp only [List.length_eraseIdx, List.length_set, this, hi, if_true]
    omega

theorem getElem?_split {α : Type} (l : List α) (i : Nat) (a : α) (h : l[i]? = some a) :
    ∃ pre post, l = pre ++ a :: post ∧ pre.length = i := by
  obtain ⟨hi, ha⟩ := List.getElem?_eq_some_iff.mp h
  refine ⟨l.take i, l.drop (i + 1), ?_, by simp; omega⟩
  rw [← ha]
  simp

theorem set_at_length {α : Type} (pre post : List α) (a x : α) :
    (pre ++ a :: post).set pre.length x = pre ++ x :: post := by
  rw [List.set_append_right _ _ (Nat.le_refl _)]
  simp

theorem eraseIdx_at_length {α : Type} (pre post : List α) (a : α) :
    (pre ++ a :: post).eraseIdx pre.length = pre ++ post := by
  rw [List.eraseIdx_append_of_length_le (Nat.le_refl _)]
  simp

/-- The slice after one pass through the loop body, as a rearrangement of the
slice before: the element at `i` gives way to `mid` (nothing, itself advanced, or
a child), and `extra` (nothing or a child) is appended. -/
theorem asteroidBody_shape (E : Env F) (i : Nat) (a0 : Asteroid F) (g : Game F)
    (hget : g.asteroids.data[i]? = some a0) :
    ∃ pre post mid extra : List (Asteroid F),
      g.asteroids.data = pre ++ a0 :: post ∧ pre.length = i ∧
      (asteroidBody E i a0 g).1.asteroids.data = pre ++ mid ++ post ++ extra ∧
      (asteroidBody E i a0 g).2 = pre.length + mid.length ∧
      (∀ x ∈ mid, expiring a0 = false ∧ (x = advanceAsteroid E g.ship a0 ∨
        ∃ c, x = (createAsteroid E c (advanceAsteroid E g.ship a0).x
          (advanceAsteroid E g.ship a0).y ((advanceAsteroid E g.ship a0).size / 2)).1)) ∧
      (∀ x ∈ extra, expiring a0 = false ∧
        ∃ c, x = (createAsteroid E c (advanceAsteroid E g.ship a0).x
          (advanceAsteroid E g.ship a0).y ((advanceAsteroid E g.ship a0).size / 2)).1) ∧
      (expiring a0 = true → mid = [] ∧ extra = [] ∧
        (asteroidBody E i a0 g).1.particles =
          (explode E (advanceAsteroid E g.ship a0) g.particles g.rng).1 ∧
        (asteroidBody E i a0 g).1.bullets = g.bullets ∧
        (asteroidBody E i a0 g).1.score = g.score) ∧
      (expiring a0 = false → (asteroidBody E i a0 g).1.particles = g.particles) := by
  obtain ⟨pre, post, hdata, hlen⟩ := getElem?_split _ _ _ hget
  subst hlen
  have hexp := advanceAsteroid_explodes E g.ship a0
  have hne : ∀ {p : Prop}, ¬ p → (p ↔ expiring a0 = true) → expiring a0 = false := by
    intro p hp hiff
    cases h : expiring a0 with
    | false => rfl
    | true => exact absurd (hiff.mpr h) hp
  rcases asteroidBody_cases E pre.length a0 g with hc | hc | hc | hc | hc
  · have he : expiring a0 = true := hexp.mp hc.1
    refine ⟨pre, post, [], [], hdata, rfl, ?_, ?_, ?_, ?_, ?_, ?_⟩
    · rw [hc.2, hdata]; simp [set_at_length, eraseIdx_at_length]
    · rw [hc.2]; simp
    · simp
    · simp
    · intro _; rw [hc.2]; exact ⟨rfl, rfl, rfl, rfl, rfl⟩
    · intro h; rw [he] at h; cases h
  · have he := hne hc.1 hexp
    refine ⟨pre, post, [advanceAsteroid E g.ship a0], [], hdata, rfl, ?_, ?_, ?_, ?_, ?_, ?_⟩
    · rw [hc.2.2, hdata]; simp [set_at_length]
    · rw [hc.2.2]; simp
    · intro x hx; rw [List.mem_singleton.mp hx]; exact ⟨he, Or.inl rfl⟩
    · simp
    · intro h; rw [he] at h; cases h
    · intro _; rw [hc.2.2]
  · obtain ⟨j, hl, -, -, -, hc⟩ := hc
    have he := hne hl hexp
    refine ⟨pre, post, [(createAsteroid E (g.rng + 14) (advanceAsteroid E g.ship a0).x
        (advanceAsteroid E g.ship a0).y ((advanceAsteroid E g.ship a0).size / 2)).1],
      [(createAsteroid E g.rng (advanceAsteroid E g.ship a0).x
        (advanceAsteroid E g.ship a0).y ((advanceAsteroid E g.ship a0).size / 2)).1],
      hdata, rfl, ?_, ?_, ?_, ?_, ?_, ?_⟩
    · rw [hc, hdata]
      simp only [set_at_length]
      rw [show pre ++ advanceAsteroid E g.ship a0 :: post ++ [(createAsteroid E g.rng
          (advanceAsteroid E g.ship a0).x (advanceAsteroid E g.ship a0).y
          ((advanceAsteroid E g.ship a0).size / 2)).1] =
        pre ++ advanceAsteroid E g.ship a0 :: (post ++ [(createAsteroid E g.rng
          (advanceAsteroid E g.ship a0).x (advanceAsteroid E g.ship a0).y
          ((advanceAsteroid E g.ship a0).size / 2)).1]) by simp]
      rw [set_at_length]
      simp
    · rw [hc]; simp
    · intro x hx; rw [List.mem_singleton.mp hx]; exact ⟨he, Or.inr ⟨_, rfl⟩⟩
    · intro x hx; rw [List.mem_singleton.mp hx]; exact ⟨he, ⟨_, rfl⟩⟩
    · intro h; rw [he] at h; cases h
    · intro _; rw [hc]
  · obtain ⟨j, hl, -, -, -, hc⟩ := hc
    have he := hne hl hexp
    refine ⟨pre, post, [advanceAsteroid E g.ship a0],
      [(createAsteroid E g.rng (advanceAsteroid E g.ship a0).x
        (advanceAsteroid E g.ship a0).y ((advanceAsteroid E g.ship a0).size / 2)).1],
      hdata, rfl, ?_, ?_, ?_, ?_, ?_, ?_⟩
    · rw [hc, hdata]; simp [set_at_length]
    · rw [hc]; simp
    · intro x hx; rw [List.mem_singleton.mp hx]; exact ⟨he, Or.inl rfl⟩
    · intro x hx; rw [List.mem_singleton.mp hx]; exact ⟨he, ⟨_, rfl⟩⟩
    · intro h; rw [he] at h; cases h
    · intro _; rw [hc]
  · obtain ⟨j, hl, -, -, hc⟩ := hc
    have he := hne hl hexp
    refine ⟨pre, post, [], [], hdata, rfl, ?_, ?_, ?_, ?_, ?_, ?_⟩
    · rw [hc, hdata]; simp [set_at_length, eraseIdx_at_length]
    · rw [hc]; simp
    · simp
    · simp
    · intro h; rw [he] at h; cases h
    · intro _; rw [hc]

/-- Every slot the asteroid loop has passed holds an asteroid on screen. -/
theorem asteroidBody_onScreen (E : Env F) (i : Nat) (a0 : Asteroid F) (g : Game F)
    (hget : g.asteroids.data[i]? = some a0)
    (h : ∀ j, j < i → ∀ a, g.asteroids.data[j]? = some a → OnScreen a.x a.y) :
    ∀ j, j < (asteroidBody E i a0 g).2 → ∀ a,
      (asteroidBody E i a0 g).1.asteroids.data[j]? = some a → OnScreen a.x a.y := by
  have hi : i < g.asteroids.data.length := (List.getElem?_eq_some_iff.mp hget).1
  have hadv := advanceAsteroid_onScreen E g.ship a0
  have erase : ∀ j, j < i → ∀ a,
      ((g.asteroids.data.set i (advanceAsteroid E g.ship a0)).eraseIdx i)[j]? = some a →
      OnScreen a.x a.y := by
    intro j hj a ha
    rw [List.getElem?_eraseIdx, if_pos hj, List.getElem?_set_ne (by omega)] at ha
    exact h j hj a ha
  have setOnly : ∀ j, j < i + 1 → ∀ a,
      (g.asteroids.data.set i (advanceAsteroid E g.ship a0))[j]? = some a → OnScreen a.x a.y := by
    intro j hj a ha
    by_cases hji : j = i
    · subst hji
      rw [List.getElem?_set_self hi] at ha
      cases ha
      exact hadv
    · rw [List.getElem?_set_ne (fun hh => hji hh.symm)] at ha
      exact h j (by omega) a ha
  rcases asteroidBody_cases E i a0 g with hc | hc | hc | hc | hc
  · rw [hc.2]; exact erase
  · rw [hc.2.2]; exact setOnly
  · obtain ⟨_, -, -, -, -, hc⟩ := hc
    rw [hc]
    intro j hj a ha
    simp only at ha hj
    by_cases hji : j = i
    · subst hji
      rw [List.getElem?_set_self (by simp; omega)] at ha
      cases ha
      exact hadv
    · rw [List.getElem?_set_ne (fun hh => hji hh.symm),
        List.getElem?_append_left (by simp; omega)] at ha
      exact setOnly j hj a ha
  · obtain ⟨_, -, -, -, -, hc⟩ := hc
    rw [hc]
    intro j hj a ha
    simp only at ha hj
    rw [List.getElem?_append_left (by simp; omega)] at ha
    exact setOnly j hj a ha
  · obtain ⟨_, -, -, -, hc⟩ := hc
    rw [hc]; exact erase

theorem explodes_when_due (E : Env F) (k : Nat) (a1 : Asteroid F) (g1 : Game F)
    (hget : g1.asteroids.data[k]? = some a1) (hdue : expiring a1 = true) :
    (asteroidBody E k a1 g1).1.asteroids.data = g1.asteroids.data.eraseIdx k ∧
    (asteroidBody E k a1 g1).1.bullets = g1.bullets ∧
    (asteroidBody E k a1 g1).1.score = g1.score ∧ (asteroidBody E k a1 g1).2 = k ∧
    ∃ new : List (Particle F), (asteroidBody E k a1 g1).1.particles = g1.particles ++ new ∧
      new.length = 100 ∧ ∀ p ∈ new, p.lifetime = 180 := by
  have hx := (advanceAsteroid_explodes E g1.ship a1).mpr hdue
  rw [asteroidBody_explode E k a1 g1 hx]
  obtain ⟨pre, post, hdata, hlen⟩ := getElem?_split _ _ _ hget
  obtain ⟨new, h1, h2, h3⟩ := explode_spec E (advanceAsteroid E g1.ship a1) g1.particles g1.rng
  subst hlen
  refine ⟨?_, rfl, rfl, rfl, new, h1, h2, ?_⟩
  · simp only [hdata, set_at_length, eraseIdx_at_length]
  · intro p hp
    rw [(h3 p hp).1]
    norm_num

/-- With room in the backing array (`len < cap`) a hit on an asteroid of size
`S > 25` does replace it: index `i` holds a child of size `S/2` at the parent's
position and a second such child is appended. -/
theorem split_with_room_replaces_parent (E : Env F) (i j : Nat) (a0 : Asteroid F) (g : Game F)
    (hget : g.asteroids.data[i]? = some a0)
    (hroom : g.asteroids.data.length < g.asteroids.cap)
    (hlive : ¬ ((advanceAsteroid E g.ship a0).asteroidType = AsteroidType.SpecialAsteroid ∧
      (advanceAsteroid E g.ship a0).expansionTime ≤ 0))
    (hhit : hitScan E (advanceAsteroid E g.ship a0) g.bullets 0 = some j)
    (hsize : (advanceAsteroid E g.ship a0).size > 25) :
    (asteroidBody E i a0 g).1.asteroids.data.length = g.asteroids.data.length + 1 ∧
    (∃ child, (asteroidBody E i a0 g).1.asteroids.data[i]? = some child ∧
      child.size = (advanceAsteroid E g.ship a0).size / 2 ∧
      child.x = (advanceAsteroid E g.ship a0).x ∧ child.y = (advanceAsteroid E g.ship a0).y) ∧
    (∃ child, (asteroidBody E i a0 g).1.asteroids.data[g.asteroids.data.length]? = some child ∧
      child.size = (advanceAsteroid E g.ship a0).size / 2 ∧
      child.x = (advanceAsteroid E g.ship a0).x ∧ child.y = (advanceAsteroid E g.ship a0).y) := by
  have hi : i < g.asteroids.data.length := (List.getElem?_eq_some_iff.mp hget).1
  have hbody : (asteroidBody E i a0 g).1.asteroids.data =
      (g.asteroids.data.set i (advanceAsteroid E g.ship a0) ++
        [(createAsteroid E g.rng (advanceAsteroid E g.ship a0).x (advanceAsteroid E g.ship a0).y
          ((advanceAsteroid E g.ship a0).size / 2)).1]).set i
        (createAsteroid E (g.rng + 14) (advanceAsteroid E g.ship a0).x
          (advanceAsteroid E g.ship a0).y ((advanceAsteroid E g.ship a0).size / 2)).1 := by
    rcases asteroidBody_cases E i a0 g with h | h | h | h | h
    · exact absurd h.1 hlive
    · rw [h.2.1] at hhit; cases hhit
    · obtain ⟨_, -, -, -, -, h⟩ := h; rw [h]
    · obtain ⟨_, -, -, -, hc, -⟩ := h; exact absurd hroom hc
    · obtain ⟨_, -, -, hs, -⟩ := h; exact absurd hsize hs
  rw [hbody]
  refine ⟨by simp, ⟨_, List.getElem?_set_self (by simp; omega), rfl, rfl, rfl⟩, ?_⟩
  refine ⟨(createAsteroid E g.rng (advanceAsteroid E g.ship a0).x (advanceAsteroid E g.ship a0).y
      ((advanceAsteroid E g.ship a0).size / 2)).1, ?_, rfl, rfl, rfl⟩
  rw [List.getElem?_set_ne (by omega), List.getElem?_append_right (by simp)]
  simp

/-- A hit on an asteroid of size `S ≤ 25` removes it and adds nothing. -/
theorem small_asteroid_removed (E : Env F) (i j : Nat) (a0 : Asteroid F) (g : Game F)
    (hget : g.asteroids.data[i]? = some a0)
    (hlive : ¬ ((advanceAsteroid E g.ship a0).asteroidType = AsteroidType.SpecialAsteroid ∧
      (advanceAsteroid E g.ship a0).expansionTime ≤ 0))
    (hhit : hitScan E (advanceAsteroid E g.ship a0) g.bullets 0 = some j)
    (hsize : ¬ (advanceAsteroid E g.ship a0).size > 25) :
    (asteroidBody E i a0 g).1.asteroids.data = g.asteroids.data.eraseIdx i ∧
    (asteroidBody E i a0 g).1.asteroids.data.length + 1 = g.asteroids.data.length := by
  have hi : i < g.asteroids.data.length := (List.getElem?_eq_some_iff.mp hget).1
  obtain ⟨pre, post, hdata, hlen⟩ := getElem?_split _ _ _ hget
  subst hlen
  rw [asteroidBody_remove E pre.length j a0 g hlive hhit hsize]
  simp [hdata, set_at_length, eraseIdx_at_length]
  omega

/-! ## The asteroid loop -/

/-- An invariant of the body, possibly depending on the index, holds when the
loop stops. -/
theorem asteroidLoop_inv (E : Env F) (Q : Nat → Game F → Prop)
    (hQ : ∀ i a g, g.asteroids.data[i]? = some a → Q i g →
      Q (asteroidBody E i a g).2 (asteroidBody E i a g).1) :
    ∀ fuel i g, Q i g → Q (asteroidLoop E fuel i g).2 (asteroidLoop E fuel i g).1 := by
  intro fuel
  induction fuel with
  | zero => intro i g h; simpa [asteroidLoop] using h
  | succ n ih =>
    intro i g h
    rw [asteroidLoop]
    cases hget : g.asteroids.data[i]? with
    | none => simpa using h
    | some a => exact ih _ _ (hQ i a g hget h)

theorem asteroidLoop_step (E : Env F) (n i : Nat) (a : Asteroid F) (g : Game F)
    (h : g.asteroids.data[i]? = some a) :
    asteroidLoop E (n + 1) i g = asteroidLoop E n (asteroidBody E i a g).2 (asteroidBody E i a g).1 := by
  rw [asteroidLoop, h]

theorem asteroidLoop_stop (E : Env F) (n i : Nat) (g : Game F)
    (h : g.asteroids.data[i]? = none) : asteroidLoop E n i g = (g, i) := by
  cases n with
  | zero => rfl
  | succ n => rw [asteroidLoop, h]

/-- With fuel `(len - i) + number of bullets` the loop runs to its end: it
stops at an index that is no longer in the slice. -/
theorem asteroidLoop_done (E : Env F) :
    ∀ fuel i g, (g.asteroids.data.length - i) + g.bullets.length ≤ fuel →
      (asteroidLoop E fuel i g).1.asteroids.data.length ≤ (asteroidLoop E fuel i g).2 := by
  intro fuel
  induction fuel with
  | zero =>
    intro i g h
    simp only [asteroidLoop]
    omega
  | succ n ih =>
    intro i g h
    rw [asteroidLoop]
    cases hget : g.asteroids.data[i]? with
    | none =>
      simpa using List.getElem?_eq_none_iff.mp hget
    | some a =>
      have := asteroidBody_measure E i a g hget
      exact ih _ _ (by omega)

theorem asteroidLoop_frame (E : Env F) (fuel i : Nat) (g : Game F) :
    (asteroidLoop E fuel i g).1.state = g.state ∧ (asteroidLoop E fuel i g).1.ship = g.ship ∧
    (asteroidLoop E fuel i g).1.stars = g.stars ∧ (asteroidLoop E fuel i g).1.tick = g.tick ∧
    (asteroidLoop E fuel i g).1.worldX = g.worldX ∧ (asteroidLoop E fuel i g).1.worldY = g.worldY := by
  refine asteroidLoop_inv E
    (fun _ g1 => g1.state = g.state ∧ g1.ship = g.ship ∧ g1.stars = g.stars ∧ g1.tick = g.tick ∧
      g1.worldX = g.worldX ∧ g1.worldY = g.worldY) ?_ fuel i g ⟨rfl, rfl, rfl, rfl, rfl, rfl⟩
  intro i a g1 _ h
  have hb := asteroidBody_frame E i a g1
  exact ⟨hb.1.trans h.1, hb.2.1.trans h.2.1, hb.2.2.1.trans h.2.2.1,
    hb.2.2.2.1.trans h.2.2.2.1, hb.2.2.2.2.1.trans h.2.2.2.2.1, hb.2.2.2.2.2.trans h.2.2.2.2.2⟩

theorem asteroidLoop_score (E : Env F) (fuel i : Nat) (g : Game F) :
    (asteroidLoop E fuel i g).1.bullets.length ≤ g.bullets.length ∧
    (asteroidLoop E fuel i g).1.score =
      scoreAfter (g.bullets.length - (asteroidLoop E fuel i g).1.bullets.length) g.score := by
  refine asteroidLoop_inv E
    (fun _ g1 => g1.bullets.length ≤ g.bullets.length ∧
      g1.score = scoreAfter (g.bullets.length - g1.bullets.length) g.score) ?_ fuel i g
    ⟨Nat.le_refl _, by simp [scoreAfter]⟩
  intro i a g1 _ h
  have hit : ∀ j, j < g1.bullets.length →
      (g1.bullets.eraseIdx j).length ≤ g.bullets.length ∧
      wrapInt (g1.score + 10) =
        scoreAfter (g.bullets.length - (g1.bullets.eraseIdx j).length) g.score := by
    intro j hj
    have hl : (g1.bullets.eraseIdx j).length = g1.bullets.length - 1 := by
      simp [List.length_eraseIdx, hj]
    rw [hl]
    refine ⟨by omega, ?_⟩
    have : g.bullets.length - (g1.bullets.length - 1) = (g.bullets.length - g1.bullets.length) + 1 := by
      omega
    rw [this, scoreAfter, Function.iterate_succ_apply', ← scoreAfter, ← h.2]
  rcases asteroidBody_cases E i a g1 with hc | hc | hc | hc | hc
  · rw [hc.2]; exact h
  · rw [hc.2.2]; exact h
  · obtain ⟨j, -, hj, -, -, hc⟩ := hc
    rw [hc]; exact hit j (hitScan_lt E _ _ _ hj)
  · obtain ⟨j, -, hj, -, -, hc⟩ := hc
    rw [hc]; exact hit j (hitScan_lt E _ _ _ hj)
  · obtain ⟨j, -, hj, -, hc⟩ := hc
    rw [hc]; exact hit j (hitScan_lt E _ _ _ hj)

theorem asteroidLoop_bullets_subset (E : Env F) (fuel i : Nat) (g : Game F) :
    ∀ b ∈ (asteroidLoop E fuel i g).1.bullets, b ∈ g.bullets := by
  refine asteroidLoop_inv E (fun _ g1 => ∀ b ∈ g1.bullets, b ∈ g.bullets) ?_ fuel i g
    (fun _ h => h)
  intro i a g1 _ h
  rcases asteroidBody_cases E i a g1 with hc | hc | hc | hc | hc
  · rw [hc.2]; exact h
  · rw [hc.2.2]; exact h
  · obtain ⟨j, -, -, -, -, hc⟩ := hc
    rw [hc]; exact fun b hb => h b (List.mem_of_mem_eraseIdx hb)
  · obtain ⟨j, -, -, -, -, hc⟩ := hc
    rw [hc]; exact fun b hb => h b (List.mem_of_mem_eraseIdx hb)
  · obtain ⟨j, -, -, -, hc⟩ := hc
    rw [hc]; exact fun b hb => h b (List.mem_of_mem_eraseIdx hb)

theorem asteroidLoop_single_miss (E : Env F) (G : Game F) (a : Asteroid F) (fuel : Nat)
    (hfuel : 0 < fuel) (hdata : G.asteroids.data = [a])
    (hlive : ¬ ((advanceAsteroid E G.ship a).asteroidType = AsteroidType.SpecialAsteroid ∧
      (advanceAsteroid E G.ship a).expansionTime ≤ 0))
    (hmiss : hitScan E (advanceAsteroid E G.ship a) G.bullets 0 = none) :
    (asteroidLoop E fuel 0 G).1.bullets = G.bullets := by
  obtain ⟨n, rfl⟩ := Nat.exists_eq_succ_of_ne_zero (Nat.pos_iff_ne_zero.mp hfuel)
  have hget : G.asteroids.data[0]? = some a := by rw [hdata]; rfl
  rw [asteroidLoop_step E n 0 a G hget, asteroidBody_miss E 0 a G hlive hmiss]
  rw [asteroidLoop_stop _ _ _ _ (by simp [hdata])]

/-! ## The phases of `updatePlaying` -/

theorem fire_frame (E : Env F) (keys : Keys) (g : Game F) :
    (fire E keys g).ship = g.ship ∧ (fire E keys g).asteroids = g.asteroids ∧
    (fire E keys g).stars = g.stars ∧ (fire E keys g).particles = g.particles ∧
    (fire E keys g).score = g.score ∧ (fire E keys g).state = g.state ∧
    (fire E keys g).worldX = g.worldX ∧ (fire E keys g).worldY = g.worldY ∧
    (fire E keys g).tick = g.tick ∧ (fire E keys g).rng = g.rng := by
  unfold fire
  split_ifs <;> simp

theorem fire_idle (E : Env F) (g : Game F) : fire E idle g = g := by
  simp [fire, idle]

theorem bulletPhase_frame (E : Env F) (keys : Keys) (g : Game F) :
    (bulletPhase E keys g).ship = shipStep E keys g.ship ∧
    (bulletPhase E keys g).asteroids = g.asteroids ∧
    (bulletPhase E keys g).stars = g.stars.map (moveStar (shipStep E keys g.ship)) ∧
    (bulletPhase E keys g).particles = g.particles ∧
    (bulletPhase E keys g).score = g.score ∧ (bulletPhase E keys g).state = g.state ∧
    (bulletPhase E keys g).tick = g.tick ∧ (bulletPhase E keys g).rng = g.rng := by
  have h := fire_frame E keys (shipPhase E keys g)
  simp only [bulletPhase]
  refine ⟨h.1, h.2.1, h.2.2.1, h.2.2.2.1, h.2.2.2.2.1, h.2.2.2.2.2.1, h.2.2.2.2.2.2.2.2.1,
    h.2.2.2.2.2.2.2.2.2⟩

theorem bulletPhase_bullets (E : Env F) (keys : Keys) (g : Game F) :
    (bulletPhase E keys g).bullets =
      ((fire E keys (shipPhase E keys g)).bullets.map
        (advanceBullet (shipStep E keys g.ship))).filter (fun b => decide (0 < b.lifetime)) := by
  simp only [bulletPhase, bulletLoop_eq, (fire_frame E keys (shipPhase E keys g)).1]
  rfl

theorem asteroidPhase_eq (E : Env F) (keys : Keys) (g : Game F) :
    asteroidPhase E keys g =
      (asteroidLoop E ((bulletPhase E keys g).asteroids.data.length +
        (bulletPhase E keys g).bullets.length) 0 (bulletPhase E keys g)).1 := rfl

theorem asteroidPhase_frame (E : Env F) (keys : Keys) (g : Game F) :
    (asteroidPhase E keys g).ship = shipStep E keys g.ship ∧
    (asteroidPhase E keys g).stars = g.stars.map (moveStar (shipStep E keys g.ship)) ∧
    (asteroidPhase E keys g).state = g.state ∧ (asteroidPhase E keys g).tick = g.tick := by
  have h := asteroidLoop_frame E
    ((bulletPhase E keys g).asteroids.data.length + (bulletPhase E keys g).bullets.length) 0
    (bulletPhase E keys g)
  have hb := bulletPhase_frame E keys g
  unfold asteroidPhase
  exact ⟨h.2.1.trans hb.1, h.2.2.1.trans hb.2.2.1, h.1.trans hb.2.2.2.2.2.1,
    h.2.2.2.1.trans hb.2.2.2.2.2.2.1⟩

theorem updatePlaying_frame (E : Env F) (keys : Keys) (g : Game F) :
    (updatePlaying E keys g).score = (asteroidPhase E keys g).score ∧
    (updatePlaying E keys g).bullets = (asteroidPhase E keys g).bullets ∧
    (updatePlaying E keys g).asteroids = (asteroidPhase E keys g).asteroids ∧
    (updatePlaying E keys g).particles =
      ((asteroidPhase E keys g).particles.map advanceParticle).filter
        (fun p => decide (0 < p.lifetime)) := by
  unfold updatePlaying
  simp only [particlePhase, particleLoop_eq]
  split_ifs <;> simp

theorem updatePlaying_ship (E : Env F) (keys : Keys) (g : Game F) :
    (updatePlaying E keys g).ship = shipStep E keys g.ship ∧
    (updatePlaying E keys g).stars = g.stars.map (moveStar (shipStep E keys g.ship)) := by
  have h := asteroidPhase_frame E keys g
  unfold updatePlaying
  simp only [particlePhase]
  split_ifs <;> exact ⟨h.1, h.2.1⟩

theorem updatePlaying_state (E : Env F) (keys : Keys) (g : Game F) :
    ((updatePlaying E keys g).asteroids.data = [] →
      (updatePlaying E keys g).state = GameState.StateGameOver) ∧
    ((updatePlaying E keys g).asteroids.data ≠ [] → (updatePlaying E keys g).state = g.state) := by
  have hst : (particlePhase E keys g).state = g.state := by
    simp only [particlePhase, asteroidPhase]
    rw [(asteroidLoop_frame E _ 0 (bulletPhase E keys g)).1]
    exact (bulletPhase_frame E keys g).2.2.2.2.2.1
  unfold updatePlaying
  simp only []
  by_cases h : (particlePhase E keys g).asteroids.data.length = 0
  · simp [h, List.length_eq_zero.mp h]
  · have h2 : (particlePhase E keys g).asteroids.data ≠ [] := fun hh => h (by simp [hh])
    simp [h, h2, hst]

theorem asteroidPhase_onScreen (E : Env F) (keys : Keys) (g : Game F) :
    ∀ a ∈ (asteroidPhase E keys g).asteroids.data, OnScreen a.x a.y := by
  rw [asteroidPhase_eq]
  intro a ha
  obtain ⟨j, hj, hja⟩ := List.getElem_of_mem ha
  have hdone := asteroidLoop_done E
    ((bulletPhase E keys g).asteroids.data.length + (bulletPhase E keys g).bullets.length) 0
    (bulletPhase E keys g) (by omega)
  have hinv := asteroidLoop_inv E
    (fun i g1 => ∀ j, j < i → ∀ a, g1.asteroids.data[j]? = some a → OnScreen a.x a.y)
    (fun i a0 g1 hget h => asteroidBody_onScreen E i a0 g1 hget h)
    ((bulletPhase E keys g).asteroids.data.length + (bulletPhase E keys g).bullets.length) 0
    (bulletPhase E keys g) (fun j hj => absurd hj (Nat.not_lt_zero j))
  exact hinv j (by omega) a (by rw [List.getElem?_eq_getElem hj, hja])

/-- A property of asteroids that holds of every advanced asteroid the loop keeps
and of every child it creates holds of the whole slice after the loop. -/
theorem asteroidPhase_forall (E : Env F) (keys : Keys) (g : Game F) (P : Asteroid F → Prop)
    (hadv : ∀ ship a0, expiring a0 = false → P (advanceAsteroid E ship a0))
    (hchild : ∀ ship a0 c, expiring a0 = false →
      P (createAsteroid E c (advanceAsteroid E ship a0).x (advanceAsteroid E ship a0).y
        ((advanceAsteroid E ship a0).size / 2)).1) :
    ∀ a ∈ (asteroidPhase E keys g).asteroids.data, P a := by
  rw [asteroidPhase_eq]
  have hdone := asteroidLoop_done E
    ((bulletPhase E keys g).asteroids.data.length + (bulletPhase E keys g).bullets.length) 0
    (bulletPhase E keys g) (by omega)
  have hinv := asteroidLoop_inv E (fun i g1 => ∀ a ∈ g1.asteroids.data.take i, P a)
    (by
      intro i a0 g1 hget h
      obtain ⟨pre, post, mid, extra, hdata, hlen, hd, hi, hmid, -, -, -⟩ :=
        asteroidBody_shape E i a0 g1 hget
      rw [hd, hi]
      subst hlen
      rw [hdata] at h
      simp only [List.take_left] at h
      intro a ha
      rw [show pre ++ mid ++ post ++ extra = (pre ++ mid) ++ (post ++ extra) by simp,
        show pre.length + mid.length = (pre ++ mid).length by simp, List.take_left] at ha
      rcases List.mem_append.mp ha with ha | ha
      · exact h a ha
      · obtain ⟨he, hx | ⟨c, hx⟩⟩ := hmid a ha
        · rw [hx]; exact hadv _ _ he
        · rw [hx]; exact hchild _ _ c he)
    ((bulletPhase E keys g).asteroids.data.length + (bulletPhase E keys g).bullets.length) 0
    (bulletPhase E keys g) (by simp)
  intro a ha
  exact hinv a (by rw [List.take_of_length_le hdone]; exact ha)

/-- The particles after the asteroid loop: the earlier ones, then 100 for every
asteroid of the slice that was due to expire. -/
theorem asteroidPhase_particles (E : Env F) (keys : Keys) (g : Game F) :
    ∃ new : List (Particle F),
      (asteroidPhase E keys g).particles = g.particles ++ new ∧
      new.length = 100 * List.countP expiring g.asteroids.data ∧
      ∀ p ∈ new, p.lifetime = 3 * 60 ∧ OnScreen p.x p.y ∧
        p.color = { R := 255, G := 255, B := 0, A := 255 } := by
  rw [asteroidPhase_eq]
  have hdone := asteroidLoop_done E
    ((bulletPhase E keys g).asteroids.data.length + (bulletPhase E keys g).bullets.length) 0
    (bulletPhase E keys g) (by omega)
  have hb := bulletPhase_frame E keys g
  have hinv := asteroidLoop_inv E
    (fun i g1 => ∃ new : List (Particle F), g1.particles = g.particles ++ new ∧
      new.length + 100 * List.countP expiring (g1.asteroids.data.drop i) =
        100 * List.countP expiring g.asteroids.data ∧
      ∀ p ∈ new, p.lifetime = 3 * 60 ∧ OnScreen p.x p.y ∧
        p.color = { R := 255, G := 255, B := 0, A := 255 })
    (by
      intro i a0 g1 hget h
      obtain ⟨new, hp, hcount, hall⟩ := h
      obtain ⟨pre, post, mid, extra, hdata, hlen, hd, hi, -, hextra, hexp, hnexp⟩ :=
        asteroidBody_shape E i a0 g1 hget
      subst hlen
      rw [hdata, List.drop_left] at hcount
      rw [hd, hi, show pre ++ mid ++ post ++ extra = (pre ++ mid) ++ (post ++ extra) by simp,
        show pre.length + mid.length = (pre ++ mid).length by simp, List.drop_left]
      cases he : expiring a0 with
      | true =>
        obtain ⟨-, hex, hpart, -, -⟩ := hexp he
        obtain ⟨burst, hb1, hb2, hb3⟩ :=
          explode_spec E (advanceAsteroid E g1.ship a0) g1.particles g1.rng
        refine ⟨new ++ burst, ?_, ?_, ?_⟩
        · rw [hpart, hb1, hp]; simp
        · rw [hex]
          simp only [List.countP_cons, he, if_true, List.append_nil, List.length_append] at hcount ⊢
          omega
        · intro p hp
          rcases List.mem_append.mp hp with hp | hp
          · exact hall p hp
          · obtain ⟨h1, h2, h3, h4⟩ := hb3 p hp
            refine ⟨h1, ?_, h4⟩
            rw [h2, h3]
            exact advanceAsteroid_onScreen E g1.ship a0
      | false =>
        refine ⟨new, by rw [hnexp he, hp], ?_, hall⟩
        have hex : List.countP expiring extra = 0 := by
          rw [List.countP_eq_zero]
          intro x hx
          obtain ⟨-, c, hc⟩ := hextra x hx
          rw [hc, createAsteroid_not_expiring]
          simp
        simp only [List.countP_cons, he, List.countP_append, hex] at hcount ⊢
        simpa using hcount)
    ((bulletPhase E keys g).asteroids.data.length + (bulletPhase E keys g).bullets.length) 0
    (bulletPhase E keys g)
    ⟨[], by rw [hb.2.2.2.1]; simp, by rw [hb.2.1]; simp, by simp⟩
  obtain ⟨new, h1, h2, h3⟩ := hinv
  rw [List.drop_of_length_le hdone] at h2
  exact ⟨new, h1, by simpa using h2, h3⟩

/-- The particles at the end of a tick entered without particles: 100 for each
asteroid that was due to expire, each already advanced once. -/
theorem expiry_particles (E : Env F) (keys : Keys) (g : Game F) (hparts : g.particles = []) :
    (updatePlaying E keys g).particles.length = 100 * List.countP expiring g.asteroids.data ∧
    ∀ p ∈ (updatePlaying E keys g).particles, p.lifetime = 179 := by
  obtain ⟨new, h1, h2, h3⟩ := asteroidPhase_particles E keys g
  rw [hparts, List.nil_append] at h1
  rw [(updatePlaying_frame E keys g).2.2.2, h1]
  have hlife : ∀ p ∈ new.map advanceParticle, p.lifetime = 179 := by
    intro p hp
    obtain ⟨p0, hp0, rfl⟩ := List.mem_map.mp hp
    show p0.lifetime - 1 = 179
    rw [(h3 p0 hp0).1]
    norm_num
  have hkeep : (new.map advanceParticle).filter (fun p => decide (0 < p.lifetime)) =
      new.map advanceParticle := by
    rw [List.filter_eq_self]
    intro p hp
    rw [hlife p hp]
    simp
  rw [hkeep]
  exact ⟨by simp [h2], hlife⟩

/-! ## `Update`, `restartGame` and `main` -/

theorem Update_playing (E : Env F) (keys : Keys) (g : Game F)
    (h : g.state = GameState.StatePlaying) :
    Update E keys g = updatePlaying E keys { g with tick := wrapInt (g.tick + 1) } := by
  simp [Update, h]

theorem Update_gameOver (E : Env F) (keys : Keys) (g : Game F)
    (h : g.state = GameState.StateGameOver) :
    Update E keys g = updateGameOver E keys { g with tick := wrapInt (g.tick + 1) } := by
  simp [Update, h]

theorem seedAsteroids_length (E : Env F) (as : List (Asteroid F)) (c : Nat) :
    (seedAsteroids E as c).1.length = as.length := by
  unfold seedAsteroids
  generalize List.range as.length = l
  induction l generalizing as c with
  | nil => simp
  | cons i l ih =>
    simp only [List.foldl_cons]
    rw [ih]
    simp

theorem restartGame_asteroids_length (E : Env F) (g : Game F) :
    (restartGame E g).asteroids.data.length = 5 := by
  simp [restartGame, seedAsteroids_length]

theorem mainGame_asteroids_length (E : Env F) : (mainGame E).asteroids.data.length = 15 := by
  simp [mainGame, seedAsteroids_length]

/-- Every slot the seeding loop has visited holds a freshly created asteroid. -/
theorem seedFold_spec (E : Env F) (Q : Asteroid F → Prop)
    (hQ : ∀ c, Q (createAsteroid E (c + 2) ((E.intn c 640 : Nat) : F)
      ((E.intn (c + 1) 480 : Nat) : F) asteroidSize).1) :
    ∀ (l : List Nat) (as : List (Asteroid F)) (c : Nat) (j : Nat) (a : Asteroid F),
      (l.foldl
        (fun st i =>
          ((st.1.set i (createAsteroid E (st.2 + 2) ((E.intn st.2 640 : Nat) : F)
              ((E.intn (st.2 + 1) 480 : Nat) : F) asteroidSize).1,
            (createAsteroid E (st.2 + 2) ((E.intn st.2 640 : Nat) : F)
              ((E.intn (st.2 + 1) 480 : Nat) : F) asteroidSize).2) : List (Asteroid F) × Nat))
        (as, c)).1[j]? = some a →
      (j ∈ l → Q a) ∧ (j ∉ l → as[j]? = some a) := by
  intro l
  induction l with
  | nil => intro as c j a h; simpa using h
  | cons i l ih =>
    intro as c j a h
    simp only [List.foldl_cons] at h
    have := ih _ _ j a h
    by_cases hjl : j ∈ l
    · exact ⟨fun _ => this.1 hjl, fun hn => absurd (List.mem_cons_of_mem _ hjl) hn⟩
    · have h2 := this.2 hjl
      by_cases hji : i = j
      · subst hji
        constructor
        · intro _
          rw [List.getElem?_set] at h2
          have hlt : i < as.length := by
            by_contra hc
            simp [hc] at h2
          simp only [if_true, hlt, Option.some.injEq] at h2
          rw [← h2]
          exact hQ c
        · intro hn; exact absurd (List.mem_cons_self _ _) hn
      · constructor
        · intro hm
          rcases List.mem_cons.mp hm with h3 | h3
          · exact absurd h3.symm hji
          · exact absurd h3 hjl
        · intro _
          rw [List.getElem?_set] at h2
          simpa [hji] using h2

theorem seedAsteroids_forall (E : Env F) (Q : Asteroid F → Prop)
    (hQ : ∀ c, Q (createAsteroid E (c + 2) ((E.intn c 640 : Nat) : F)
      ((E.intn (c + 1) 480 : Nat) : F) asteroidSize).1)
    (as : List (Asteroid F)) (c : Nat) : ∀ a ∈ (seedAsteroids E as c).1, Q a := by
  intro a ha
  obtain ⟨j, hj, hja⟩ := List.getElem_of_mem ha
  have hlen := seedAsteroids_length E as c
  have h := seedFold_spec E Q hQ (List.range as.length) as c j a
    (by
      have : (seedAsteroids E as c).1[j]? = some a := by
        rw [List.getElem?_eq_getElem hj, hja]
      exact this)
  exact h.1 (List.mem_range.mpr (by omega))

/-! ## The loop on a slice of one asteroid -/

theorem advanceAsteroid_normal (E : Env F) (ship : Ship F) (a : Asteroid F)
    (h : a.asteroidType = AsteroidType.NormalAsteroid) :
    (advanceAsteroid E ship a).size = a.size ∧
    (advanceAsteroid E ship a).asteroidType = AsteroidType.NormalAsteroid := by
  have h1 : ¬ (moveAsteroid ship a).asteroidType = AsteroidType.SpecialAsteroid := by
    show ¬ a.asteroidType = AsteroidType.SpecialAsteroid
    rw [h]; intro hh; cases hh
  unfold advanceAsteroid
  simp only [h1, if_false]
  exact ⟨rfl, h⟩

theorem asteroidBody_split_full (E : Env F) (i j : Nat) (a0 : Asteroid F) (g : Game F)
    (hfull : ¬ g.asteroids.data.length < g.asteroids.cap)
    (hlive : ¬ ((advanceAsteroid E g.ship a0).asteroidType = AsteroidType.SpecialAsteroid ∧
      (advanceAsteroid E g.ship a0).expansionTime ≤ 0))
    (hhit : hitScan E (advanceAsteroid E g.ship a0) g.bullets 0 = some j)
    (hsize : (advanceAsteroid E g.ship a0).size > 25) :
    asteroidBody E i a0 g =
      ({ g with
          asteroids :=
            { data := (g.asteroids.data.set i (advanceAsteroid E g.ship a0)) ++
                  [(createAsteroid E g.rng (advanceAsteroid E g.ship a0).x
                    (advanceAsteroid E g.ship a0).y ((advanceAsteroid E g.ship a0).size / 2)).1],
              cap := E.growCap g.asteroids.cap },
          rng := g.rng + 28,
          bullets := g.bullets.eraseIdx j,
          score := wrapInt (g.score + 10) }, i + 1) := by
  rcases asteroidBody_cases E i a0 g with h | h | h | h | h
  · exact absurd h.1 hlive
  · rw [h.2.1] at hhit; cases hhit
  · obtain ⟨_, -, -, -, hc, -⟩ := h; exact absurd hc hfull
  · obtain ⟨k, -, hk, -, -, h⟩ := h
    rw [hhit] at hk
    cases hk
    exact h
  · obtain ⟨_, -, -, hs, -⟩ := h; exact absurd hsize hs

/-- The last asteroid of the slice, normal, with no bullet left: the loop
advances it and stops. -/
theorem asteroidLoop_last_miss (E : Env F) (G : Game F) (pre : List (Asteroid F))
    (c : Asteroid F) (fuel : Nat) (hfuel : 0 < fuel) (hdata : G.asteroids.data = pre ++ [c])
    (hb : G.bullets = []) (hc : c.asteroidType = AsteroidType.NormalAsteroid) :
    (asteroidLoop E fuel pre.length G).1.asteroids.data =
      pre ++ [advanceAsteroid E G.ship c] := by
  obtain ⟨n, rfl⟩ := Nat.exists_eq_succ_of_ne_zero (Nat.pos_iff_ne_zero.mp hfuel)
  have hget : G.asteroids.data[pre.length]? = some c := by rw [hdata]; simp
  have hn := advanceAsteroid_normal E G.ship c hc
  rw [asteroidLoop_step E n pre.length c G hget,
    asteroidBody_miss E pre.length c G (by rw [hn.2]; intro h; cases h.1) (by rw [hb]; rfl)]
  rw [asteroidLoop_stop _ _ _ _ (by simp [hdata])]
  simp [hdata, set_at_length]

/-- One asteroid in a full slice, hit by the only bullet: after the loop the
slice holds the advanced parent and, behind it, the advanced first child. -/
theorem asteroidLoop_single_split_full (E : Env F) (G : Game F) (a : Asteroid F) (fuel : Nat)
    (hfuel : 2 ≤ fuel) (hdata : G.asteroids.data = [a])
    (hfull : ¬ G.asteroids.data.length < G.asteroids.cap)
    (hlive : ¬ ((advanceAsteroid E G.ship a).asteroidType = AsteroidType.SpecialAsteroid ∧
      (advanceAsteroid E G.ship a).expansionTime ≤ 0))
    (hhit : hitScan E (advanceAsteroid E G.ship a) G.bullets 0 = some 0)
    (hone : G.bullets.length = 1)
    (hsize : (advanceAsteroid E G.ship a).size > 25)
    (hchild : (createAsteroid E G.rng (advanceAsteroid E G.ship a).x
      (advanceAsteroid E G.ship a).y ((advanceAsteroid E G.ship a).size / 2)).1.asteroidType =
        AsteroidType.NormalAsteroid) :
    (asteroidLoop E fuel 0 G).1.asteroids.data =
      [advanceAsteroid E G.ship a,
       advanceAsteroid E G.ship (createAsteroid E G.rng (advanceAsteroid E G.ship a).x
        (advanceAsteroid E G.ship a).y ((advanceAsteroid E G.ship a).size / 2)).1] := by
  obtain ⟨n, rfl⟩ : ∃ n, fuel = n + 2 := ⟨fuel - 2, by omega⟩
  have hget : G.asteroids.data[0]? = some a := by rw [hdata]; rfl
  obtain ⟨b, hb⟩ : ∃ b, G.bullets = [b] := by
    match hG : G.bullets, hone with
    | [b], _ => exact ⟨b, rfl⟩
  rw [asteroidLoop_step E (n + 1) 0 a G hget, asteroidBody_split_full E 0 0 a G hfull hlive hhit hsize]
  have h2 := asteroidLoop_last_miss E
    { G with
        asteroids :=
          { data := (G.asteroids.data.set 0 (advanceAsteroid E G.ship a)) ++
                [(createAsteroid E G.rng (advanceAsteroid E G.ship a).x
                  (advanceAsteroid E G.ship a).y ((advanceAsteroid E G.ship a).size / 2)).1],
            cap := E.growCap G.asteroids.cap },
        rng := G.rng + 28,
        bullets := G.bullets.eraseIdx 0,
        score := wrapInt (G.score + 10) }
    [advanceAsteroid E G.ship a] _ (n + 1) (Nat.succ_pos n) (by simp [hdata]) (by simp [hb]) hchild
  simpa using h2

/-- Over the reals, with the real square root for `math.Sqrt`, the exactness
hypothesis of the speed cap holds at every ship. -/
theorem sqrtExactAt_real (E : Env ℝ) (hE : ∀ v, E.sqrt v = Real.sqrt v) (s : Ship ℝ) :
    SqrtExactAt E (squaredSpeed s) := by
  have hv : 0 ≤ squaredSpeed s := by
    unfold squaredSpeed
    exact add_nonneg (mul_self_nonneg _) (mul_self_nonneg _)
  exact ⟨by rw [hE]; exact Real.sqrt_nonneg _, by rw [hE]; exact Real.mul_self_sqrt hv⟩

/-! ## Objects at rest on the screen -/

/-- The value of `math.Mod(x + m, m)` for `x` already in `[0, m)` is `x`. -/
theorem fmod_shift (x m : F) (h0 : 0 ≤ x) (h1 : x < m) : fmod (x + m) m = x := by
  have hm : 0 < m := lt_of_le_of_lt h0 h1
  have hq : 0 ≤ (x + m) / m := div_nonneg (by linarith) hm.le
  have hfl : ⌊(x + m) / m⌋ = 1 := by
    rw [Int.floor_eq_iff]
    constructor
    · rw [le_div_iff₀ hm]; push_cast; linarith
    · rw [div_lt_iff₀ hm]; push_cast; linarith
  simp only [fmod, trunc, hq, if_true, hfl]
  push_cast
  ring

/-- An asteroid on screen that moves with the ship stays where it is. -/
theorem moveAsteroid_at_rest (ship : Ship F) (a : Asteroid F) (hdx : a.dx = ship.dx)
    (hdy : a.dy = ship.dy) (hon : OnScreen a.x a.y) :
    (moveAsteroid ship a).x = a.x ∧ (moveAsteroid ship a).y = a.y := by
  obtain ⟨x0, x1, y0, y1⟩ := hon
  have hx := fmod_shift a.x 640 x0 x1
  have hy := fmod_shift a.y 480 y0 y1
  simp only [moveAsteroid, hdx, hdy, sub_self, add_zero, screenWidth, screenHeight, hx, hy,
    if_neg (not_lt.mpr x0), if_neg (not_lt.mpr y0), and_self]

/-! ## Hits and the bullets they leave -/

/-- With every bullet within hit distance the scan stops at the first one. -/
theorem hitScan_first (E : Env F) (a : Asteroid F) (bs : List (Bullet F))
    (hne : bs ≠ []) (hall : allWithinHit E a bs) : hitScan E a bs 0 = some 0 := by
  cases bs with
  | nil => exact absurd rfl hne
  | cons b r =>
    rw [hitScan, if_pos (hall b (List.mem_cons_self _ _))]

/-- A hit in the loop body: bullet `j` goes, the score gets `+= 10`, the
particles stay, and the asteroid is split or removed. -/
theorem asteroidBody_hit (E : Env F) (i j : Nat) (a0 : Asteroid F) (g : Game F)
    (hlive : ¬ ((advanceAsteroid E g.ship a0).asteroidType = AsteroidType.SpecialAsteroid ∧
      (advanceAsteroid E g.ship a0).expansionTime ≤ 0))
    (hhit : hitScan E (advanceAsteroid E g.ship a0) g.bullets 0 = some j) :
    (asteroidBody E i a0 g).1.bullets = g.bullets.eraseIdx j ∧
    (asteroidBody E i a0 g).1.score = wrapInt (g.score + 10) ∧
    (asteroidBody E i a0 g).1.particles = g.particles ∧
    (asteroidBody E i a0 g).1.ship = g.ship := by
  rcases asteroidBody_cases E i a0 g with h | h | h | h | h
  · exact absurd h.1 hlive
  · rw [h.2.1] at hhit; cases hhit
  · obtain ⟨k, -, hk, -, -, h⟩ := h
    rw [hhit] at hk; cases hk
    rw [h]; exact ⟨rfl, rfl, rfl, rfl⟩
  · obtain ⟨k, -, hk, -, -, h⟩ := h
    rw [hhit] at hk; cases hk
    rw [h]; exact ⟨rfl, rfl, rfl, rfl⟩
  · obtain ⟨k, -, hk, -, h⟩ := h
    rw [hhit] at hk; cases hk
    rw [h]; exact ⟨rfl, rfl, rfl, rfl⟩

/-- The bullets after the asteroid loop are the bullets before it with some
removed, in the same relative order. -/
theorem asteroidLoop_bullets_sublist (E : Env F) (fuel i : Nat) (g : Game F) :
    (asteroidLoop E fuel i g).1.bullets.Sublist g.bullets := by
  refine asteroidLoop_inv E (fun _ g1 => g1.bullets.Sublist g.bullets) ?_ fuel i g
    (List.Sublist.refl _)
  intro i a g1 _ h
  rcases asteroidBody_cases E i a g1 with hc | hc | hc | hc | hc
  · rw [hc.2]; exact h
  · rw [hc.2.2]; exact h
  · obtain ⟨j, -, -, -, -, hc⟩ := hc
    rw [hc]; exact (List.eraseIdx_sublist _ _).trans h
  · obtain ⟨j, -, -, -, -, hc⟩ := hc
    rw [hc]; exact (List.eraseIdx_sublist _ _).trans h
  · obtain ⟨j, -, -, -, hc⟩ := hc
    rw [hc]; exact (List.eraseIdx_sublist _ _).trans h

/-- One asteroid, hit and small: the loop removes it with the bullet and
stops. -/
theorem asteroidLoop_single_remove (E : Env F) (G : Game F) (a : Asteroid F) (fuel j : Nat)
    (hfuel : 0 < fuel) (hdata : G.asteroids.data = [a])
    (hlive : ¬ ((advanceAsteroid E G.ship a).asteroidType = AsteroidType.SpecialAsteroid ∧
      (advanceAsteroid E G.ship a).expansionTime ≤ 0))
    (hhit : hitScan E (advanceAsteroid E G.ship a) G.bullets 0 = some j)
    (hsize : ¬ (advanceAsteroid E G.ship a).size > 25) :
    (asteroidLoop E fuel 0 G).1.bullets = G.bullets.eraseIdx j ∧
    (asteroidLoop E fuel 0 G).1.score = wrapInt (G.score + 10) ∧
    (asteroidLoop E fuel 0 G).1.asteroids.data = [] := by
  obtain ⟨n, rfl⟩ := Nat.exists_eq_succ_of_ne_zero (Nat.pos_iff_ne_zero.mp hfuel)
  have hget : G.asteroids.data[0]? = some a := by rw [hdata]; rfl
  rw [asteroidLoop_step E n 0 a G hget, asteroidBody_remove E 0 j a G hlive hhit hsize]
  rw [asteroidLoop_stop _ _ _ _ (by simp [hdata])]
  simp [hdata]

/-- One asteroid, hit: whatever the loop does next, the hit bullet is gone and
the remaining bullets are among the others, in order. -/
theorem asteroidLoop_single_hit (E : Env F) (G : Game F) (a : Asteroid F) (fuel j : Nat)
    (hfuel : 0 < fuel) (hdata : G.asteroids.data = [a])
    (hlive : ¬ ((advanceAsteroid E G.ship a).asteroidType = AsteroidType.SpecialAsteroid ∧
      (advanceAsteroid E G.ship a).expansionTime ≤ 0))
    (hhit : hitScan E (advanceAsteroid E G.ship a) G.bullets 0 = some j) :
    (asteroidLoop E fuel 0 G).1.bullets.Sublist (G.bullets.eraseIdx j) := by
  obtain ⟨n, rfl⟩ := Nat.exists_eq_succ_of_ne_zero (Nat.pos_iff_ne_zero.mp hfuel)
  have hget : G.asteroids.data[0]? = some a := by rw [hdata]; rfl
  rw [asteroidLoop_step E n 0 a G hget]
  have h := asteroidLoop_bullets_sublist E n (asteroidBody E 0 a G).2 (asteroidBody E 0 a G).1
  rw [(asteroidBody_hit E 0 j a G hlive hhit).1] at h
  exact h


/-! ## The pulse of a Special asteroid, and splits with room -/

theorem advanceAsteroid_of_normal (E : Env F) (ship : Ship F) (a : Asteroid F)
    (h : a.asteroidType = AsteroidType.NormalAsteroid) :
    advanceAsteroid E ship a = moveAsteroid ship a := by
  have h1 : ¬ (moveAsteroid ship a).asteroidType = AsteroidType.SpecialAsteroid := by
    show ¬ a.asteroidType = AsteroidType.SpecialAsteroid
    rw [h]; intro hh; cases hh
  unfold advanceAsteroid
  simp only [h1, if_false]

theorem advanceAsteroid_of_special (E : Env F) (ship : Ship F) (a : Asteroid F)
    (h : a.asteroidType = AsteroidType.SpecialAsteroid) :
    advanceAsteroid E ship a = pulse E (moveAsteroid ship a) := by
  have h1 : (moveAsteroid ship a).asteroidType = AsteroidType.SpecialAsteroid := h
  unfold advanceAsteroid
  simp only [h1, if_true]

/-- What the loop body leaves behind the pointer `a` for a Special asteroid: the
countdown one lower and the size recomputed from the constant `asteroidSize`. -/
theorem advanceAsteroid_pulse (E : Env F) (ship : Ship F) (a : Asteroid F)
    (h : a.asteroidType = AsteroidType.SpecialAsteroid) :
    (advanceAsteroid E ship a).asteroidType = AsteroidType.SpecialAsteroid ∧
    (advanceAsteroid E ship a).expansionTime = wrapInt (a.expansionTime - 1) ∧
    (advanceAsteroid E ship a).size =
      30 * (1 + E.sin (((advanceAsteroid E ship a).expansionTime : F) / 180 * Pi) * (1 / 2)) := by
  rw [advanceAsteroid_of_special E ship a h]
  refine ⟨h, rfl, ?_⟩
  simp [pulse, moveAsteroid]

/-- Every Special asteroid the tick leaves in the slice is either fresh from
`createAsteroid` (countdown 180) or has the size the pulse gives its countdown. -/
theorem asteroidPhase_pulsed (E : Env F) (keys : Keys) (g : Game F) :
    ∀ a ∈ (asteroidPhase E keys g).asteroids.data,
      a.asteroidType = AsteroidType.SpecialAsteroid →
      a.expansionTime = 180 ∨
      a.size = 30 * (1 + E.sin ((a.expansionTime : F) / 180 * Pi) * (1 / 2)) := by
  refine asteroidPhase_forall E keys g _ ?_ ?_
  · intro ship a0 _ hs
    right
    by_cases h0 : a0.asteroidType = AsteroidType.SpecialAsteroid
    · exact (advanceAsteroid_pulse E ship a0 h0).2.2
    · have hn : a0.asteroidType = AsteroidType.NormalAsteroid := by
        cases ht : a0.asteroidType with
        | NormalAsteroid => rfl
        | SpecialAsteroid => exact absurd ht h0
      rw [(advanceAsteroid_normal E ship a0 hn).2] at hs
      cases hs
  · intro ship a0 c _ _
    left
    rfl

theorem shipStep_zero_rest (E : Env F) : shipStep E idle Ship.zero = Ship.zero := by
  have h1 : rotateShip idle (Ship.zero : Ship F) = Ship.zero := by simp [rotateShip, idle]
  have h2 : thrustShip E idle (Ship.zero : Ship F) = Ship.zero := by
    simp [thrustShip, idle, Ship.zero]
  rw [shipStep, h1, h2]
  unfold frictionCap
  simp only [Ship.zero, zero_mul, zero_div]
  split_ifs <;> rfl

/-- The bullet phase of a game whose ship is at rest, with no key held. -/
theorem bulletPhase_at_rest (E : Env F) (g : Game F) (hs : g.ship = Ship.zero) :
    (bulletPhase E idle g).ship = Ship.zero ∧
    (bulletPhase E idle g).asteroids = g.asteroids ∧
    (bulletPhase E idle g).score = g.score ∧
    (bulletPhase E idle g).particles = g.particles ∧
    (bulletPhase E idle g).rng = g.rng ∧
    (bulletPhase E idle g).bullets =
      (g.bullets.map (advanceBullet Ship.zero)).filter (fun b => decide (0 < b.lifetime)) := by
  have h := bulletPhase_frame E idle g
  have hb := bulletPhase_bullets E idle g
  rw [hs, shipStep_zero_rest] at h
  rw [hs, shipStep_zero_rest, fire_idle] at hb
  exact ⟨h.1, h.2.1, h.2.2.2.2.1, h.2.2.2.1, h.2.2.2.2.2.2.2, hb⟩

theorem asteroidBody_split_room (E : Env F) (i j : Nat) (a0 : Asteroid F) (g : Game F)
    (hroom : g.asteroids.data.length < g.asteroids.cap)
    (hlive : ¬ ((advanceAsteroid E g.ship a0).asteroidType = AsteroidType.SpecialAsteroid ∧
      (advanceAsteroid E g.ship a0).expansionTime ≤ 0))
    (hhit : hitScan E (advanceAsteroid E g.ship a0) g.bullets 0 = some j)
    (hsize : (advanceAsteroid E g.ship a0).size > 25) :
    asteroidBody E i a0 g =
      ({ g with
          asteroids :=
            { data := ((g.asteroids.data.set i (advanceAsteroid E g.ship a0)) ++
                  [(createAsteroid E g.rng (advanceAsteroid E g.ship a0).x
                    (advanceAsteroid E g.ship a0).y ((advanceAsteroid E g.ship a0).size / 2)).1]).set i
                  (createAsteroid E (g.rng + 14) (advanceAsteroid E g.ship a0).x
                    (advanceAsteroid E g.ship a0).y ((advanceAsteroid E g.ship a0).size / 2)).1,
              cap := g.asteroids.cap },
          rng := g.rng + 28,
          bullets := g.bullets.eraseIdx j,
          score := wrapInt (g.score + 10) }, i + 1) := by
  rcases asteroidBody_cases E i a0 g with h | h | h | h | h
  · exact absurd h.1 hlive
  · rw [h.2.1] at hhit; cases hhit
  · obtain ⟨k, -, hk, -, -, h⟩ := h
    rw [hhit] at hk
    cases hk
    exact h
  · obtain ⟨_, -, -, -, hc, -⟩ := h; exact absurd hroom hc
  · obtain ⟨_, -, -, hs, -⟩ := h; exact absurd hsize hs

/-- The last asteroid of the slice, not due to expire, with no bullet left: the
loop advances it and stops. -/
theorem asteroidLoop_last_live (E : Env F) (G : Game F) (pre : List (Asteroid F))
    (c : Asteroid F) (fuel : Nat) (hfuel : 0 < fuel) (hdata : G.asteroids.data = pre ++ [c])
    (hb : G.bullets = [])
    (hlive : ¬ ((advanceAsteroid E G.ship c).asteroidType = AsteroidType.SpecialAsteroid ∧
      (advanceAsteroid E G.ship c).expansionTime ≤ 0)) :
    (asteroidLoop E fuel pre.length G).1.asteroids.data =
      pre ++ [advanceAsteroid E G.ship c] := by
  obtain ⟨n, rfl⟩ := Nat.exists_eq_succ_of_ne_zero (Nat.pos_iff_ne_zero.mp hfuel)
  have hget : G.asteroids.data[pre.length]? = some c := by rw [hdata]; simp
  rw [asteroidLoop_step E n pre.length c G hget,
    asteroidBody_miss E pre.length c G hlive (by rw [hb]; rfl)]
  rw [asteroidLoop_stop _ _ _ _ (by simp [hdata])]
  simp [hdata, set_at_length]

/-- One asteroid in a slice with room, hit by the only bullet: after the loop
the slice holds the second child, not yet advanced, and the first child,
advanced in the same pass. -/
theorem asteroidLoop_single_split_room (E : Env F) (G : Game F) (a : Asteroid F) (fuel : Nat)
    (hfuel : 2 ≤ fuel) (hdata : G.asteroids.data = [a])
    (hroom : G.asteroids.data.length < G.asteroids.cap)
    (hlive : ¬ ((advanceAsteroid E G.ship a).asteroidType = AsteroidType.SpecialAsteroid ∧
      (advanceAsteroid E G.ship a).expansionTime ≤ 0))
    (hhit : hitScan E (advanceAsteroid E G.ship a) G.bullets 0 = some 0)
    (hone : G.bullets.length = 1)
    (hsize : (advanceAsteroid E G.ship a).size > 25)
    (hchild : ¬ ((advanceAsteroid E G.ship (createAsteroid E G.rng (advanceAsteroid E G.ship a).x
        (advanceAsteroid E G.ship a).y ((advanceAsteroid E G.ship a).size / 2)).1).asteroidType =
          AsteroidType.SpecialAsteroid ∧
      (advanceAsteroid E G.ship (createAsteroid E G.rng (advanceAsteroid E G.ship a).x
        (advanceAsteroid E G.ship a).y ((advanceAsteroid E G.ship a).size / 2)).1).expansionTime ≤ 0)) :
    (asteroidLoop E fuel 0 G).1.asteroids.data =
      [(createAsteroid E (G.rng + 14) (advanceAsteroid E G.ship a).x
        (advanceAsteroid E G.ship a).y ((advanceAsteroid E G.ship a).size / 2)).1,
       advanceAsteroid E G.ship (createAsteroid E G.rng (advanceAsteroid E G.ship a).x
        (advanceAsteroid E G.ship a).y ((advanceAsteroid E G.ship a).size / 2)).1] := by
  obtain ⟨n, rfl⟩ : ∃ n, fuel = n + 2 := ⟨fuel - 2, by omega⟩
  have hget : G.asteroids.data[0]? = some a := by rw [hdata]; rfl
  obtain ⟨b, hb⟩ : ∃ b, G.bullets = [b] := by
    match hG : G.bullets, hone with
    | [b], _ => exact ⟨b, rfl⟩
  rw [asteroidLoop_step E (n + 1) 0 a G hget, asteroidBody_split_room E 0 0 a G hroom hlive hhit hsize]
  have h2 := asteroidLoop_last_live E
    { G with
        asteroids :=
          { data := ((G.asteroids.data.set 0 (advanceAsteroid E G.ship a)) ++
                [(createAsteroid E G.rng (advanceAsteroid E G.ship a).x
                  (advanceAsteroid E G.ship a).y ((advanceAsteroid E G.ship a).size / 2)).1]).set 0
                (createAsteroid E (G.rng + 14) (advanceAsteroid E G.ship a).x
                  (advanceAsteroid E G.ship a).y ((advanceAsteroid E G.ship a).size / 2)).1,
            cap := G.asteroids.cap },
        rng := G.rng + 28,
        bullets := G.bullets.eraseIdx 0,
        score := wrapInt (G.score + 10) }
    [(createAsteroid E (G.rng + 14) (advanceAsteroid E G.ship a).x
        (advanceAsteroid E G.ship a).y ((advanceAsteroid E G.ship a).size / 2)).1] _ (n + 1)
    (Nat.succ_pos n) (by simp [hdata]) (by simp [hb]) hchild
  simpa using h2

/-! ## Particle cooling -/

/-- The conversion `uint8(float64(r) * (m / 180))` for a channel `r` and a whole
lifetime `m ≤ 180`. -/
theorem toUint8_scale (r m : Nat) (hr : r ≤ 255) (hm : m ≤ 180) :
    toUint8 ((r : F) * ((m : F) / (3 * 60))) = r * m / 180 := by
  have hx : (r : F) * ((m : F) / (3 * 60)) = ((r * m : ℕ) : F) / ((180 : ℕ) : F) := by
    push_cast; ring
  have h0 : (0 : F) ≤ ((r * m : ℕ) : F) / ((180 : ℕ) : F) := by positivity
  have hb : r * m / 180 ≤ 255 := by
    have : r * m ≤ 255 * 180 := Nat.mul_le_mul hr hm
    omega
  rw [hx]
  unfold toUint8 trunc
  rw [if_pos h0, ← Int.natCast_floor_eq_floor h0, Nat.floor_div_eq_div]
  omega

theorem cumulativeFade_le (k : Nat) : cumulativeFade k ≤ 255 := by
  induction k with
  | zero => exact Nat.le_refl _
  | succ n ih =>
    rw [cumulativeFade]
    have : cumulativeFade n * (180 - (n + 1)) ≤ 255 * 180 := Nat.mul_le_mul ih (by omega)
    omega

theorem cumulativeFade_le_proportional (k : Nat) : cumulativeFade k ≤ proportionalFade k := by
  cases k with
  | zero => decide
  | succ n =>
    rw [cumulativeFade, proportionalFade]
    exact Nat.div_le_div_right (Nat.mul_le_mul_right _ (cumulativeFade_le n))

/-- A burst particle after `k ≤ 180` advances. -/
theorem burst_fade (E : Env F) (c : Nat) (a : Asteroid F) :
    ∀ k, k ≤ 180 →
      (advanceParticle^[k] (burstParticle E c a)).lifetime = ((180 - k : Nat) : F) ∧
      (advanceParticle^[k] (burstParticle E c a)).color =
        { R := cumulativeFade k, G := cumulativeFade k, B := 0, A := 255 } := by
  intro k
  induction k with
  | zero =>
    intro _
    refine ⟨?_, rfl⟩
    show (3 * 60 : F) = ((180 : Nat) : F)
    norm_num
  | succ n ih =>
    intro hn
    obtain ⟨hl, hc⟩ := ih (by omega)
    rw [Function.iterate_succ_apply']
    have hl2 : (advanceParticle^[n] (burstParticle E c a)).lifetime - 1 =
        ((180 - (n + 1) : Nat) : F) := by
      rw [hl, show 180 - n = (180 - (n + 1)) + 1 by omega]
      push_cast
      ring
    refine ⟨hl2, ?_⟩
    have hR := toUint8_scale (F := F) (cumulativeFade n) (180 - (n + 1)) (cumulativeFade_le n)
      (by omega)
    simp only [advanceParticle, hl2, hc, hR, cumulativeFade]

set_option maxRecDepth 100000 in
theorem cumulativeFade_lt_proportional :
    ∀ k < 180, 2 ≤ k → cumulativeFade k < proportionalFade k := by
  decide

/-- The particle loop on a burst particle that has been advanced `k < 180`
times: it stays, advanced once more, unless its lifetime reaches 0. -/
theorem burst_removal (E : Env F) (c : Nat) (a : Asteroid F) (k : Nat) (hk : k < 180) :
    particleLoop 1 0 [advanceParticle^[k] (burstParticle E c a)] =
      if k + 1 < 180 then [advanceParticle^[k + 1] (burstParticle E c a)] else [] := by
  have h := particleLoop_eq [advanceParticle^[k] (burstParticle E c a)]
  have hl := (burst_fade E c a (k + 1) (by omega)).1
  rw [Function.iterate_succ_apply'] at hl
  rw [show [advanceParticle^[k] (burstParticle E c a)].length = 1 from rfl] at h
  rw [h, Function.iterate_succ_apply']
  simp only [List.map_cons, List.map_nil, List.filter_cons, List.filter_nil, hl, Nat.cast_pos]
  by_cases hlt : k + 1 < 180
  · have h1 : 0 < 180 - (k + 1) := by omega
    simp [hlt, h1]
    omega
  · have h1 : ¬ 0 < 180 - (k + 1) := by omega
    simp [hlt, h1]
    omega

/-! ## The bullet pass -/

theorem bulletPass_eq (ship : Ship F) (bs : List (Bullet F)) :
    bulletPass ship bs =
      (bs.map (advanceBullet ship)).filter (fun b => decide (0 < b.lifetime)) := by
  have hf : (fun b : Bullet F =>
      ({ x := b.x + b.dx - ship.dx, y := b.y + b.dy - ship.dy, dx := b.dx, dy := b.dy,
         lifetime := wrapInt (b.lifetime - 1) } : Bullet F)) = advanceBullet ship := by
    funext b
    simp only [advanceBullet, Bullet.mk.injEq, and_true]
    constructor <;> ring
  unfold bulletPass
  rw [hf]

/-- The bullet loop from index 0 with any fuel of at least the length of the
slice: it has reached the end of the slice, and more fuel changes nothing. -/
theorem bulletLoop_fuel (ship : Ship F) (bs : List (Bullet F)) (fuel : Nat)
    (h : bs.length ≤ fuel) :
    bulletLoop ship fuel 0 bs =
      (bs.map (advanceBullet ship)).filter (fun b => decide (0 < b.lifetime)) := by
  simpa using bulletLoop_append ship fuel [] bs h

/-! ## A hit on a Special asteroid -/

/-- A Special asteroid whose countdown is in `2..180` when the loop reaches it
is scanned with a countdown in `1..179` and a size above 30. -/
theorem special_scan_size (E : Env F) (ship : Ship F) (a0 : Asteroid F)
    (hsp : a0.asteroidType = AsteroidType.SpecialAsteroid)
    (h2 : 2 ≤ a0.expansionTime) (h180 : a0.expansionTime ≤ 180) (hsin : SinPositiveInside E) :
    (advanceAsteroid E ship a0).asteroidType = AsteroidType.SpecialAsteroid ∧
    (advanceAsteroid E ship a0).expansionTime = a0.expansionTime - 1 ∧
    30 < (advanceAsteroid E ship a0).size := by
  obtain ⟨ht, he, hs⟩ := advanceAsteroid_pulse E ship a0 hsp
  have he2 : (advanceAsteroid E ship a0).expansionTime = a0.expansionTime - 1 := by
    rw [he]
    exact wrapInt_of_range _ (by omega) (by omega)
  refine ⟨ht, he2, ?_⟩
  have hpos := hsin ((advanceAsteroid E ship a0).expansionTime) (by omega) (by omega)
  rw [hs]
  linarith

/-- The split branch of the loop body, whatever the capacity: one entry more,
the appended entry a child of half the size at the parent's position, one bullet
and ten points, no particle. -/
theorem asteroidBody_split (E : Env F) (i j : Nat) (a0 : Asteroid F) (g : Game F)
    (hget : g.asteroids.data[i]? = some a0)
    (hlive : ¬ ((advanceAsteroid E g.ship a0).asteroidType = AsteroidType.SpecialAsteroid ∧
      (advanceAsteroid E g.ship a0).expansionTime ≤ 0))
    (hhit : hitScan E (advanceAsteroid E g.ship a0) g.bullets 0 = some j)
    (hsize : (advanceAsteroid E g.ship a0).size > 25) :
    (asteroidBody E i a0 g).2 = i + 1 ∧
    (asteroidBody E i a0 g).1.asteroids.data.length = g.asteroids.data.length + 1 ∧
    (asteroidBody E i a0 g).1.asteroids.data[g.asteroids.data.length]? =
      some (createAsteroid E g.rng (advanceAsteroid E g.ship a0).x (advanceAsteroid E g.ship a0).y
        ((advanceAsteroid E g.ship a0).size / 2)).1 ∧
    (g.asteroids.data.length < g.asteroids.cap →
      (asteroidBody E i a0 g).1.asteroids.data[i]? =
        some (createAsteroid E (g.rng + 14) (advanceAsteroid E g.ship a0).x
          (advanceAsteroid E g.ship a0).y ((advanceAsteroid E g.ship a0).size / 2)).1) ∧
    (g.asteroids.cap ≤ g.asteroids.data.length →
      (asteroidBody E i a0 g).1.asteroids.data[i]? = some (advanceAsteroid E g.ship a0)) := by
  have hi : i < g.asteroids.data.length := (List.getElem?_eq_some_iff.mp hget).1
  by_cases hc : g.asteroids.data.length < g.asteroids.cap
  · rw [asteroidBody_split_room E i j a0 g hc hlive hhit hsize]
    refine ⟨rfl, by simp, ?_, fun _ => ?_, fun h => by omega⟩
    · show (List.set _ i _)[g.asteroids.data.length]? = _
      rw [List.getElem?_set_ne (by omega), List.getElem?_append_right (by simp)]
      simp
    · exact List.getElem?_set_self (by simp; omega)
  · rw [asteroidBody_split_full E i j a0 g hc hlive hhit hsize]
    refine ⟨rfl, by simp, ?_, fun h => absurd h hc, fun _ => ?_⟩
    · show (_ ++ _)[g.asteroids.data.length]? = _
      rw [List.getElem?_append_right (by simp)]
      simp
    · show (_ ++ _)[i]? = _
      rw [List.getElem?_append_left (by simpa using hi)]
      simp [List.getElem?_set, hi]

/-- Over the reals, with the real sine for `math.Sin`, the sine is positive
inside: `c/180 * Pi` lies in `(0, π)` for `c` from 1 to 179. -/
theorem sinPositiveInside_real (E : Env ℝ) (hE : ∀ t, E.sin t = Real.sin t) :
    SinPositiveInside E := by
  intro c h1 h179
  rw [hE]
  have hc1 : (1 : ℝ) ≤ (c : ℝ) := by exact_mod_cast h1
  have hc2 : (c : ℝ) ≤ 179 := by exact_mod_cast h179
  have hP0 : (0 : ℝ) < Pi := by norm_num [Pi]
  have hP1 : (Pi : ℝ) < 315 / 100 := by norm_num [Pi]
  have hpi := Real.pi_gt_d2
  apply Real.sin_pos_of_pos_of_lt_pi
  · positivity
  · have : (c : ℝ) / 180 * Pi ≤ 179 / 180 * Pi := by
      apply mul_le_mul_of_nonneg_right _ hP0.le
      linarith
    have h3 : (179 : ℝ) / 180 * Pi < 314 / 100 := by nlinarith
    norm_num at hpi
    linarith

/-- One asteroid in a slice with room, hit and split, whose appended child is
hit in the same pass and removed: two bullets go, the score gets `+= 10` twice,
and the slice is left with the other child. -/
theorem asteroidLoop_split_room_child_removed (E : Env F) (G : Game F) (a : Asteroid F)
    (fuel j k : Nat) (hfuel : 2 ≤ fuel) (hdata : G.asteroids.data = [a])
    (hroom : G.asteroids.data.length < G.asteroids.cap)
    (hlive : ¬ ((advanceAsteroid E G.ship a).asteroidType = AsteroidType.SpecialAsteroid ∧
      (advanceAsteroid E G.ship a).expansionTime ≤ 0))
    (hhit : hitScan E (advanceAsteroid E G.ship a) G.bullets 0 = some j)
    (hsize : (advanceAsteroid E G.ship a).size > 25)
    (hlive2 : ¬ ((advanceAsteroid E G.ship (createAsteroid E G.rng (advanceAsteroid E G.ship a).x
        (advanceAsteroid E G.ship a).y ((advanceAsteroid E G.ship a).size / 2)).1).asteroidType =
          AsteroidType.SpecialAsteroid ∧
      (advanceAsteroid E G.ship (createAsteroid E G.rng (advanceAsteroid E G.ship a).x
        (advanceAsteroid E G.ship a).y ((advanceAsteroid E G.ship a).size / 2)).1).expansionTime ≤ 0))
    (hhit2 : hitScan E (advanceAsteroid E G.ship (createAsteroid E G.rng
        (advanceAsteroid E G.ship a).x (advanceAsteroid E G.ship a).y
        ((advanceAsteroid E G.ship a).size / 2)).1) (G.bullets.eraseIdx j) 0 = some k)
    (hsize2 : ¬ (advanceAsteroid E G.ship (createAsteroid E G.rng (advanceAsteroid E G.ship a).x
        (advanceAsteroid E G.ship a).y ((advanceAsteroid E G.ship a).size / 2)).1).size > 25) :
    (asteroidLoop E fuel 0 G).1.bullets = (G.bullets.eraseIdx j).eraseIdx k ∧
    (asteroidLoop E fuel 0 G).1.score = wrapInt (wrapInt (G.score + 10) + 10) ∧
    (asteroidLoop E fuel 0 G).1.asteroids.data =
      [(createAsteroid E (G.rng + 14) (advanceAsteroid E G.ship a).x
        (advanceAsteroid E G.ship a).y ((advanceAsteroid E G.ship a).size / 2)).1] := by
  obtain ⟨n, rfl⟩ : ∃ n, fuel = n + 2 := ⟨fuel - 2, by omega⟩
  have hget : G.asteroids.data[0]? = some a := by rw [hdata]; rfl
  rw [asteroidLoop_step E (n + 1) 0 a G hget, asteroidBody_split_room E 0 j a G hroom hlive hhit hsize]
  have hstep := asteroidLoop_step E n 1
    (createAsteroid E G.rng (advanceAsteroid E G.ship a).x (advanceAsteroid E G.ship a).y
      ((advanceAsteroid E G.ship a).size / 2)).1
    { G with
        asteroids :=
          { data := ((G.asteroids.data.set 0 (advanceAsteroid E G.ship a)) ++
                [(createAsteroid E G.rng (advanceAsteroid E G.ship a).x
                  (advanceAsteroid E G.ship a).y ((advanceAsteroid E G.ship a).size / 2)).1]).set 0
                (createAsteroid E (G.rng + 14) (advanceAsteroid E G.ship a).x
                  (advanceAsteroid E G.ship a).y ((advanceAsteroid E G.ship a).size / 2)).1,
            cap := G.asteroids.cap },
        rng := G.rng + 28,
        bullets := G.bullets.eraseIdx j,
        score := wrapInt (G.score + 10) }
    (by simp [hdata])
  have hbody := asteroidBody_remove E 1 k
    (createAsteroid E G.rng (advanceAsteroid E G.ship a).x (advanceAsteroid E G.ship a).y
      ((advanceAsteroid E G.ship a).size / 2)).1
    { G with
        asteroids :=
          { data := ((G.asteroids.data.set 0 (advanceAsteroid E G.ship a)) ++
                [(createAsteroid E G.rng (advanceAsteroid E G.ship a).x
                  (advanceAsteroid E G.ship a).y ((advanceAsteroid E G.ship a).size / 2)).1]).set 0
                (createAsteroid E (G.rng + 14) (advanceAsteroid E G.ship a).x
                  (advanceAsteroid E G.ship a).y ((advanceAsteroid E G.ship a).size / 2)).1,
            cap := G.asteroids.cap },
        rng := G.rng + 28,
        bullets := G.bullets.eraseIdx j,
        score := wrapInt (G.score + 10) }
    hlive2 hhit2 hsize2
  rw [show (0 : Nat) + 1 = 1 from rfl, hstep, hbody, asteroidLoop_stop _ _ _ _ (by simp [hdata])]
  simp [hdata]

/-! ## Rounding -/

theorem roundEven_error (y : ℚ) : |(roundEven y : ℚ) - y| ≤ 1 / 2 := by
  have h1 : (⌊y⌋ : ℚ) ≤ y := Int.floor_le y
  have h2 : y < ⌊y⌋ + 1 := Int.lt_floor_add_one y
  unfold roundEven
  split_ifs with ha hb hc
  · rw [abs_le]; constructor <;> linarith
  · rw [abs_le]; push_cast; constructor <;> linarith
  · rw [abs_le]; constructor <;> linarith
  · rw [abs_le]; push_cast; constructor <;> linarith

/-- The value of `roundEven` away from a tie. -/
theorem roundEven_eval (y : ℚ) (m : Int) (h : |y - m| < 1 / 2) : roundEven y = m := by
  rw [abs_lt] at h
  have h1 : (⌊y⌋ : ℚ) ≤ y := Int.floor_le y
  have h2 : y < ⌊y⌋ + 1 := Int.lt_floor_add_one y
  have hcases : ⌊y⌋ = m ∨ ⌊y⌋ = m - 1 := by
    have ha : (m : ℚ) - 1 < ⌊y⌋ + 1 := by linarith
    have hb : (⌊y⌋ : ℚ) < m + 1 := by linarith
    have ha2 : m - 1 < ⌊y⌋ + 1 := by exact_mod_cast ha
    have hb2 : ⌊y⌋ < m + 1 := by exact_mod_cast hb
    omega
  unfold roundEven
  rcases hcases with hf | hf
  · have : y - ⌊y⌋ < 1 / 2 := by rw [hf]; linarith
    rw [if_pos this, hf]
  · have hc : ((⌊y⌋ : Int) : ℚ) = m - 1 := by rw [hf]; push_cast; ring
    have h3 : ¬ y - ⌊y⌋ < 1 / 2 := by rw [hc]; linarith
    have h4 : 1 / 2 < y - ⌊y⌋ := by rw [hc]; linarith
    rw [if_neg h3, if_pos h4, hf]
    ring

theorem log_two_eq (x : ℚ) (e : Int) (h1 : (2 : ℚ) ^ e ≤ |x|) (h2 : |x| < 2 ^ (e + 1)) :
    Int.log 2 |x| = e := by
  have hpos : 0 < |x| := lt_of_lt_of_le (by positivity) h1
  have ha : e ≤ Int.log 2 |x| :=
    (Int.zpow_le_iff_le_log (by norm_num) hpos).mp (by exact_mod_cast h1)
  have hb : Int.log 2 |x| < e + 1 :=
    (Int.lt_zpow_iff_log_lt (by norm_num) hpos).mp (by exact_mod_cast h2)
  omega

/-- The value of `round64` at `x`, given its binade and the nearest multiple of
the unit in the last place. -/
theorem round64_eval (x : ℚ) (e m : Int) (h1 : (2 : ℚ) ^ e ≤ |x|) (h2 : |x| < 2 ^ (e + 1))
    (h3 : |x / 2 ^ (e - 52) - m| < 1 / 2) : round64 x = m * 2 ^ (e - 52) := by
  have hx : x ≠ 0 := by
    intro h
    rw [h, abs_zero] at h1
    exact absurd h1 (not_le.mpr (by positivity))
  unfold round64
  rw [if_neg hx, log_two_eq x e h1 h2, roundEven_eval _ m h3]

/-- The rounding `round64` has relative error at most `2^-53`. -/
theorem round64_within : RoundsWithin round64 (1 / 2 ^ 53) := by
  intro x
  by_cases hx : x = 0
  · simp [round64, hx]
  · have hpos : 0 < |x| := abs_pos.mpr hx
    have hlog : (2 : ℚ) ^ Int.log 2 |x| ≤ |x| := by
      have := Int.zpow_log_le_self (b := 2) (by norm_num) hpos
      exact_mod_cast this
    have hq : (0 : ℚ) < 2 ^ (Int.log 2 |x| - 52) := by positivity
    have herr := roundEven_error (x / 2 ^ (Int.log 2 |x| - 52))
    unfold round64
    rw [if_neg hx]
    have hsplit : (roundEven (x / 2 ^ (Int.log 2 |x| - 52)) : ℚ) * 2 ^ (Int.log 2 |x| - 52) - x =
        ((roundEven (x / 2 ^ (Int.log 2 |x| - 52)) : ℚ) - x / 2 ^ (Int.log 2 |x| - 52)) *
          2 ^ (Int.log 2 |x| - 52) := by
      field_simp
    rw [hsplit, abs_mul, abs_of_pos hq]
    have hpow : (2 : ℚ) ^ (Int.log 2 |x| - 52) = 2 ^ Int.log 2 |x| / 2 ^ 52 := by
      rw [zpow_sub₀ (by norm_num)]
      norm_num
    calc |(roundEven (x / 2 ^ (Int.log 2 |x| - 52)) : ℚ) - x / 2 ^ (Int.log 2 |x| - 52)| *
          2 ^ (Int.log 2 |x| - 52)
        ≤ 1 / 2 * 2 ^ (Int.log 2 |x| - 52) := mul_le_mul_of_nonneg_right herr hq.le
      _ = 1 / 2 ^ 53 * 2 ^ Int.log 2 |x| := by rw [hpow]; ring
      _ ≤ 1 / 2 ^ 53 * |x| := mul_le_mul_of_nonneg_left hlog (by positivity)

theorem round64_zero : round64 0 = 0 := by simp [round64]

theorem log_two_spec (x : ℚ) (hx : x ≠ 0) :
    (2 : ℚ) ^ Int.log 2 |x| ≤ |x| ∧ |x| < 2 ^ (Int.log 2 |x| + 1) := by
  have hpos : 0 < |x| := abs_pos.mpr hx
  constructor
  · have := Int.zpow_log_le_self (b := 2) (by norm_num) hpos
    exact_mod_cast this
  · have := Int.lt_zpow_succ_log_self (b := 2) (by norm_num) |x|
    exact_mod_cast this

/-- A `float64` value of magnitude at least `2^e` is a multiple of `2^(e-52)`. -/
theorem isFloat64_multiple (a : ℚ) (ha : IsFloat64 a) (e : Int) (he : (2 : ℚ) ^ e ≤ |a|) :
    ∃ M : Int, a = (M : ℚ) * 2 ^ (e - 52) := by
  obtain ⟨n, j, hn, rfl⟩ := ha
  have h2 : (0 : ℚ) < 2 ^ j := by positivity
  have hn2 : |(n : ℚ)| < 2 ^ 53 := by exact_mod_cast hn
  have hlt : (2 : ℚ) ^ e < 2 ^ (53 + j) := by
    calc (2 : ℚ) ^ e ≤ |(n : ℚ) * 2 ^ j| := he
      _ = |(n : ℚ)| * 2 ^ j := by rw [abs_mul, abs_of_pos h2]
      _ < 2 ^ 53 * 2 ^ j := mul_lt_mul_of_pos_right hn2 h2
      _ = 2 ^ (53 + j) := by rw [zpow_add₀ (by norm_num)]; norm_num
  have hej : e < 53 + j := (zpow_lt_zpow_iff_right₀ (by norm_num)).mp hlt
  refine ⟨n * 2 ^ (j - (e - 52)).toNat, ?_⟩
  have ht : ((j - (e - 52)).toNat : Int) = j - (e - 52) := Int.toNat_of_nonneg (by omega)
  have hj : j = ((j - (e - 52)).toNat : Int) + (e - 52) := by omega
  push_cast
  rw [mul_assoc, ← zpow_natCast, ← zpow_add₀ (by norm_num), ← hj]

theorem roundEven_ge (y : ℚ) (M : Int) (h : (M : ℚ) ≤ y) : M ≤ roundEven y := by
  have herr := roundEven_error y
  rw [abs_le] at herr
  have : (M : ℚ) - 1 < roundEven y := by linarith
  have h2 : M - 1 < roundEven y := by exact_mod_cast this
  omega

theorem roundEven_le (y : ℚ) (M : Int) (h : y ≤ (M : ℚ)) : roundEven y ≤ M := by
  have herr := roundEven_error y
  rw [abs_le] at herr
  have : (roundEven y : ℚ) < M + 1 := by linarith
  have h2 : roundEven y < M + 1 := by exact_mod_cast this
  omega

theorem round64_between_binade (a x : ℚ) (ha : IsFloat64 a) (hx : x ≠ 0)
    (he : (2 : ℚ) ^ Int.log 2 |x| ≤ |a|) :
    (a ≤ x → a ≤ round64 x) ∧ (x ≤ a → round64 x ≤ a) := by
  obtain ⟨M, rfl⟩ := isFloat64_multiple a ha _ he
  have hq : (0 : ℚ) < 2 ^ (Int.log 2 |x| - 52) := by positivity
  unfold round64
  rw [if_neg hx]
  constructor
  · intro h
    have h1 : (M : ℚ) ≤ x / 2 ^ (Int.log 2 |x| - 52) := (le_div_iff₀ hq).mpr h
    have h2 : ((M : Int) : ℚ) ≤ roundEven (x / 2 ^ (Int.log 2 |x| - 52)) := by
      exact_mod_cast roundEven_ge _ M h1
    exact mul_le_mul_of_nonneg_right h2 hq.le
  · intro h
    have h1 : x / 2 ^ (Int.log 2 |x| - 52) ≤ (M : ℚ) := (div_le_iff₀ hq).mpr h
    have h2 : ((roundEven (x / 2 ^ (Int.log 2 |x| - 52)) : Int) : ℚ) ≤ M := by
      exact_mod_cast roundEven_le _ M h1
    exact mul_le_mul_of_nonneg_right h2 hq.le

theorem isFloat64_zpow (e : Int) : IsFloat64 ((2 : ℚ) ^ e) :=
  ⟨1, e, by norm_num, by simp⟩

theorem isFloat64_neg (a : F) (h : IsFloat64 a) : IsFloat64 (-a) := by
  obtain ⟨n, j, hn, rfl⟩ := h
  exact ⟨-n, j, by rwa [abs_neg], by push_cast; ring⟩

/-- The rounding `round64` never passes a `float64` value. -/
theorem round64_between (a x : ℚ) (ha : IsFloat64 a) :
    (a ≤ x → a ≤ round64 x) ∧ (x ≤ a → round64 x ≤ a) := by
  by_cases hx : x = 0
  · subst hx
    rw [round64_zero]
    exact ⟨id, id⟩
  obtain ⟨hlo, -⟩ := log_two_spec x hx
  by_cases he : (2 : ℚ) ^ Int.log 2 |x| ≤ |a|
  · exact round64_between_binade a x ha hx he
  rw [not_le, abs_lt] at he
  have hp : (0 : ℚ) < 2 ^ Int.log 2 |x| := by positivity
  rcases lt_or_gt_of_ne hx with hneg | hpos
  · have hlo := hlo.trans (le_of_eq (abs_of_neg hneg))
    constructor
    · intro h
      linarith
    · intro _
      have hb := (round64_between_binade (-(2 : ℚ) ^ Int.log 2 |x|) x
        (isFloat64_neg _ (isFloat64_zpow _)) hx (by rw [abs_neg, abs_of_pos hp])).2
        (by linarith)
      linarith
  · have hlo := hlo.trans (le_of_eq (abs_of_pos hpos))
    constructor
    · intro _
      have hb := (round64_between_binade ((2 : ℚ) ^ Int.log 2 |x|) x
        (isFloat64_zpow _) hx (by rw [abs_of_pos hp])).1 hlo
      linarith
    · intro h
      linarith

theorem round64_nearest : RoundsToNearest round64 :=
  ⟨round64_within, round64_between⟩

theorem rounds_fix (rnd : F → F) (h : RoundsToNearest rnd) (a : F) (ha : IsFloat64 a) :
    rnd a = a :=
  le_antisymm ((h.2 a a ha).2 (le_refl a)) ((h.2 a a ha).1 (le_refl a))

theorem rounds_zero (rnd : F → F) (u : F) (h : RoundsWithin rnd u) : rnd 0 = 0 := by
  have := h 0
  simpa using this

theorem isFloat64_int (n : Int) (h : |n| < 2 ^ 53) : IsFloat64 (n : F) :=
  ⟨n, 0, h, by simp⟩

theorem isFloat64_nat (n : Nat) (h : n < 2 ^ 53) : IsFloat64 (n : F) :=
  ⟨n, 0, by rw [abs_of_nonneg (by positivity)]; exact_mod_cast h, by simp⟩

theorem roundsToNearest_id : RoundsToNearest (id : F → F) :=
  ⟨fun x => by simp, fun _ _ _ => ⟨id, id⟩⟩

/-! ## The blocks with rounding -/

theorem updatePlayingRounded_id (E : Env F) (keys : Keys) (g : Game F) :
    updatePlayingRounded id E keys g = updatePlaying E keys g := rfl

theorem UpdateRounded_id (E : Env F) (keys : Keys) (g : Game F) :
    UpdateRounded id E keys g = Update E keys g := rfl

theorem frictionCapRounded_id (E : Env F) (s : Ship F) :
    frictionCapRounded id E s = frictionCap E s := rfl

theorem UpdateRounded_playing (rnd : F → F) (E : Env F) (keys : Keys) (g : Game F)
    (h : g.state = GameState.StatePlaying) :
    UpdateRounded rnd E keys g =
      updatePlayingRounded rnd E keys { g with tick := wrapInt (g.tick + 1) } := by
  simp [UpdateRounded, h]

/-- The blocks after the star loop write neither the ship nor the world offset
nor the stars. -/
theorem laterBlocks_frame (E : Env F) (keys : Keys) (g0 : Game F) :
    (laterBlocks E keys g0).ship = g0.ship ∧ (laterBlocks E keys g0).worldX = g0.worldX ∧
    (laterBlocks E keys g0).worldY = g0.worldY ∧ (laterBlocks E keys g0).stars = g0.stars := by
  have hf := fire_frame E keys g0
  have h : ∀ (n : Nat) (g1 : Game F), g1.ship = g0.ship → g1.worldX = g0.worldX →
      g1.worldY = g0.worldY → g1.stars = g0.stars →
      (asteroidLoop E n 0 g1).1.ship = g0.ship ∧ (asteroidLoop E n 0 g1).1.worldX = g0.worldX ∧
      (asteroidLoop E n 0 g1).1.worldY = g0.worldY ∧ (asteroidLoop E n 0 g1).1.stars = g0.stars := by
    intro n g1 a b c d
    have hl := asteroidLoop_frame E n 0 g1
    exact ⟨hl.2.1.trans a, hl.2.2.2.2.1.trans b, hl.2.2.2.2.2.trans c, hl.2.2.1.trans d⟩
  unfold laterBlocks
  simp only []
  split_ifs <;> exact h _ _ hf.1 hf.2.2.2.2.2.2.1 hf.2.2.2.2.2.2.2.1 hf.2.2.1

theorem updatePlayingRounded_ship (rnd : F → F) (E : Env F) (keys : Keys) (g : Game F) :
    (updatePlayingRounded rnd E keys g).ship = shipStepRounded rnd E keys g.ship ∧
    (updatePlayingRounded rnd E keys g).worldX =
      rnd (g.worldX + (shipStepRounded rnd E keys g.ship).dx) ∧
    (updatePlayingRounded rnd E keys g).worldY =
      rnd (g.worldY + (shipStepRounded rnd E keys g.ship).dy) ∧
    (updatePlayingRounded rnd E keys g).stars =
      g.stars.map (moveStarRounded rnd (shipStepRounded rnd E keys g.ship)) :=
  laterBlocks_frame E keys (shipPhaseRounded rnd E keys g)

/-- A ship at rest stays at rest through friction and the cap, whatever
`math.Sqrt` returns at 0. -/
theorem frictionCapRounded_rest (rnd : F → F) (E : Env F) (s : Ship F) (h0 : rnd 0 = 0)
    (hdx : s.dx = 0) (hdy : s.dy = 0) :
    (frictionCapRounded rnd E s).dx = 0 ∧ (frictionCapRounded rnd E s).dy = 0 ∧
    (frictionCapRounded rnd E s).angle = s.angle := by
  unfold frictionCapRounded
  simp only [hdx, hdy, zero_mul, zero_div, h0]
  split_ifs <;> exact ⟨rfl, rfl, rfl⟩

theorem shipStepRounded_rest (rnd : F → F) (E : Env F) (s : Ship F) (h0 : rnd 0 = 0)
    (hdx : s.dx = 0) (hdy : s.dy = 0) :
    (shipStepRounded rnd E idle s).dx = 0 ∧ (shipStepRounded rnd E idle s).dy = 0 ∧
    (shipStepRounded rnd E idle s).angle = s.angle := by
  have hr : rotateShipRounded rnd idle s = s := by simp [rotateShipRounded, idle]
  have ht : thrustShipRounded rnd E idle s = { s with thrusting := false } := by
    simp [thrustShipRounded, idle]
  unfold shipStepRounded
  rw [hr, ht]
  exact frictionCapRounded_rest rnd E _ h0 hdx hdy

/-- A star under a ship at rest: only the sums `x + 640` and `y + 480` are
rounded. -/
theorem moveStarRounded_rest (rnd : F → F) (ship : Ship F) (st : Star F) (h0 : rnd 0 = 0)
    (hdx : ship.dx = 0) (hdy : ship.dy = 0) (hx : rnd st.x = st.x) (hy : rnd st.y = st.y) :
    moveStarRounded rnd ship st =
      { st with x := fmod (rnd (st.x + 640)) 640, y := fmod (rnd (st.y + 480)) 480 } := by
  simp only [moveStarRounded, hdx, hdy, zero_mul, h0, sub_zero, hx, hy, screenWidth, screenHeight]

theorem moveStarRounded_fixed (rnd : F → F) (ship : Ship F) (st : Star F) (h0 : rnd 0 = 0)
    (hdx : ship.dx = 0) (hdy : ship.dy = 0) (hx : rnd st.x = st.x) (hy : rnd st.y = st.y)
    (hon : OnScreen st.x st.y) (hsx : rnd (st.x + 640) = st.x + 640)
    (hsy : rnd (st.y + 480) = st.y + 480) : moveStarRounded rnd ship st = st := by
  obtain ⟨x0, x1, y0, y1⟩ := hon
  rw [moveStarRounded_rest rnd ship st h0 hdx hdy hx hy, hsx, hsy, fmod_shift st.x 640 x0 x1,
    fmod_shift st.y 480 y0 y1]

/-- One tick of a Playing game with the ship at rest and no key held, with
rounding. -/
theorem UpdateRounded_rest (rnd : F → F) (E : Env F) (g : Game F) (hr : RoundsToNearest rnd)
    (hp : g.state = GameState.StatePlaying) (hdx : g.ship.dx = 0) (hdy : g.ship.dy = 0)
    (hwx : IsFloat64 g.worldX) (hwy : IsFloat64 g.worldY) :
    (UpdateRounded rnd E idle g).ship.dx = 0 ∧ (UpdateRounded rnd E idle g).ship.dy = 0 ∧
    (UpdateRounded rnd E idle g).ship.angle = g.ship.angle ∧
    (UpdateRounded rnd E idle g).worldX = g.worldX ∧
    (UpdateRounded rnd E idle g).worldY = g.worldY ∧
    (UpdateRounded rnd E idle g).stars =
      g.stars.map (moveStarRounded rnd (shipStepRounded rnd E idle g.ship)) := by
  have h0 : rnd 0 = 0 := rounds_zero rnd _ hr.1
  have hs := shipStepRounded_rest rnd E g.ship h0 hdx hdy
  have hu := updatePlayingRounded_ship rnd E idle { g with tick := wrapInt (g.tick + 1) }
  rw [UpdateRounded_playing rnd E idle g hp]
  refine ⟨by rw [hu.1]; exact hs.1, by rw [hu.1]; exact hs.2.1, by rw [hu.1]; exact hs.2.2,
    ?_, ?_, hu.2.2.2⟩
  · rw [hu.2.1]
    show rnd (g.worldX + (shipStepRounded rnd E idle g.ship).dx) = g.worldX
    rw [hs.1, add_zero, rounds_fix rnd hr _ hwx]
  · rw [hu.2.2.1]
    show rnd (g.worldY + (shipStepRounded rnd E idle g.ship).dy) = g.worldY
    rw [hs.2.1, add_zero, rounds_fix rnd hr _ hwy]

/-! ## The error of the speed cap -/

/-- A rounded result is the exact one times a factor within `u` of 1. -/
theorem rounds_factor (rnd : F → F) (u : F) (hu : 0 ≤ u) (h : RoundsWithin rnd u) (x : F) :
    ∃ t, 1 - u ≤ t ∧ t ≤ 1 + u ∧ rnd x = t * x := by
  by_cases hx : x = 0
  · exact ⟨1, by linarith, by linarith, by rw [hx, rounds_zero rnd u h]; simp⟩
  · refine ⟨rnd x / x, ?_, ?_, by field_simp⟩
    · have hb := h x
      have hpos : 0 < |x| := abs_pos.mpr hx
      have he : rnd x / x - 1 = (rnd x - x) / x := by field_simp
      have habs : |rnd x / x - 1| ≤ u := by
        rw [he, abs_div, div_le_iff₀ hpos]
        exact hb
      rw [abs_le] at habs
      linarith [habs.1]
    · have hb := h x
      have hpos : 0 < |x| := abs_pos.mpr hx
      have he : rnd x / x - 1 = (rnd x - x) / x := by field_simp
      have habs : |rnd x / x - 1| ≤ u := by
        rw [he, abs_div, div_le_iff₀ hpos]
        exact hb
      rw [abs_le] at habs
      linarith [habs.2]

theorem rounds_nonneg (rnd : F → F) (u : F) (hu : 0 ≤ u) (h : RoundsWithin rnd u) (x : F)
    (hx : 0 ≤ x) : (1 - u) * x ≤ rnd x ∧ rnd x ≤ (1 + u) * x := by
  obtain ⟨t, h1, h2, h3⟩ := rounds_factor rnd u hu h x
  rw [h3]
  exact ⟨mul_le_mul_of_nonneg_right h1 hx, mul_le_mul_of_nonneg_right h2 hx⟩

/-- The rounded sum of the rounded squares against the exact sum of squares. -/
theorem sumSquares_rounded (rnd : F → F) (h : RoundsWithin rnd (1 / 2 ^ 53)) (dx dy : F) :
    (1 - 1 / 2 ^ 53) ^ 2 * (dx * dx + dy * dy) ≤ rnd (rnd (dx * dx) + rnd (dy * dy)) ∧
    rnd (rnd (dx * dx) + rnd (dy * dy)) ≤ (1 + 1 / 2 ^ 53) ^ 2 * (dx * dx + dy * dy) := by
  have hu : (0 : F) ≤ 1 / 2 ^ 53 := by positivity
  have hu1 : (0 : F) ≤ 1 - 1 / 2 ^ 53 := by norm_num
  have hu2 : (0 : F) ≤ 1 + 1 / 2 ^ 53 := by positivity
  have ha := rounds_nonneg rnd _ hu h (dx * dx) (mul_self_nonneg dx)
  have hb := rounds_nonneg rnd _ hu h (dy * dy) (mul_self_nonneg dy)
  have hq : 0 ≤ dx * dx + dy * dy := add_nonneg (mul_self_nonneg dx) (mul_self_nonneg dy)
  have hlo : (1 - 1 / 2 ^ 53) * (dx * dx + dy * dy) ≤ rnd (dx * dx) + rnd (dy * dy) := by
    linarith [ha.1, hb.1]
  have hhi : rnd (dx * dx) + rnd (dy * dy) ≤ (1 + 1 / 2 ^ 53) * (dx * dx + dy * dy) := by
    linarith [ha.2, hb.2]
  have hs : 0 ≤ rnd (dx * dx) + rnd (dy * dy) := le_trans (mul_nonneg hu1 hq) hlo
  have hc := rounds_nonneg rnd _ hu h _ hs
  constructor
  · calc (1 - 1 / 2 ^ 53) ^ 2 * (dx * dx + dy * dy)
        = (1 - 1 / 2 ^ 53) * ((1 - 1 / 2 ^ 53) * (dx * dx + dy * dy)) := by ring
      _ ≤ (1 - 1 / 2 ^ 53) * (rnd (dx * dx) + rnd (dy * dy)) :=
          mul_le_mul_of_nonneg_left hlo hu1
      _ ≤ rnd (rnd (dx * dx) + rnd (dy * dy)) := hc.1
  · calc rnd (rnd (dx * dx) + rnd (dy * dy))
        ≤ (1 + 1 / 2 ^ 53) * (rnd (dx * dx) + rnd (dy * dy)) := hc.2
      _ ≤ (1 + 1 / 2 ^ 53) * ((1 + 1 / 2 ^ 53) * (dx * dx + dy * dy)) :=
          mul_le_mul_of_nonneg_left hhi hu2
      _ = (1 + 1 / 2 ^ 53) ^ 2 * (dx * dx + dy * dy) := by ring

/-- The speed the code computes against the exact sum of squares. -/
theorem speed_rounded (rnd : F → F) (E : Env F) (h : RoundsWithin rnd (1 / 2 ^ 53)) (dx dy : F)
    (hsq : SqrtRoundedAt E (rnd (rnd (dx * dx) + rnd (dy * dy)))) :
    (1 - 1 / 2 ^ 53) ^ 4 * (dx * dx + dy * dy) ≤
      E.sqrt (rnd (rnd (dx * dx) + rnd (dy * dy))) * E.sqrt (rnd (rnd (dx * dx) + rnd (dy * dy))) ∧
    E.sqrt (rnd (rnd (dx * dx) + rnd (dy * dy))) * E.sqrt (rnd (rnd (dx * dx) + rnd (dy * dy))) ≤
      (1 + 1 / 2 ^ 53) ^ 4 * (dx * dx + dy * dy) := by
  have hv := sumSquares_rounded rnd h dx dy
  obtain ⟨-, h1, h2⟩ := hsq
  have ha : (0 : F) ≤ (1 - 1 / 2 ^ 53) ^ 2 := by positivity
  have hb : (0 : F) ≤ (1 + 1 / 2 ^ 53) ^ 2 := by positivity
  constructor
  · calc (1 - 1 / 2 ^ 53) ^ 4 * (dx * dx + dy * dy)
        = (1 - 1 / 2 ^ 53) ^ 2 * ((1 - 1 / 2 ^ 53) ^ 2 * (dx * dx + dy * dy)) := by ring
      _ ≤ (1 - 1 / 2 ^ 53) ^ 2 * rnd (rnd (dx * dx) + rnd (dy * dy)) :=
          mul_le_mul_of_nonneg_left hv.1 ha
      _ ≤ _ := h1
  · calc E.sqrt (rnd (rnd (dx * dx) + rnd (dy * dy))) * E.sqrt (rnd (rnd (dx * dx) + rnd (dy * dy)))
        ≤ (1 + 1 / 2 ^ 53) ^ 2 * rnd (rnd (dx * dx) + rnd (dy * dy)) := h2
      _ ≤ (1 + 1 / 2 ^ 53) ^ 2 * ((1 + 1 / 2 ^ 53) ^ 2 * (dx * dx + dy * dy)) :=
          mul_le_mul_of_nonneg_left hv.2 hb
      _ = (1 + 1 / 2 ^ 53) ^ 4 * (dx * dx + dy * dy) := by ring

/-- One rescaled component: the rounded quotient times 5, rounded, is the
component times `5 / speed` times a factor between `(1 - 2^-53)^2` and
`(1 + 2^-53)^2`. -/
theorem rescale_rounded (rnd : F → F) (h : RoundsWithin rnd (1 / 2 ^ 53)) (d S : F) :
    ∃ m : F, (1 - 1 / 2 ^ 53) ^ 2 ≤ m ∧ m ≤ (1 + 1 / 2 ^ 53) ^ 2 ∧
      rnd (rnd (d / S) * 5) = m * (5 / S) * d := by
  have hu : (0 : F) ≤ 1 / 2 ^ 53 := by positivity
  obtain ⟨t1, a1, b1, e1⟩ := rounds_factor rnd _ hu h (d / S)
  obtain ⟨t2, a2, b2, e2⟩ := rounds_factor rnd _ hu h (rnd (d / S) * 5)
  have ht1 : (0 : F) ≤ t1 := le_trans (by norm_num) a1
  have ht2 : (0 : F) ≤ t2 := le_trans (by norm_num) a2
  refine ⟨t2 * t1, ?_, ?_, ?_⟩
  · rw [pow_two]
    exact mul_le_mul a2 a1 (by norm_num) ht2
  · rw [pow_two]
    exact mul_le_mul b2 b1 ht1 (by positivity)
  · rw [e2, e1]
    ring

/-- The error of the speed cap: with every operation rounded to a relative error
of `2^-53`, the capped velocity has its squared magnitude within `2^-48` of 25,
and an uncapped one at most that far above 25. -/
theorem cap_error (rnd : F → F) (h : RoundsWithin rnd (1 / 2 ^ 53)) (dx dy S : F) (hS : 0 ≤ S)
    (hlo : (1 - 1 / 2 ^ 53) ^ 4 * (dx * dx + dy * dy) ≤ S * S)
    (hhi : S * S ≤ (1 + 1 / 2 ^ 53) ^ 4 * (dx * dx + dy * dy)) :
    (¬ S > 5 → dx * dx + dy * dy ≤ 25 * (1 + 1 / 2 ^ 48)) ∧
    (S > 5 →
      rnd (rnd (dx / S) * 5) * rnd (rnd (dx / S) * 5) +
        rnd (rnd (dy / S) * 5) * rnd (rnd (dy / S) * 5) ≤ 25 * (1 + 1 / 2 ^ 48) ∧
      25 * (1 - 1 / 2 ^ 48) ≤ rnd (rnd (dx / S) * 5) * rnd (rnd (dx / S) * 5) +
        rnd (rnd (dy / S) * 5) * rnd (rnd (dy / S) * 5)) := by
  have hq : 0 ≤ dx * dx + dy * dy := add_nonneg (mul_self_nonneg dx) (mul_self_nonneg dy)
  have hk : (1 : F) ≤ (1 - 1 / 2 ^ 53) ^ 4 * (1 + 1 / 2 ^ 48) := by norm_num
  have hab : (1 + 1 / 2 ^ 53 : F) ^ 4 ≤ (1 + 1 / 2 ^ 48) * (1 - 1 / 2 ^ 53) ^ 4 := by norm_num
  have hba : (1 - 1 / 2 ^ 48 : F) * (1 + 1 / 2 ^ 53) ^ 4 ≤ (1 - 1 / 2 ^ 53) ^ 4 := by norm_num
  have ha : (0 : F) < (1 - 1 / 2 ^ 53) ^ 4 := by norm_num
  have hb : (0 : F) < (1 + 1 / 2 ^ 53) ^ 4 := by positivity
  constructor
  · intro hc
    have hS5 : S * S ≤ 25 := by nlinarith [not_lt.mp hc]
    calc dx * dx + dy * dy
        ≤ (dx * dx + dy * dy) * ((1 - 1 / 2 ^ 53) ^ 4 * (1 + 1 / 2 ^ 48)) :=
          le_mul_of_one_le_right hq hk
      _ = (1 - 1 / 2 ^ 53) ^ 4 * (dx * dx + dy * dy) * (1 + 1 / 2 ^ 48) := by ring
      _ ≤ 25 * (1 + 1 / 2 ^ 48) :=
          mul_le_mul_of_nonneg_right (le_trans hlo hS5) (by positivity)
  · intro hc
    have hSpos : 0 < S := lt_trans (by norm_num) hc
    have hSS : 0 < S * S := mul_pos hSpos hSpos
    obtain ⟨m1, a1, b1, e1⟩ := rescale_rounded rnd h dx S
    obtain ⟨m2, a2, b2, e2⟩ := rescale_rounded rnd h dy S
    have hm1 : (0 : F) ≤ m1 := le_trans (by positivity) a1
    have hm2 : (0 : F) ≤ m2 := le_trans (by positivity) a2
    have e4 : ∀ t : F, t ^ 4 = t ^ 2 * t ^ 2 := fun t => by ring
    have hm1lo : (1 - 1 / 2 ^ 53 : F) ^ 4 ≤ m1 * m1 := by
      rw [e4]
      exact mul_le_mul a1 a1 (by positivity) hm1
    have hm2lo : (1 - 1 / 2 ^ 53 : F) ^ 4 ≤ m2 * m2 := by
      rw [e4]
      exact mul_le_mul a2 a2 (by positivity) hm2
    have hm1hi : m1 * m1 ≤ (1 + 1 / 2 ^ 53 : F) ^ 4 := by
      rw [e4]
      exact mul_le_mul b1 b1 hm1 (by positivity)
    have hm2hi : m2 * m2 ≤ (1 + 1 / 2 ^ 53 : F) ^ 4 := by
      rw [e4]
      exact mul_le_mul b2 b2 hm2 (by positivity)
    have hsum : rnd (rnd (dx / S) * 5) * rnd (rnd (dx / S) * 5) +
        rnd (rnd (dy / S) * 5) * rnd (rnd (dy / S) * 5) =
        25 * ((m1 * m1 * (dx * dx) + m2 * m2 * (dy * dy)) / (S * S)) := by
      rw [e1, e2]
      field_simp
      ring
    have hWhi : m1 * m1 * (dx * dx) + m2 * m2 * (dy * dy) ≤
        (1 + 1 / 2 ^ 53) ^ 4 * (dx * dx + dy * dy) := by
      have := mul_le_mul_of_nonneg_right hm1hi (mul_self_nonneg dx)
      have := mul_le_mul_of_nonneg_right hm2hi (mul_self_nonneg dy)
      linarith
    have hWlo : (1 - 1 / 2 ^ 53) ^ 4 * (dx * dx + dy * dy) ≤
        m1 * m1 * (dx * dx) + m2 * m2 * (dy * dy) := by
      have := mul_le_mul_of_nonneg_right hm1lo (mul_self_nonneg dx)
      have := mul_le_mul_of_nonneg_right hm2lo (mul_self_nonneg dy)
      linarith
    rw [hsum]
    constructor
    · refine mul_le_mul_of_nonneg_left ?_ (by norm_num)
      rw [div_le_iff₀ hSS]
      have h1 : (1 - 1 / 2 ^ 53) ^ 4 * (m1 * m1 * (dx * dx) + m2 * m2 * (dy * dy)) ≤
          (1 - 1 / 2 ^ 53) ^ 4 * ((1 + 1 / 2 ^ 48) * (S * S)) := by
        calc (1 - 1 / 2 ^ 53) ^ 4 * (m1 * m1 * (dx * dx) + m2 * m2 * (dy * dy))
            ≤ (1 - 1 / 2 ^ 53) ^ 4 * ((1 + 1 / 2 ^ 53) ^ 4 * (dx * dx + dy * dy)) :=
              mul_le_mul_of_nonneg_left hWhi ha.le
          _ = (1 + 1 / 2 ^ 53) ^ 4 * ((1 - 1 / 2 ^ 53) ^ 4 * (dx * dx + dy * dy)) := by ring
          _ ≤ (1 + 1 / 2 ^ 53) ^ 4 * (S * S) := mul_le_mul_of_nonneg_left hlo hb.le
          _ ≤ (1 + 1 / 2 ^ 48) * (1 - 1 / 2 ^ 53) ^ 4 * (S * S) :=
              mul_le_mul_of_nonneg_right hab hSS.le
          _ = (1 - 1 / 2 ^ 53) ^ 4 * ((1 + 1 / 2 ^ 48) * (S * S)) := by ring
      exact le_of_mul_le_mul_left h1 ha
    · refine mul_le_mul_of_nonneg_left ?_ (by norm_num)
      rw [le_div_iff₀ hSS]
      have h1 : (1 + 1 / 2 ^ 53) ^ 4 * ((1 - 1 / 2 ^ 48) * (S * S)) ≤
          (1 + 1 / 2 ^ 53) ^ 4 * (m1 * m1 * (dx * dx) + m2 * m2 * (dy * dy)) := by
        calc (1 + 1 / 2 ^ 53) ^ 4 * ((1 - 1 / 2 ^ 48) * (S * S))
            = (1 - 1 / 2 ^ 48) * (1 + 1 / 2 ^ 53) ^ 4 * (S * S) := by ring
          _ ≤ (1 - 1 / 2 ^ 53) ^ 4 * (S * S) := mul_le_mul_of_nonneg_right hba hSS.le
          _ ≤ (1 - 1 / 2 ^ 53) ^ 4 * ((1 + 1 / 2 ^ 53) ^ 4 * (dx * dx + dy * dy)) :=
              mul_le_mul_of_nonneg_left hhi ha.le
          _ = (1 + 1 / 2 ^ 53) ^ 4 * ((1 - 1 / 2 ^ 53) ^ 4 * (dx * dx + dy * dy)) := by ring
          _ ≤ (1 + 1 / 2 ^ 53) ^ 4 * (m1 * m1 * (dx * dx) + m2 * m2 * (dy * dy)) :=
              mul_le_mul_of_nonneg_left hWlo hb.le
      exact le_of_mul_le_mul_left h1 hb

/-- The two branches of the friction-and-cap block, in terms of the velocity
after friction `(dx, dy)` and the speed `S` the code computes. -/
theorem frictionCapRounded_branches (rnd : F → F) (E : Env F) (s : Ship F) (dx dy S : F)
    (hdx : rnd (s.dx * rnd friction) = dx) (hdy : rnd (s.dy * rnd friction) = dy)
    (hS : E.sqrt (squaredSpeedRounded rnd s) = S) :
    (S > 5 → (frictionCapRounded rnd E s).dx = rnd (rnd (dx / S) * 5) ∧
      (frictionCapRounded rnd E s).dy = rnd (rnd (dy / S) * 5)) ∧
    (¬ S > 5 → (frictionCapRounded rnd E s).dx = dx ∧ (frictionCapRounded rnd E s).dy = dy) := by
  subst hdx hdy hS
  unfold frictionCapRounded squaredSpeedRounded
  simp only [maxVelocity]
  constructor
  · intro h
    rw [if_pos h]
    exact ⟨rfl, rfl⟩
  · intro h
    rw [if_neg h]
    exact ⟨rfl, rfl⟩

/-! ## `createAsteroid` with rounding -/

theorem createAsteroidRounded_id (E : Env F) (c : Nat) (x y s : F) :
    createAsteroidRounded id E c x y s = createAsteroid E c x y s := rfl

theorem createAsteroidRounded_points (rnd : F → F) (E : Env F) (c : Nat) (x y s : F) :
    (createAsteroidRounded rnd E c x y s).1.points =
      (List.range numAsteroidVertices).flatMap (fun i =>
        [rnd (E.cos (vertexAngleRounded rnd i) * vertexRadiusRounded rnd E c s i),
         rnd (E.sin (vertexAngleRounded rnd i) * vertexRadiusRounded rnd E c s i)]) := by
  simp only [createAsteroidRounded, numAsteroidVertices, List.range_succ, List.range_zero,
    List.nil_append, List.cons_append, List.foldl_cons, List.foldl_nil, List.flatMap_cons,
    List.flatMap_nil, List.replicate, List.set_cons_zero, List.set_cons_succ, Nat.reduceMul,
    Nat.reduceAdd, List.append_nil]

theorem createAsteroidRounded_vertex (rnd : F → F) (E : Env F) (c : Nat) (x y s : F) (i : Nat)
    (hi : i < 10) :
    (createAsteroidRounded rnd E c x y s).1.points[2 * i]? =
        some (rnd (E.cos (vertexAngleRounded rnd i) * vertexRadiusRounded rnd E c s i)) ∧
    (createAsteroidRounded rnd E c x y s).1.points[2 * i + 1]? =
        some (rnd (E.sin (vertexAngleRounded rnd i) * vertexRadiusRounded rnd E c s i)) := by
  rw [createAsteroidRounded_points]
  interval_cases i <;> exact ⟨rfl, rfl⟩

/-- A `float64` value below 1 is at most `1 - 2^-53`. -/
theorem isFloat64_lt_one (d : F) (hd : IsFloat64 d) (h1 : d < 1) : d ≤ 1 - 1 / 2 ^ 53 := by
  obtain ⟨n, j, hn, rfl⟩ := hd
  have h2 : (0 : F) < 2 ^ j := by positivity
  rcases le_or_lt n 0 with hn0 | hn0
  · have : (n : F) * 2 ^ j ≤ 0 :=
      mul_nonpos_of_nonpos_of_nonneg (by exact_mod_cast hn0) h2.le
    exact le_trans this (by norm_num)
  have hn1 : (1 : F) ≤ n := by exact_mod_cast hn0
  have hnlt : n < 2 ^ 53 := lt_of_le_of_lt (le_abs_self n) hn
  rcases le_or_lt 0 j with hj | hj
  · have : (1 : F) ≤ 2 ^ j := one_le_zpow₀ (by norm_num) hj
    have : (1 : F) ≤ (n : F) * 2 ^ j := by
      calc (1 : F) = 1 * 1 := by ring
        _ ≤ (n : F) * 2 ^ j := mul_le_mul hn1 this (by norm_num) (by linarith)
    linarith
  · obtain ⟨k, hk⟩ : ∃ k : Nat, j = -(k : Int) := ⟨(-j).toNat, by omega⟩
    subst hk
    rw [zpow_neg, zpow_natCast] at h1 ⊢
    have hkp : (0 : F) < 2 ^ k := by positivity
    have hlt : (n : F) < 2 ^ k := by
      have := (mul_inv_lt_iff₀ hkp).mp h1
      linarith
    have hlt2 : n < 2 ^ k := by exact_mod_cast hlt
    rw [← div_eq_mul_inv, div_le_iff₀ hkp]
    have key : n * 2 ^ 53 ≤ (2 ^ 53 - 1) * 2 ^ k := by
      rcases le_or_lt k 53 with hk53 | hk53
      · have hp : (2 : Int) ^ k ≤ 2 ^ 53 := pow_le_pow_right₀ (by norm_num) hk53
        have : n ≤ 2 ^ k - 1 := by omega
        calc n * 2 ^ 53 ≤ (2 ^ k - 1) * 2 ^ 53 := Int.mul_le_mul_of_nonneg_right this (by norm_num)
          _ = 2 ^ k * 2 ^ 53 - 2 ^ 53 := by ring
          _ ≤ 2 ^ k * 2 ^ 53 - 2 ^ k := by omega
          _ = (2 ^ 53 - 1) * 2 ^ k := by ring
      · have hp : (2 : Int) ^ 53 ≤ 2 ^ k := pow_le_pow_right₀ (by norm_num) hk53.le
        have : n ≤ 2 ^ 53 - 1 := by omega
        calc n * 2 ^ 53 ≤ (2 ^ 53 - 1) * 2 ^ 53 := Int.mul_le_mul_of_nonneg_right this (by norm_num)
          _ ≤ (2 ^ 53 - 1) * 2 ^ k := Int.mul_le_mul_of_nonneg_left hp (by norm_num)
    have keyF : (n : F) * 2 ^ 53 ≤ (2 ^ 53 - 1) * 2 ^ k := by exact_mod_cast key
    have e : (1 - 1 / 2 ^ 53 : F) * 2 ^ k = (2 ^ 53 - 1) * 2 ^ k / 2 ^ 53 := by
      field_simp
    rw [e, le_div_iff₀ (by positivity)]
    exact keyF

theorem isFloat64_double (d : F) (hd : IsFloat64 d) : IsFloat64 (d * 2) := by
  obtain ⟨n, j, hn, rfl⟩ := hd
  refine ⟨n, j + 1, hn, ?_⟩
  rw [zpow_add_one₀ (by norm_num)]
  ring

/-- A velocity component of a new asteroid lies in `[-2, 2)`: the draw is a
`float64` below 1, and rounding passes neither -1 nor `1 - 2^-52`, neither -2
nor `2 - 2^-51`. -/
theorem velocity_rounded (rnd : F → F) (hr : RoundsToNearest rnd) (d : F) (hd : IsFloat64 d)
    (h0 : 0 ≤ d) (h1 : d < 1) :
    -2 ≤ rnd (rnd (rnd (d * 2) - 1) * 2) ∧ rnd (rnd (rnd (d * 2) - 1) * 2) < 2 := by
  have hle := isFloat64_lt_one d hd h1
  rw [rounds_fix rnd hr _ (isFloat64_double d hd)]
  have fa : IsFloat64 (-1 : F) := ⟨-1, 0, by norm_num, by norm_num⟩
  have fb : IsFloat64 (1 - 1 / 2 ^ 52 : F) :=
    ⟨2 ^ 52 - 1, -52, by norm_num, by norm_num⟩
  have fc : IsFloat64 (-2 : F) := ⟨-1, 1, by norm_num, by norm_num⟩
  have fd : IsFloat64 (2 - 1 / 2 ^ 51 : F) :=
    ⟨2 ^ 52 - 1, -51, by norm_num, by norm_num⟩
  have ya := (hr.2 (-1) (d * 2 - 1) fa).1 (by linarith)
  have yb := (hr.2 (1 - 1 / 2 ^ 52) (d * 2 - 1) fb).2 (by linarith)
  have za := (hr.2 (-2) (rnd (d * 2 - 1) * 2) fc).1 (by linarith)
  have zb := (hr.2 (2 - 1 / 2 ^ 51) (rnd (d * 2 - 1) * 2) fd).2 (by linarith)
  refine ⟨za, lt_of_le_of_lt zb ?_⟩
  norm_num

theorem rounds_abs (rnd : F → F) (u : F) (hu : 0 ≤ u) (h : RoundsWithin rnd u) (x : F) :
    |rnd x| ≤ (1 + u) * |x| := by
  obtain ⟨t, h1, h2, h3⟩ := rounds_factor rnd u hu h x
  have hx := h x
  calc |rnd x| = |(rnd x - x) + x| := by ring_nf
    _ ≤ |rnd x - x| + |x| := abs_add _ _
    _ ≤ u * |x| + |x| := by linarith
    _ = (1 + u) * |x| := by ring

/-- The rotation speed of a new asteroid is within `2^-50` of `[-0.05, 0.05]`. -/
theorem rotationSpeed_rounded (rnd : F → F) (hr : RoundsToNearest rnd) (d : F)
    (h0 : 0 ≤ d) (h1 : d < 1) :
    -(1 / 20 * (1 + 1 / 2 ^ 50)) ≤ rnd (rnd (d - 1 / 2) * rnd (1 / 10)) ∧
    rnd (rnd (d - 1 / 2) * rnd (1 / 10)) ≤ 1 / 20 * (1 + 1 / 2 ^ 50) := by
  have hu : (0 : F) ≤ 1 / 2 ^ 53 := by positivity
  have fa : IsFloat64 (-(1 / 2) : F) := ⟨-1, -1, by norm_num, by norm_num⟩
  have fb : IsFloat64 ((1 / 2) : F) := ⟨1, -1, by norm_num, by norm_num⟩
  have ya := (hr.2 (-(1 / 2)) (d - 1 / 2) fa).1 (by linarith)
  have yb := (hr.2 (1 / 2) (d - 1 / 2) fb).2 (by linarith)
  have hy : |rnd (d - 1 / 2)| ≤ 1 / 2 := abs_le.mpr ⟨ya, yb⟩
  have hk : |rnd (1 / 10 : F)| ≤ (1 + 1 / 2 ^ 53) * (1 / 10) := by
    have := rounds_abs rnd _ hu hr.1 (1 / 10 : F)
    rwa [abs_of_pos (by norm_num : (0 : F) < 1 / 10)] at this
  have hprod : |rnd (d - 1 / 2) * rnd (1 / 10)| ≤ 1 / 2 * ((1 + 1 / 2 ^ 53) * (1 / 10)) := by
    rw [abs_mul]
    exact mul_le_mul hy hk (abs_nonneg _) (by norm_num)
  have hres := rounds_abs rnd _ hu hr.1 (rnd (d - 1 / 2) * rnd (1 / 10))
  have hfin : |rnd (rnd (d - 1 / 2) * rnd (1 / 10))| ≤ 1 / 20 * (1 + 1 / 2 ^ 50) := by
    calc |rnd (rnd (d - 1 / 2) * rnd (1 / 10))|
        ≤ (1 + 1 / 2 ^ 53) * |rnd (d - 1 / 2) * rnd (1 / 10)| := hres
      _ ≤ (1 + 1 / 2 ^ 53) * (1 / 2 * ((1 + 1 / 2 ^ 53) * (1 / 10))) :=
          mul_le_mul_of_nonneg_left hprod (by positivity)
      _ ≤ 1 / 20 * (1 + 1 / 2 ^ 50) := by norm_num
  exact abs_le.mp hfin

/-- A rounded value between two multiples of `s ≥ 0`. -/
theorem rounds_scale (rnd : F → F) (h : RoundsWithin rnd (1 / 2 ^ 53)) (s a b x : F)
    (hs : 0 ≤ s) (ha : 0 ≤ a) (h1 : a * s ≤ x) (h2 : x ≤ b * s) :
    (1 - 1 / 2 ^ 53) * a * s ≤ rnd x ∧ rnd x ≤ (1 + 1 / 2 ^ 53) * b * s := by
  have hu : (0 : F) ≤ 1 / 2 ^ 53 := by positivity
  have hx : 0 ≤ x := le_trans (mul_nonneg ha hs) h1
  have hb := rounds_nonneg rnd _ hu h x hx
  constructor
  · calc (1 - 1 / 2 ^ 53) * a * s = (1 - 1 / 2 ^ 53) * (a * s) := by ring
      _ ≤ (1 - 1 / 2 ^ 53) * x := mul_le_mul_of_nonneg_left h1 (by norm_num)
      _ ≤ rnd x := hb.1
  · calc rnd x ≤ (1 + 1 / 2 ^ 53) * x := hb.2
      _ ≤ (1 + 1 / 2 ^ 53) * (b * s) := mul_le_mul_of_nonneg_left h2 (by positivity)
      _ = (1 + 1 / 2 ^ 53) * b * s := by ring

/-- The radius of a vertex is within `2^-50` of `[3s/8, 5s/8]`. -/
theorem vertexRadiusRounded_bounds (rnd : F → F) (E : Env F) (c : Nat) (s : F) (i : Nat)
    (h : RoundsWithin rnd (1 / 2 ^ 53))
    (hdraw : 0 ≤ E.float64 (c + 4 + i) ∧ E.float64 (c + 4 + i) < 1) (hs : 0 ≤ s) :
    3 * s / 8 * (1 - 1 / 2 ^ 50) ≤ vertexRadiusRounded rnd E c s i ∧
    vertexRadiusRounded rnd E c s i ≤ 5 * s / 8 * (1 + 1 / 2 ^ 50) := by
  obtain ⟨d0, d1⟩ := hdraw
  have hA := rounds_scale rnd h s (1 / 2) (1 / 2) (s / 2) hs (by norm_num)
    (by linarith) (by linarith)
  have hP := rounds_scale rnd h s 0 1 (E.float64 (c + 4 + i) * s) hs (le_refl 0)
    (by rw [zero_mul]; exact mul_nonneg d0 hs)
    (mul_le_mul_of_nonneg_right d1.le hs)
  have hB := rounds_scale rnd h s 0 ((1 + 1 / 2 ^ 53) * 1 / 4)
    (rnd (E.float64 (c + 4 + i) * s) / 4) hs (le_refl 0)
    (by rw [zero_mul]; have := hP.1; simp only [mul_zero, zero_mul] at this; linarith)
    (by have := hP.2; linarith)
  have hT := rounds_scale rnd h s ((1 - 1 / 2 ^ 53) * (1 / 2))
    ((1 + 1 / 2 ^ 53) * (1 / 2) + (1 + 1 / 2 ^ 53) * ((1 + 1 / 2 ^ 53) * 1 / 4))
    (rnd (s / 2) + rnd (rnd (E.float64 (c + 4 + i) * s) / 4)) hs (by norm_num)
    (by have := hA.1; have := hB.1; simp only [mul_zero, zero_mul] at *; linarith)
    (by have := hA.2; have := hB.2; linarith)
  have hC := rounds_scale rnd h s (1 / 8) (1 / 8) (s / 8) hs (by norm_num)
    (by linarith) (by linarith)
  have hR := rounds_scale rnd h s
    ((1 - 1 / 2 ^ 53) * ((1 - 1 / 2 ^ 53) * (1 / 2)) - (1 + 1 / 2 ^ 53) * (1 / 8))
    ((1 + 1 / 2 ^ 53) * ((1 + 1 / 2 ^ 53) * (1 / 2) +
      (1 + 1 / 2 ^ 53) * ((1 + 1 / 2 ^ 53) * 1 / 4)) - (1 - 1 / 2 ^ 53) * (1 / 8))
    (rnd (rnd (s / 2) + rnd (rnd (E.float64 (c + 4 + i) * s) / 4)) - rnd (s / 8)) hs
    (by norm_num)
    (by have := hT.1; have := hC.2; linarith)
    (by have := hT.2; have := hC.1; linarith)
  unfold vertexRadiusRounded
  constructor
  · refine le_trans ?_ hR.1
    have hk : (3 / 8 * (1 - 1 / 2 ^ 50) : F) ≤ (1 - 1 / 2 ^ 53) *
        ((1 - 1 / 2 ^ 53) * ((1 - 1 / 2 ^ 53) * (1 / 2)) - (1 + 1 / 2 ^ 53) * (1 / 8)) := by
      norm_num
    calc 3 * s / 8 * (1 - 1 / 2 ^ 50) = 3 / 8 * (1 - 1 / 2 ^ 50) * s := by ring
      _ ≤ _ := mul_le_mul_of_nonneg_right hk hs
  · refine le_trans hR.2 ?_
    have hk : ((1 + 1 / 2 ^ 53) * ((1 + 1 / 2 ^ 53) * ((1 + 1 / 2 ^ 53) * (1 / 2) +
        (1 + 1 / 2 ^ 53) * ((1 + 1 / 2 ^ 53) * 1 / 4)) - (1 - 1 / 2 ^ 53) * (1 / 8)) : F) ≤
        5 / 8 * (1 + 1 / 2 ^ 50) := by
      norm_num
    calc _ ≤ 5 / 8 * (1 + 1 / 2 ^ 50) * s := mul_le_mul_of_nonneg_right hk hs
      _ = 5 * s / 8 * (1 + 1 / 2 ^ 50) := by ring

/-- The test for a Special asteroid against the `float64` constant 0.1 is the
test against 0.1, when that constant is not below 0.1. -/
theorem special_threshold (rnd : F → F) (hr : RoundsToNearest rnd) (d : F) (hd : IsFloat64 d)
    (hc : (1 / 10 : F) ≤ rnd (1 / 10)) : d < rnd (1 / 10) ↔ d < 1 / 10 := by
  constructor
  · intro h
    by_contra hn
    exact absurd h (not_lt.mpr ((hr.2 d (1 / 10) hd).2 (not_lt.mp hn)))
  · intro h
    exact lt_of_lt_of_le h hc

/-! ## Evaluations at the concrete inputs -/

theorem fmod_of_floor (x y : ℚ) (n : Int) (hx : 0 ≤ x / y) (hn : ⌊x / y⌋ = n) :
    fmod x y = x - y * n := by
  simp [fmod, trunc, hx, hn]

theorem shipStep_zero (angle : ℚ) (t : Bool) : shipStep sampleEnv idle { angle := angle, dx := 0, dy := 0, thrusting := t } = { angle := angle, dx := 0, dy := 0, thrusting := false } := by
  simp [shipStep, rotateShip, thrustShip, frictionCap, idle, sampleEnv]

theorem shipStep_idle_zero : shipStep sampleEnv idle Ship.zero = Ship.zero :=
  shipStep_zero 0 false

theorem sqrt_sample_hundred : sampleEnv.sqrt 100 = 10 := by
  show Rat.sqrt 100 = 10
  rw [show (100 : ℚ) = 10 * 10 by norm_num, Rat.sqrt_eq]
  norm_num

theorem squaredSpeed_fastShip : squaredSpeed fastShip = 100 := by
  norm_num [squaredSpeed, fastShip]

theorem sqrtExact_fastShip : SqrtExactAt sampleEnv (squaredSpeed fastShip) := by
  rw [squaredSpeed_fastShip]
  unfold SqrtExactAt
  rw [sqrt_sample_hundred]
  norm_num

theorem advance_rock : advanceAsteroid sampleEnv Ship.zero rock = rock := by
  have h1 : fmod (740 : ℚ) 640 = 100 := by
    rw [fmod_of_floor 740 640 1 (by norm_num) (by norm_num)]; norm_num
  have h2 : fmod (580 : ℚ) 480 = 100 := by
    rw [fmod_of_floor 580 480 1 (by norm_num) (by norm_num)]; norm_num
  simp only [advanceAsteroid, moveAsteroid, rock, Ship.zero, screenWidth, screenHeight]
  norm_num [h1, h2]
  intro h
  cases h

theorem hit_rock : hitScan sampleEnv rock [shot] 0 = some 0 := by
  simp [hitScan, distance, rock, shot, sampleEnv]

theorem miss_rock :
    hitScan sampleEnv rock [{ x := 649, y := 100, dx := 10, dy := 0, lifetime := 4 }] 0 = none := by
  have h : sampleEnv.sqrt ((100 - 649) * (100 - 649) + (100 - 100) * (100 - 100)) = 549 := by
    show Rat.sqrt _ = 549
    rw [show ((100 : ℚ) - 649) * (100 - 649) + (100 - 100) * (100 - 100) = 549 * 549 by norm_num,
      Rat.sqrt_eq]
    norm_num
  simp only [hitScan, distance, rock, h]
  norm_num

theorem advance_pebble : advanceAsteroid sampleEnv Ship.zero pebble = pebble := by
  have h1 : fmod (740 : ℚ) 640 = 100 := by
    rw [fmod_of_floor 740 640 1 (by norm_num) (by norm_num)]; norm_num
  have h2 : fmod (580 : ℚ) 480 = 100 := by
    rw [fmod_of_floor 580 480 1 (by norm_num) (by norm_num)]; norm_num
  simp only [advanceAsteroid, moveAsteroid, pebble, Ship.zero, screenWidth, screenHeight]
  norm_num [h1, h2]
  intro h
  cases h

theorem advance_shot :
    ([shot].map (advanceBullet Ship.zero)).filter (fun b => decide (0 < b.lifetime)) =
      [{ x := 100, y := 100, dx := 0, dy := 0, lifetime := 4 }] := by
  have hw : wrapInt 4 = 4 := by decide
  simp [advanceBullet, shot, Ship.zero, hw]

theorem advance_strayShot :
    ([strayShot].map (advanceBullet Ship.zero)).filter (fun b => decide (0 < b.lifetime)) =
      [{ x := 649, y := 100, dx := 10, dy := 0, lifetime := 4 }] := by
  have hw : wrapInt 4 = 4 := by decide
  simp only [advanceBullet, strayShot, Ship.zero, List.map_cons, List.map_nil]
  norm_num [hw]

theorem bulletPhase_rest (g : Game ℚ) (hs : g.ship = Ship.zero) :
    (bulletPhase sampleEnv idle g).ship = Ship.zero ∧
    (bulletPhase sampleEnv idle g).asteroids = g.asteroids ∧
    (bulletPhase sampleEnv idle g).score = g.score ∧
    (bulletPhase sampleEnv idle g).particles = g.particles ∧
    (bulletPhase sampleEnv idle g).rng = g.rng ∧
    (bulletPhase sampleEnv idle g).bullets =
      (g.bullets.map (advanceBullet Ship.zero)).filter (fun b => decide (0 < b.lifetime)) := by
  have h := bulletPhase_frame sampleEnv idle g
  have hb := bulletPhase_bullets sampleEnv idle g
  rw [hs, shipStep_idle_zero] at h
  rw [hs, shipStep_idle_zero, fire_idle] at hb
  exact ⟨h.1, h.2.1, h.2.2.2.2.1, h.2.2.2.1, h.2.2.2.2.2.2.2, hb⟩

theorem bulletPhase_brim :
    (bulletPhase sampleEnv idle brimGame).ship = Ship.zero ∧
    (bulletPhase sampleEnv idle brimGame).asteroids = { data := [pebble], cap := 1 } ∧
    (bulletPhase sampleEnv idle brimGame).score = 2 ^ 63 - 1 ∧
    (bulletPhase sampleEnv idle brimGame).bullets =
      [{ x := 100, y := 100, dx := 0, dy := 0, lifetime := 4 }] := by
  have h := bulletPhase_rest brimGame rfl
  exact ⟨h.1, h.2.1, h.2.2.1, h.2.2.2.2.2.trans advance_shot⟩

theorem asteroidPhase_brim :
    (asteroidPhase sampleEnv idle brimGame).score = -2 ^ 63 + 9 ∧
    (asteroidPhase sampleEnv idle brimGame).bullets = [] ∧
    (asteroidPhase sampleEnv idle brimGame).asteroids.data = [] := by
  obtain ⟨hs, ha, hsc, hb⟩ := bulletPhase_brim
  unfold asteroidPhase
  simp only []
  generalize bulletPhase sampleEnv idle brimGame = G at hs ha hsc hb
  have hget : G.asteroids.data[0]? = some pebble := by rw [ha]; rfl
  have hbody := asteroidBody_remove sampleEnv 0 0 pebble G
    (by rw [hs, advance_pebble]; simp [pebble])
    (by rw [hs, advance_pebble, hb]; simp [hitScan, distance, pebble, sampleEnv])
    (by rw [hs, advance_pebble]; norm_num [pebble])
  have hw : wrapInt (2 ^ 63 - 1 + 10) = -2 ^ 63 + 9 := by decide
  rw [show G.asteroids.data.length + G.bullets.length = 1 + 1 by rw [ha, hb]; rfl]
  rw [asteroidLoop_step sampleEnv 1 0 pebble G hget, hbody]
  rw [asteroidLoop_stop _ _ _ _ (by simp [ha])]
  simp only [hsc, hb, ha, hw]
  simp

theorem updatePlaying_stray :
    (updatePlaying sampleEnv idle strayGame).bullets =
      [{ x := 649, y := 100, dx := 10, dy := 0, lifetime := 4 }] := by
  have hb := bulletPhase_rest strayGame rfl
  have hbul := hb.2.2.2.2.2.trans advance_strayShot
  have ha : (bulletPhase sampleEnv idle strayGame).asteroids.data = [rock] :=
    congrArg Slice.data hb.2.1
  have hloop := asteroidLoop_single_miss sampleEnv (bulletPhase sampleEnv idle strayGame) rock
    ((bulletPhase sampleEnv idle strayGame).asteroids.data.length +
      (bulletPhase sampleEnv idle strayGame).bullets.length)
    (by rw [ha]; simp) ha
    (by rw [hb.1, advance_rock]; simp [rock])
    (by rw [hb.1, advance_rock, hbul]; exact miss_rock)
  rw [(updatePlaying_frame sampleEnv idle strayGame).2.1, asteroidPhase_eq]
  exact hloop.trans hbul

theorem createAsteroid_sample_normal (c : Nat) (x y s : ℚ) :
    (createAsteroid sampleEnv c x y s).1.asteroidType = AsteroidType.NormalAsteroid := by
  show (if sampleEnv.float64 c < 1 / 10 then AsteroidType.SpecialAsteroid
    else AsteroidType.NormalAsteroid) = _
  rw [if_neg (by norm_num [sampleEnv])]

theorem hit_rock_advanced :
    hitScan sampleEnv rock [{ x := 100, y := 100, dx := 0, dy := 0, lifetime := 4 }] 0 = some 0 := by
  simp [hitScan, distance, rock, sampleEnv]

/-- The tick on `fullGame`: the parent of size 30 is still there, followed by
one child of size 15. -/
theorem updatePlaying_full :
    (updatePlaying sampleEnv idle fullGame).asteroids.data.map Asteroid.size = [30, 15] := by
  have hb := bulletPhase_rest fullGame rfl
  have hbul := hb.2.2.2.2.2.trans advance_shot
  have ha : (bulletPhase sampleEnv idle fullGame).asteroids.data = [rock] :=
    congrArg Slice.data hb.2.1
  have hcap : (bulletPhase sampleEnv idle fullGame).asteroids.cap = 1 :=
    congrArg Slice.cap hb.2.1
  have hloop := asteroidLoop_single_split_full sampleEnv (bulletPhase sampleEnv idle fullGame) rock
    ((bulletPhase sampleEnv idle fullGame).asteroids.data.length +
      (bulletPhase sampleEnv idle fullGame).bullets.length)
    (by rw [ha, hbul]; simp) ha (by rw [ha, hcap]; simp)
    (by rw [hb.1, advance_rock]; simp [rock])
    (by rw [hb.1, advance_rock, hbul]; exact hit_rock_advanced)
    (by rw [hbul]; rfl)
    (by rw [hb.1, advance_rock]; norm_num [rock])
    (createAsteroid_sample_normal _ _ _ _)
  rw [(updatePlaying_frame sampleEnv idle fullGame).2.2.1, asteroidPhase_eq, hloop]
  have hn := advanceAsteroid_normal sampleEnv (bulletPhase sampleEnv idle fullGame).ship _
    (createAsteroid_sample_normal (bulletPhase sampleEnv idle fullGame).rng
      (advanceAsteroid sampleEnv (bulletPhase sampleEnv idle fullGame).ship rock).x
      (advanceAsteroid sampleEnv (bulletPhase sampleEnv idle fullGame).ship rock).y
      ((advanceAsteroid sampleEnv (bulletPhase sampleEnv idle fullGame).ship rock).size / 2))
  simp only [List.map_cons, List.map_nil, hn.1]
  rw [hb.1, advance_rock]
  show [rock.size, rock.size / 2] = [30, 15]
  norm_num [rock]

theorem advance_twin :
    ([shot, shot2].map (advanceBullet Ship.zero)).filter (fun b => decide (0 < b.lifetime)) =
      [{ x := 100, y := 100, dx := 0, dy := 0, lifetime := 4 },
       { x := 103, y := 104, dx := 0, dy := 0, lifetime := 6 }] := by
  have hw : wrapInt 4 = 4 := by decide
  have hw2 : wrapInt 6 = 6 := by decide
  simp only [advanceBullet, shot, shot2, Ship.zero, List.map_cons, List.map_nil]
  norm_num [hw, hw2]

theorem distance_sample (x y : ℚ) :
    distance sampleEnv x y x y = 0 ∧ distance sampleEnv x y (x + 3) (y + 4) = 5 := by
  constructor
  · simp [distance, sampleEnv]
  · show Rat.sqrt _ = 5
    rw [show (x - (x + 3)) * (x - (x + 3)) + (y - (y + 4)) * (y - (y + 4)) = (5 : ℚ) * 5 by ring,
      Rat.sqrt_eq]
    norm_num

/-- Both advanced bullets are within hit distance of an asteroid at (100, 100)
whose size is above 10. -/
theorem twin_within_hit (a : Asteroid ℚ) (hx : a.x = 100) (hy : a.y = 100) (hs : 10 < a.size) :
    allWithinHit sampleEnv a
      [{ x := 100, y := 100, dx := 0, dy := 0, lifetime := 4 },
       { x := 103, y := 104, dx := 0, dy := 0, lifetime := 6 }] := by
  intro b hb
  simp only [List.mem_cons, List.mem_singleton, List.not_mem_nil, or_false] at hb
  rcases hb with rfl | rfl
  · rw [hx, hy, (distance_sample 100 100).1]; linarith
  · have h := (distance_sample 100 100).2
    norm_num at h
    rw [hx, hy, h]; linarith

/-- An asteroid created by `sampleEnv` on screen is normal and at rest; the
loop leaves it where it is. -/
theorem advance_sample_child (c : Nat) (x y s : ℚ) (hon : OnScreen x y) :
    (advanceAsteroid sampleEnv Ship.zero (createAsteroid sampleEnv c x y s).1).x = x ∧
    (advanceAsteroid sampleEnv Ship.zero (createAsteroid sampleEnv c x y s).1).y = y ∧
    (advanceAsteroid sampleEnv Ship.zero (createAsteroid sampleEnv c x y s).1).size = s ∧
    (advanceAsteroid sampleEnv Ship.zero (createAsteroid sampleEnv c x y s).1).asteroidType =
      AsteroidType.NormalAsteroid := by
  have hn := advanceAsteroid_normal sampleEnv Ship.zero _ (createAsteroid_sample_normal c x y s)
  have hp := advanceAsteroid_pos sampleEnv Ship.zero (createAsteroid sampleEnv c x y s).1
  have hf := createAsteroid_fields sampleEnv c x y s
  have hm := moveAsteroid_at_rest Ship.zero (createAsteroid sampleEnv c x y s).1
    (by rw [hf.2.2.2.2.2.1]; norm_num [sampleEnv, Ship.zero])
    (by rw [hf.2.2.2.2.2.2.1]; norm_num [sampleEnv, Ship.zero])
    (by rw [hf.1, hf.2.1]; exact hon)
  exact ⟨hp.1.trans (hm.1.trans hf.1), hp.2.trans (hm.2.trans hf.2.1), hn.1.trans hf.2.2.1, hn.2⟩

/-- The tick on `twinGame`: the asteroid is split by the first bullet, and the
child appended to the slice is hit by the second bullet in the same pass. -/
theorem updatePlaying_twin :
    (bulletPhase sampleEnv idle twinGame).bullets =
      [{ x := 100, y := 100, dx := 0, dy := 0, lifetime := 4 },
       { x := 103, y := 104, dx := 0, dy := 0, lifetime := 6 }] ∧
    (updatePlaying sampleEnv idle twinGame).bullets = [] ∧
    (updatePlaying sampleEnv idle twinGame).score = 20 := by
  have hb := bulletPhase_rest twinGame rfl
  have hbul := hb.2.2.2.2.2.trans advance_twin
  have ha : (bulletPhase sampleEnv idle twinGame).asteroids.data = [rock] :=
    congrArg Slice.data hb.2.1
  have hcap : (bulletPhase sampleEnv idle twinGame).asteroids.cap = 2 :=
    congrArg Slice.cap hb.2.1
  have hchild := advance_sample_child (bulletPhase sampleEnv idle twinGame).rng rock.x rock.y
    (rock.size / 2) (by norm_num [OnScreen, rock])
  have hloop := asteroidLoop_split_room_child_removed sampleEnv (bulletPhase sampleEnv idle twinGame)
    rock ((bulletPhase sampleEnv idle twinGame).asteroids.data.length +
      (bulletPhase sampleEnv idle twinGame).bullets.length) 0 0
    (by rw [ha, hbul]; simp) ha (by rw [ha, hcap]; simp)
    (by rw [hb.1, advance_rock]; simp [rock])
    (by rw [hb.1, advance_rock, hbul]
        exact hitScan_first _ _ _ (by simp) (twin_within_hit rock rfl rfl (by norm_num [rock])))
    (by rw [hb.1, advance_rock]; norm_num [rock])
    (by rw [hb.1, advance_rock, hchild.2.2.2]; simp)
    (by rw [hb.1, advance_rock, hbul]
        exact hitScan_first _ _ _ (by simp)
          (fun b hb => twin_within_hit _ hchild.1 hchild.2.1
            (by rw [hchild.2.2.1]; norm_num [rock]) b
            (List.mem_of_mem_eraseIdx hb)))
    (by rw [hb.1, advance_rock, hchild.2.2.1]; norm_num [rock])
  have hf := updatePlaying_frame sampleEnv idle twinGame
  refine ⟨hbul, ?_, ?_⟩
  · rw [hf.2.1, asteroidPhase_eq, hloop.1, hbul]
    rfl
  · rw [hf.1, asteroidPhase_eq, hloop.2.1, hb.2.2.1]
    decide

theorem bhaskaraSin_mul (u : ℚ) :
    bhaskaraSin (u * Pi) = 16 * u * (1 - u) / (5 - 4 * u * (1 - u)) := by
  have hP : (Pi : ℚ) ≠ 0 := by norm_num [Pi]
  have hd : 5 - 4 * u * (1 - u) ≠ 0 := by nlinarith [sq_nonneg (2 * u - 1)]
  have hd2 : 5 * (Pi : ℚ) * Pi - 4 * (u * Pi) * (Pi - u * Pi) ≠ 0 := by
    have : 5 * (Pi : ℚ) * Pi - 4 * (u * Pi) * (Pi - u * Pi) = Pi * Pi * (5 - 4 * u * (1 - u)) := by
      ring
    rw [this]
    exact mul_ne_zero (mul_ne_zero hP hP) hd
  unfold bhaskaraSin
  rw [div_eq_div_iff hd2 hd]
  ring

theorem bhaskaraSin_pos (u : ℚ) (h0 : 0 < u) (h1 : u < 1) : 0 < bhaskaraSin (u * Pi) := by
  rw [bhaskaraSin_mul]
  have hd : 0 < 5 - 4 * u * (1 - u) := by nlinarith [sq_nonneg (2 * u - 1)]
  have hn : 0 < 16 * u * (1 - u) := by
    have : 0 < u * (1 - u) := mul_pos h0 (by linarith)
    linarith
  exact div_pos hn hd

theorem pulseEnv_first_special (x y s : ℚ) :
    (createAsteroid pulseEnv 0 x y s).1.asteroidType = AsteroidType.SpecialAsteroid := by
  show (if pulseEnv.float64 0 < 1 / 10 then AsteroidType.SpecialAsteroid
    else AsteroidType.NormalAsteroid) = _
  rw [if_pos (by norm_num [pulseEnv])]

theorem pulseEnv_later_normal (c : Nat) (x y s : ℚ) :
    (createAsteroid pulseEnv (c + 1) x y s).1.asteroidType = AsteroidType.NormalAsteroid := by
  show (if pulseEnv.float64 (c + 1) < 1 / 10 then AsteroidType.SpecialAsteroid
    else AsteroidType.NormalAsteroid) = _
  rw [if_neg (by norm_num [pulseEnv])]

theorem advance_rock_any (E : Env ℚ) : advanceAsteroid E Ship.zero rock = rock := by
  rw [advanceAsteroid_of_normal E Ship.zero rock rfl,
    ← advanceAsteroid_of_normal sampleEnv Ship.zero rock rfl, advance_rock]

/-- The Special child of `pulseEnv`, created with size `s`, after its first
pass through the loop: countdown 179 and a size just above 30, whatever `s`. -/
theorem advance_pulse_child (x y s : ℚ) :
    (advanceAsteroid pulseEnv Ship.zero (createAsteroid pulseEnv 0 x y s).1).asteroidType =
      AsteroidType.SpecialAsteroid ∧
    (advanceAsteroid pulseEnv Ship.zero (createAsteroid pulseEnv 0 x y s).1).expansionTime = 179 ∧
    (advanceAsteroid pulseEnv Ship.zero (createAsteroid pulseEnv 0 x y s).1).size =
      1220370 / 40321 := by
  have h := advanceAsteroid_pulse pulseEnv Ship.zero _ (pulseEnv_first_special x y s)
  have he : (advanceAsteroid pulseEnv Ship.zero (createAsteroid pulseEnv 0 x y s).1).expansionTime =
      179 := by
    rw [h.2.1]
    show wrapInt (180 - 1) = 179
    decide
  refine ⟨h.1, he, ?_⟩
  rw [h.2.2, he]
  show 30 * (1 + bhaskaraSin (((179 : Int) : ℚ) / 180 * Pi) * (1 / 2)) = _
  rw [show ((179 : Int) : ℚ) / 180 = 179 / 180 by norm_num, bhaskaraSin_mul]
  norm_num

theorem hit_rock_any (E : Env ℚ) (hE : E.sqrt = Rat.sqrt) :
    hitScan E rock [{ x := 100, y := 100, dx := 0, dy := 0, lifetime := 4 }] 0 = some 0 := by
  simp [hitScan, distance, rock, hE]

/-- The tick on `roomGame` under `pulseEnv`: the bullet splits the asteroid of
size 30 into two children created with size 15; the appended one is Special, is
processed in the same pass, and leaves it with countdown 179 and a size above
30. -/
theorem updatePlaying_room :
    (updatePlaying pulseEnv idle roomGame).asteroids.data.map Asteroid.asteroidType =
      [AsteroidType.NormalAsteroid, AsteroidType.SpecialAsteroid] ∧
    (updatePlaying pulseEnv idle roomGame).asteroids.data.map Asteroid.expansionTime =
      [180, 179] ∧
    (updatePlaying pulseEnv idle roomGame).asteroids.data.map Asteroid.size =
      [15, 1220370 / 40321] := by
  have hb := bulletPhase_at_rest pulseEnv roomGame rfl
  have hbul := hb.2.2.2.2.2.trans advance_shot
  have ha : (bulletPhase pulseEnv idle roomGame).asteroids.data = [rock] :=
    congrArg Slice.data hb.2.1
  have hcap : (bulletPhase pulseEnv idle roomGame).asteroids.cap = 2 :=
    congrArg Slice.cap hb.2.1
  have hrng : (bulletPhase pulseEnv idle roomGame).rng = 0 := hb.2.2.2.2.1
  have hchild := advance_pulse_child rock.x rock.y (rock.size / 2)
  have hloop := asteroidLoop_single_split_room pulseEnv (bulletPhase pulseEnv idle roomGame) rock
    ((bulletPhase pulseEnv idle roomGame).asteroids.data.length +
      (bulletPhase pulseEnv idle roomGame).bullets.length)
    (by rw [ha, hbul]; simp) ha (by rw [ha, hcap]; simp)
    (by rw [hb.1, advance_rock_any]; simp [rock])
    (by rw [hb.1, advance_rock_any, hbul]; exact hit_rock_any pulseEnv rfl)
    (by rw [hbul]; rfl)
    (by rw [hb.1, advance_rock_any]; norm_num [rock])
    (by rw [hb.1, advance_rock_any, hrng, hchild.2.1]; simp)
  rw [(updatePlaying_frame pulseEnv idle roomGame).2.2.1, asteroidPhase_eq, hloop, hb.1,
    advance_rock_any, hrng]
  simp only [List.map_cons, List.map_nil, hchild.1, hchild.2.1, hchild.2.2]
  refine ⟨?_, rfl, ?_⟩
  · rw [pulseEnv_later_normal 13]
  · show [rock.size / 2, (1220370 / 40321 : ℚ)] = _
    norm_num [rock]

theorem pulseEnv_sin_positive : SinPositiveInside pulseEnv := by
  intro c h1 h179
  have hc1 : (1 : ℚ) ≤ (c : ℚ) := by exact_mod_cast h1
  have hc2 : (c : ℚ) ≤ 179 := by exact_mod_cast h179
  exact bhaskaraSin_pos ((c : ℚ) / 180) (by positivity) (by rw [div_lt_one (by norm_num)]; linarith)

/-- The asteroid `ember` after the loop has advanced it: still at (100, 100),
countdown 90, size 45. -/
theorem advance_ember :
    (advanceAsteroid pulseEnv Ship.zero ember).asteroidType = AsteroidType.SpecialAsteroid ∧
    (advanceAsteroid pulseEnv Ship.zero ember).expansionTime = 90 ∧
    (advanceAsteroid pulseEnv Ship.zero ember).size = 45 ∧
    (advanceAsteroid pulseEnv Ship.zero ember).x = 100 ∧
    (advanceAsteroid pulseEnv Ship.zero ember).y = 100 := by
  have h := advanceAsteroid_pulse pulseEnv Ship.zero ember rfl
  have hp := advanceAsteroid_pos pulseEnv Ship.zero ember
  have hm := moveAsteroid_at_rest Ship.zero ember rfl rfl (by norm_num [OnScreen, ember])
  have he : (advanceAsteroid pulseEnv Ship.zero ember).expansionTime = 90 := by
    rw [h.2.1]
    show wrapInt (91 - 1) = 90
    decide
  refine ⟨h.1, he, ?_, hp.1.trans hm.1, hp.2.trans hm.2⟩
  rw [h.2.2, he]
  show 30 * (1 + bhaskaraSin (((90 : Int) : ℚ) / 180 * Pi) * (1 / 2)) = 45
  rw [show ((90 : Int) : ℚ) / 180 = 1 / 2 by norm_num, bhaskaraSin_mul]
  norm_num

theorem hit_ember (l : Int) :
    hitScan pulseEnv (advanceAsteroid pulseEnv Ship.zero ember)
      [{ x := 100, y := 100, dx := 0, dy := 0, lifetime := l }] 0 = some 0 := by
  rw [hitScan, if_pos]
  rw [advance_ember.2.2.1, advance_ember.2.2.2.1, advance_ember.2.2.2.2]
  show Rat.sqrt _ < _
  norm_num

/-- An asteroid `pulseEnv` creates past stream position 0 is Normal; the loop
leaves its countdown and its size alone. -/
theorem advance_later_child (c : Nat) (x y s : ℚ) :
    (advanceAsteroid pulseEnv Ship.zero (createAsteroid pulseEnv (c + 1) x y s).1).asteroidType =
      AsteroidType.NormalAsteroid ∧
    (advanceAsteroid pulseEnv Ship.zero (createAsteroid pulseEnv (c + 1) x y s).1).expansionTime =
      180 ∧
    (advanceAsteroid pulseEnv Ship.zero (createAsteroid pulseEnv (c + 1) x y s).1).size = s := by
  have hn := advanceAsteroid_normal pulseEnv Ship.zero _ (pulseEnv_later_normal c x y s)
  have hm := advanceAsteroid_of_normal pulseEnv Ship.zero _ (pulseEnv_later_normal c x y s)
  refine ⟨hn.2, ?_, hn.1⟩
  rw [hm]
  rfl

/-- The tick on `emberGame`: the bullet hits the Special asteroid, which takes
the split branch; the slice is full, so the asteroid itself stays, with
countdown 90 and size 45, followed by one child of size 22.5. -/
theorem updatePlaying_ember :
    (updatePlaying pulseEnv idle emberGame).asteroids.data.map Asteroid.asteroidType =
      [AsteroidType.SpecialAsteroid, AsteroidType.NormalAsteroid] ∧
    (updatePlaying pulseEnv idle emberGame).asteroids.data.map Asteroid.expansionTime =
      [90, 180] ∧
    (updatePlaying pulseEnv idle emberGame).asteroids.data.map Asteroid.size = [45, 45 / 2] ∧
    (updatePlaying pulseEnv idle emberGame).particles = [] := by
  have hb := bulletPhase_at_rest pulseEnv emberGame rfl
  have hbul := hb.2.2.2.2.2.trans advance_shot
  have ha : (bulletPhase pulseEnv idle emberGame).asteroids.data = [ember] :=
    congrArg Slice.data hb.2.1
  have hcap : (bulletPhase pulseEnv idle emberGame).asteroids.cap = 1 :=
    congrArg Slice.cap hb.2.1
  have hrng : (bulletPhase pulseEnv idle emberGame).rng = 1 := hb.2.2.2.2.1
  have hloop := asteroidLoop_single_split_full pulseEnv (bulletPhase pulseEnv idle emberGame) ember
    ((bulletPhase pulseEnv idle emberGame).asteroids.data.length +
      (bulletPhase pulseEnv idle emberGame).bullets.length)
    (by rw [ha, hbul]; simp) ha (by rw [ha, hcap]; simp)
    (by rw [hb.1, advance_ember.2.1]; simp)
    (by rw [hb.1, hbul]; exact hit_ember 4)
    (by rw [hbul]; rfl)
    (by rw [hb.1, advance_ember.2.2.1]; norm_num)
    (by rw [hrng]; exact pulseEnv_later_normal 0 _ _ _)
  refine ⟨?_, ?_, ?_, ?_⟩
  · rw [(updatePlaying_frame pulseEnv idle emberGame).2.2.1, asteroidPhase_eq, hloop, hb.1, hrng]
    simp only [List.map_cons, List.map_nil, advance_ember.1, (advance_later_child 0 _ _ _).1]
  · rw [(updatePlaying_frame pulseEnv idle emberGame).2.2.1, asteroidPhase_eq, hloop, hb.1, hrng]
    simp only [List.map_cons, List.map_nil, advance_ember.2.1, (advance_later_child 0 _ _ _).2.1]
  · rw [(updatePlaying_frame pulseEnv idle emberGame).2.2.1, asteroidPhase_eq, hloop, hb.1, hrng]
    simp only [List.map_cons, List.map_nil, advance_ember.2.2.1, (advance_later_child 0 _ _ _).2.2]
  · have hp := (expiry_particles pulseEnv idle emberGame rfl).1
    have hw : wrapInt 90 = 90 := by decide
    have he : expiring ember = false := by simp [expiring, ember, hw]
    rw [show emberGame.asteroids.data = [ember] from rfl] at hp
    simp only [List.countP_cons, List.countP_nil, he] at hp
    exact List.length_eq_zero.mp (by simpa using hp)

theorem isFloat64_driftStar : IsFloat64 driftStar.x ∧ IsFloat64 driftStar.y :=
  ⟨⟨3602879701896397, -55, by norm_num, by norm_num [driftStar]⟩,
   ⟨3152519739159347, -52, by norm_num, by norm_num [driftStar]⟩⟩

/-- The sum of the `float64` 0.1 and 640, rounded, then reduced by `math.Mod`. -/
theorem drift_x :
    fmod (round64 (driftStar.x + 640)) 640 = 879609302221 / 2 ^ 43 := by
  have h : round64 (driftStar.x + 640) = 879609302221 / 2 ^ 43 + 640 := by
    rw [round64_eval _ 9 5630379143515341 (by norm_num [abs_of_pos, driftStar])
      (by norm_num [abs_of_pos, driftStar])
      (by rw [abs_lt]; constructor <;> norm_num [driftStar])]
    norm_num
  rw [h, fmod_shift _ 640 (by norm_num) (by norm_num)]

/-- The sum of the `float64` 0.7 and 480, rounded, then reduced by `math.Mod`. -/
theorem drift_y :
    fmod (round64 (driftStar.y + 480)) 480 = 12314530231091 / 2 ^ 44 := by
  have h : round64 (driftStar.y + 480) = 12314530231091 / 2 ^ 44 + 480 := by
    rw [round64_eval _ 8 8456563831550771 (by norm_num [abs_of_pos, driftStar])
      (by norm_num [abs_of_pos, driftStar])
      (by rw [abs_lt]; constructor <;> norm_num [driftStar])]
    norm_num
  rw [h, fmod_shift _ 480 (by norm_num) (by norm_num)]

theorem UpdateRounded_drift :
    (UpdateRounded round64 sampleEnv idle driftGame).stars =
      [{ driftStar with x := 879609302221 / 2 ^ 43, y := 12314530231091 / 2 ^ 44 }] := by
  have h := UpdateRounded_rest round64 sampleEnv driftGame round64_nearest rfl rfl rfl
    (isFloat64_nat 12 (by norm_num)) (isFloat64_nat 7 (by norm_num))
  have hs := shipStepRounded_rest round64 sampleEnv driftGame.ship round64_zero rfl rfl
  rw [h.2.2.2.2.2]
  show [moveStarRounded round64 (shipStepRounded round64 sampleEnv idle driftGame.ship) driftStar] = _
  rw [moveStarRounded_rest round64 _ driftStar round64_zero hs.1 hs.2.1
    (rounds_fix round64 round64_nearest _ isFloat64_driftStar.1)
    (rounds_fix round64 round64_nearest _ isFloat64_driftStar.2), drift_x, drift_y]

/-- The `float64` constant 0.99. -/
theorem round64_friction : round64 (99 / 100) = 4458563631096791 / 2 ^ 52 := by
  rw [round64_eval _ (-1) 8917127262193582 (by norm_num [abs_of_pos]) (by norm_num [abs_of_pos])
    (by rw [abs_lt]; constructor <;> norm_num)]
  norm_num

theorem friction_heavy_dx : round64 (500 * (4458563631096791 / 2 ^ 52)) = 495 := by
  rw [round64_eval _ 8 8708132091985920 (by norm_num [abs_of_pos]) (by norm_num [abs_of_pos])
    (by rw [abs_lt]; constructor <;> norm_num)]
  norm_num

theorem friction_heavy_dy : round64 (1200 * (4458563631096791 / 2 ^ 52)) = 1188 := by
  rw [round64_eval _ 10 5224879255191552 (by norm_num [abs_of_pos]) (by norm_num [abs_of_pos])
    (by rw [abs_lt]; constructor <;> norm_num)]
  norm_num

theorem round64_nat (n : Nat) (h : n < 2 ^ 53) : round64 (n : ℚ) = n :=
  rounds_fix round64 round64_nearest _ (isFloat64_nat n h)

theorem squaredSpeedRounded_heavy : squaredSpeedRounded round64 heavyShip = 1656369 := by
  have h1 : round64 (495 * 495) = 245025 := by
    have := round64_nat 245025 (by norm_num)
    norm_num at this ⊢
    exact this
  have h2 : round64 (1188 * 1188) = 1411344 := by
    have := round64_nat 1411344 (by norm_num)
    norm_num at this ⊢
    exact this
  have h3 : round64 (245025 + 1411344) = 1656369 := by
    have := round64_nat 1656369 (by norm_num)
    norm_num at this ⊢
    exact this
  simp only [squaredSpeedRounded, heavyShip, friction, round64_friction, friction_heavy_dx,
    friction_heavy_dy, h1, h2, h3]

theorem sqrt_sample_heavy : sampleEnv.sqrt 1656369 = 1287 := by
  show Rat.sqrt 1656369 = 1287
  rw [show (1656369 : ℚ) = 1287 * 1287 by norm_num, Rat.sqrt_eq]
  norm_num

theorem rescale_heavy_dx :
    round64 (round64 (495 / 1287) * 5) = 8660768514174031 / 2 ^ 52 := by
  have h : round64 (495 / 1287) = 6928614811339225 / 2 ^ 54 := by
    rw [round64_eval _ (-2) 6928614811339225 (by norm_num [abs_of_pos])
      (by norm_num [abs_of_pos]) (by rw [abs_lt]; constructor <;> norm_num)]
    norm_num
  rw [h, round64_eval _ 0 8660768514174031 (by norm_num [abs_of_pos])
    (by norm_num [abs_of_pos]) (by rw [abs_lt]; constructor <;> norm_num)]
  norm_num

theorem rescale_heavy_dy :
    round64 (round64 (1188 / 1287) * 5) = 5196461108504419 / 2 ^ 50 := by
  have h : round64 (1188 / 1287) = 4157168886803535 / 2 ^ 52 := by
    rw [round64_eval _ (-1) 8314337773607070 (by norm_num [abs_of_pos])
      (by norm_num [abs_of_pos]) (by rw [abs_lt]; constructor <;> norm_num)]
    norm_num
  rw [h, round64_eval _ 2 5196461108504419 (by norm_num [abs_of_pos])
    (by norm_num [abs_of_pos]) (by rw [abs_lt]; constructor <;> norm_num)]
  norm_num

theorem friction_heavy :
    round64 (heavyShip.dx * round64 friction) = 495 ∧
    round64 (heavyShip.dy * round64 friction) = 1188 := by
  constructor
  · show round64 (500 * round64 (99 / 100)) = 495
    rw [round64_friction, friction_heavy_dx]
  · show round64 (1200 * round64 (99 / 100)) = 1188
    rw [round64_friction, friction_heavy_dy]

theorem speed_heavy : sampleEnv.sqrt (squaredSpeedRounded round64 heavyShip) = 1287 := by
  rw [squaredSpeedRounded_heavy, sqrt_sample_heavy]

/-- The friction-and-cap block at the velocity `(500, 1200)`, with the rounding of
IEEE 754. -/
theorem frictionCapRounded_heavy :
    (frictionCapRounded round64 sampleEnv heavyShip).dx = 8660768514174031 / 2 ^ 52 ∧
    (frictionCapRounded round64 sampleEnv heavyShip).dy = 5196461108504419 / 2 ^ 50 := by
  have h := (frictionCapRounded_branches round64 sampleEnv heavyShip 495 1188 1287
    friction_heavy.1 friction_heavy.2 speed_heavy).1 (by norm_num)
  rw [h.1, h.2, rescale_heavy_dx, rescale_heavy_dy]
  exact ⟨rfl, rfl⟩

theorem shipStepRounded_heavy :
    shipStepRounded round64 sampleEnv idle heavyGame.ship =
      frictionCapRounded round64 sampleEnv heavyShip := by
  simp [shipStepRounded, thrustShipRounded, rotateShipRounded, idle, heavyGame, heavyShip]

/-- The `float64` constant 0.1. -/
theorem round64_tenth : round64 (1 / 10) = 3602879701896397 / 2 ^ 55 := by
  rw [round64_eval _ (-4) 7205759403792794 (by norm_num [abs_of_pos]) (by norm_num [abs_of_pos])
    (by rw [abs_lt]; constructor <;> norm_num)]
  norm_num

theorem vertexRadiusRounded_zero (E : Env ℚ) (c i : Nat) :
    vertexRadiusRounded round64 E c 0 i = 0 := by
  simp [vertexRadiusRounded, round64_zero]

/-- The radius at size 30 and the largest draw: the sum `15 + (7.5 - 2^-50)` is
rounded up to 22.5, and the radius is `5 * 30 / 8`. -/
theorem vertexRadiusRounded_brink (c i : Nat) :
    vertexRadiusRounded round64 brinkEnv c 30 i = 75 / 4 := by
  have hA : round64 (30 / 2) = 15 := by
    have := round64_nat 15 (by norm_num)
    norm_num at this ⊢
    exact this
  have hP : round64 ((1 - 1 / 2 ^ 53) * 30) = 8444249301319679 / 2 ^ 48 := by
    rw [round64_eval _ 4 8444249301319679 (by norm_num [abs_of_pos]) (by norm_num [abs_of_pos])
      (by rw [abs_lt]; constructor <;> norm_num)]
    norm_num
  have hB : round64 (8444249301319679 / 2 ^ 48 / 4) = 8444249301319679 / 2 ^ 50 := by
    rw [round64_eval _ 2 8444249301319679 (by norm_num [abs_of_pos]) (by norm_num [abs_of_pos])
      (by rw [abs_lt]; constructor <;> norm_num)]
    norm_num
  have hT : round64 (15 + 8444249301319679 / 2 ^ 50) = 45 / 2 := by
    rw [round64_eval _ 4 6333186975989760 (by norm_num [abs_of_pos]) (by norm_num [abs_of_pos])
      (by rw [abs_lt]; constructor <;> norm_num)]
    norm_num
  have hC : round64 (30 / 8) = 15 / 4 := by
    rw [round64_eval _ 1 8444249301319680 (by norm_num [abs_of_pos]) (by norm_num [abs_of_pos])
      (by rw [abs_lt]; constructor <;> norm_num)]
    norm_num
  have hR : round64 (45 / 2 - 15 / 4) = 75 / 4 := by
    rw [round64_eval _ 4 5277655813324800 (by norm_num [abs_of_pos]) (by norm_num [abs_of_pos])
      (by rw [abs_lt]; constructor <;> norm_num)]
    norm_num
  show round64 (round64 (round64 (30 / 2) + round64 (round64 ((1 - 1 / 2 ^ 53) * 30) / 4)) -
    round64 (30 / 8)) = 75 / 4
  rw [hA, hP, hB, hT, hC, hR]

theorem draws_sample (k : Nat) :
    IsFloat64 (sampleEnv.float64 k) ∧ 0 ≤ sampleEnv.float64 k ∧ sampleEnv.float64 k < 1 :=
  ⟨⟨1, -1, by norm_num, by norm_num [sampleEnv]⟩, by norm_num [sampleEnv],
    by norm_num [sampleEnv]⟩

theorem draws_brink (k : Nat) :
    IsFloat64 (brinkEnv.float64 k) ∧ 0 ≤ brinkEnv.float64 k ∧ brinkEnv.float64 k < 1 :=
  ⟨⟨2 ^ 53 - 1, -53, by norm_num, by norm_num [brinkEnv]⟩, by norm_num [brinkEnv],
    by norm_num [brinkEnv]⟩

theorem draws_floor (k : Nat) :
    IsFloat64 (floorEnv.float64 k) ∧ 0 ≤ floorEnv.float64 k ∧ floorEnv.float64 k < 1 :=
  ⟨⟨0, 0, by norm_num, by norm_num [floorEnv]⟩, by norm_num [floorEnv], by norm_num [floorEnv]⟩

/-- The rotation speed at the draw 0: half the `float64` constant 0.1, negated. -/
theorem rotationSpeed_floor :
    (createAsteroidRounded round64 floorEnv 0 100 100 30).1.rotationSpeed =
      -(3602879701896397 / 2 ^ 56) := by
  have h1 : round64 (0 - 1 / 2) = -(1 / 2) := by
    rw [round64_eval _ (-1) (-4503599627370496) (by norm_num [abs_of_neg])
      (by norm_num [abs_of_neg]) (by rw [abs_lt]; constructor <;> norm_num)]
    norm_num
  have h2 : round64 (-(1 / 2) * (3602879701896397 / 2 ^ 55)) = -(3602879701896397 / 2 ^ 56) := by
    rw [round64_eval _ (-5) (-7205759403792794) (by norm_num [abs_of_neg])
      (by norm_num [abs_of_neg]) (by rw [abs_lt]; constructor <;> norm_num)]
    norm_num
  show round64 (round64 (0 - 1 / 2) * round64 (1 / 10)) = _
  rw [h1, round64_tenth, h2]

/-- The first coordinate of the polygon at size 30 and the largest draw. -/
theorem createAsteroidRounded_brink :
    (createAsteroidRounded round64 brinkEnv 0 100 100 30).1.points[0]? = some (75 / 4) := by
  have h := (createAsteroidRounded_vertex round64 brinkEnv 0 100 100 30 0 (by norm_num)).1
  have hc : ∀ t : ℚ, brinkEnv.cos t = 1 := fun _ => rfl
  have hr : round64 (1 * (75 / 4)) = 75 / 4 := by
    rw [round64_eval _ 4 5277655813324800 (by norm_num [abs_of_pos]) (by norm_num [abs_of_pos])
      (by rw [abs_lt]; constructor <;> norm_num)]
    norm_num
  rw [show 2 * 0 = 0 from rfl] at h
  rw [h, hc, vertexRadiusRounded_brink, hr]

/-! # The claims -/

/-! ## C1: split conservation -/

/-- C1 (what the code does instead): when the asteroid slice is full
(`len = cap`) and the asteroid at index `i`, of size `S > 25` once advanced, is hit,
the loop body appends one child of size `S/2` at the parent's position, but the
entry at index `i` is still the parent with its size `S`: `append` has moved the
slice, and the second child is written through the stale pointer `a`. -/
theorem split_at_full_capacity_keeps_parent (E : Env F) (i j : Nat) (a0 : Asteroid F) (g : Game F)
    (hget : g.asteroids.data[i]? = some a0)
    (hfull : g.asteroids.cap ≤ g.asteroids.data.length)
    (hlive : ¬ ((advanceAsteroid E g.ship a0).asteroidType = AsteroidType.SpecialAsteroid ∧
      (advanceAsteroid E g.ship a0).expansionTime ≤ 0))
    (hhit : hitScan E (advanceAsteroid E g.ship a0) g.bullets 0 = some j)
    (hsize : (advanceAsteroid E g.ship a0).size > 25) :
    (asteroidBody E i a0 g).1.asteroids.data.length = g.asteroids.data.length + 1 ∧
    (asteroidBody E i a0 g).1.asteroids.data[i]? = some (advanceAsteroid E g.ship a0) ∧
    (advanceAsteroid E g.ship a0).size ≠ (advanceAsteroid E g.ship a0).size / 2 ∧
    (∃ child, (asteroidBody E i a0 g).1.asteroids.data[g.asteroids.data.length]? = some child ∧
      child.size = (advanceAsteroid E g.ship a0).size / 2 ∧
      child.x = (advanceAsteroid E g.ship a0).x ∧ child.y = (advanceAsteroid E g.ship a0).y) ∧
    (∀ k, k ≠ i → k < g.asteroids.data.length →
      (asteroidBody E i a0 g).1.asteroids.data[k]? = g.asteroids.data[k]?) := by
  have hi : i < g.asteroids.data.length := (List.getElem?_eq_some_iff.mp hget).1
  have hbody : (asteroidBody E i a0 g).1.asteroids.data =
      g.asteroids.data.set i (advanceAsteroid E g.ship a0) ++
        [(createAsteroid E g.rng (advanceAsteroid E g.ship a0).x (advanceAsteroid E g.ship a0).y
          ((advanceAsteroid E g.ship a0).size / 2)).1] := by
    rcases asteroidBody_cases E i a0 g with h | h | h | h | h
    · exact absurd h.1 hlive
    · rw [h.2.1] at hhit; cases hhit
    · obtain ⟨_, -, -, -, hc, -⟩ := h; omega
    · obtain ⟨_, -, -, -, -, h⟩ := h; rw [h]
    · obtain ⟨_, -, -, hs, -⟩ := h; exact absurd hsize hs
  rw [hbody]
  refine ⟨by simp, ?_, ?_, ?_, ?_⟩
  · rw [List.getElem?_append_left (by simpa using hi)]
    simp [List.getElem?_set, hi]
  · intro h
    have : (0 : F) < 25 := by norm_num
    linarith
  · refine ⟨(createAsteroid E g.rng (advanceAsteroid E g.ship a0).x (advanceAsteroid E g.ship a0).y
      ((advanceAsteroid E g.ship a0).size / 2)).1, ?_, rfl, rfl, rfl⟩
    rw [List.getElem?_append_right (by simp)]
    simp
  · intro k hk hlt
    rw [List.getElem?_append_left (by simpa using hlt)]
    simp [List.getElem?_set, Ne.symm hk]

/-- C1 at one asteroid of size 30 in a slice of capacity 1 with a bullet on it:
after the loop body the slice has two entries and the first is still the
parent; after the whole tick the sizes are 30 and 15, not 15 and 15. -/
theorem split_at_full_capacity_keeps_parent_witness :
    fullGame.asteroids.cap ≤ fullGame.asteroids.data.length ∧
    (asteroidBody sampleEnv 0 rock fullGame).1.asteroids.data.length = 2 ∧
    (asteroidBody sampleEnv 0 rock fullGame).1.asteroids.data[0]? = some rock ∧
    rock.size = 30 ∧
    (updatePlaying sampleEnv idle fullGame).asteroids.data.map Asteroid.size = [30, 15] :=
  ⟨by decide,
   (split_at_full_capacity_keeps_parent sampleEnv 0 0 rock fullGame rfl (by decide)
      (by rw [show fullGame.ship = Ship.zero from rfl, advance_rock]; simp [rock])
      (by rw [show fullGame.ship = Ship.zero from rfl, advance_rock]; exact hit_rock)
      (by rw [show fullGame.ship = Ship.zero from rfl, advance_rock]; norm_num [rock])).1,
   by
    have h := (split_at_full_capacity_keeps_parent sampleEnv 0 0 rock fullGame rfl (by decide)
      (by rw [show fullGame.ship = Ship.zero from rfl, advance_rock]; simp [rock])
      (by rw [show fullGame.ship = Ship.zero from rfl, advance_rock]; exact hit_rock)
      (by rw [show fullGame.ship = Ship.zero from rfl, advance_rock]; norm_num [rock])).2.1
    rw [show fullGame.ship = Ship.zero from rfl, advance_rock] at h
    exact h,
   rfl, updatePlaying_full⟩

/-! ## C2: score accounting -/

/-- C2 (amended): every resolved hit removes exactly one bullet and gives the
score register `+= 10`; so in every Playing tick the score receives `+= 10` once
for each bullet removed by an asteroid hit (`k` = bullets after the bullet loop
minus bullets at the end of the tick), in 64-bit `int` arithmetic; bullets that
expire and Special asteroids that expire add nothing. When `score + 10 * k` does
not exceed the largest `int`, the score afterwards is exactly `score + 10 * k`
and has not decreased. -/
theorem score_accounting (E : Env F) (keys : Keys) (g : Game F) :
    (∀ (i j : Nat) (a : Asteroid F) (g1 : Game F), j < g1.bullets.length →
      (resolveHit E i j a g1).1.bullets.length + 1 = g1.bullets.length ∧
      (resolveHit E i j a g1).1.score = wrapInt (g1.score + 10)) ∧
    (updatePlaying E keys g).bullets.length ≤ (bulletPhase E keys g).bullets.length ∧
    (updatePlaying E keys g).score =
      scoreAfter ((bulletPhase E keys g).bullets.length - (updatePlaying E keys g).bullets.length)
        g.score ∧
    (-2 ^ 63 ≤ g.score →
      g.score + 10 * (((bulletPhase E keys g).bullets.length -
        (updatePlaying E keys g).bullets.length : Nat) : Int) < 2 ^ 63 →
      (updatePlaying E keys g).score =
          g.score + 10 * (((bulletPhase E keys g).bullets.length -
            (updatePlaying E keys g).bullets.length : Nat) : Int) ∧
        g.score ≤ (updatePlaying E keys g).score) := by
  have hf := updatePlaying_frame E keys g
  have hl := asteroidLoop_score E
    ((bulletPhase E keys g).asteroids.data.length + (bulletPhase E keys g).bullets.length) 0
    (bulletPhase E keys g)
  have hsc : (bulletPhase E keys g).score = g.score := (bulletPhase_frame E keys g).2.2.2.2.1
  have hscore : (updatePlaying E keys g).score =
      scoreAfter ((bulletPhase E keys g).bullets.length - (updatePlaying E keys g).bullets.length)
        g.score := by
    rw [hf.1, hf.2.1, ← hsc]
    exact hl.2
  refine ⟨fun i j a g1 hj => ⟨(resolveHit_accounting E i j a g1 hj).2.1,
    (resolveHit_accounting E i j a g1 hj).2.2.1⟩, by rw [hf.2.1]; exact hl.1, hscore, ?_⟩
  intro h1 h2
  have := scoreAfter_of_range _ _ h1 h2
  rw [this] at hscore
  refine ⟨hscore, ?_⟩
  rw [hscore]
  omega

/-- C2 at a game with score 0: the score ends at `0 + 10 * k`. -/
theorem score_accounting_witness :
    -2 ^ 63 ≤ fullGame.score ∧
    (updatePlaying sampleEnv idle fullGame).score =
      fullGame.score + 10 * (((bulletPhase sampleEnv idle fullGame).bullets.length -
        (updatePlaying sampleEnv idle fullGame).bullets.length : Nat) : Int) ∧
    fullGame.score ≤ (updatePlaying sampleEnv idle fullGame).score :=
  ⟨by decide,
   (score_accounting sampleEnv idle fullGame).2.2.2 (by decide) (by
      have h : (bulletPhase sampleEnv idle fullGame).bullets.length = 1 := by
        rw [(bulletPhase_rest fullGame rfl).2.2.2.2.2]
        exact congrArg List.length advance_shot
      rw [h, show fullGame.score = 0 from rfl]
      omega)⟩

/-- C2 as stated fails: with the score at the largest `int`, one hit makes the
score smaller, and it is not `score + 10 * 1`. -/
theorem score_overflow_counterexample :
    (bulletPhase sampleEnv idle brimGame).bullets.length -
        (updatePlaying sampleEnv idle brimGame).bullets.length = 1 ∧
    (updatePlaying sampleEnv idle brimGame).score ≠ brimGame.score + 10 * 1 ∧
    (updatePlaying sampleEnv idle brimGame).score < brimGame.score := by
  have hf := updatePlaying_frame sampleEnv idle brimGame
  rw [hf.1, hf.2.1, asteroidPhase_brim.1, asteroidPhase_brim.2.1, bulletPhase_brim.2.2.2]
  decide

/-! ## C3: the state machine -/

/-- C3: an `Update` that begins in `StatePlaying` ends in `StateGameOver` exactly
when the asteroid collection is empty at the end of the tick, and otherwise
stays in `StatePlaying`; so in every game reachable from the one built in
`main`, `StatePlaying` implies at least one asteroid. -/
theorem playing_iff_asteroids_left (E : Env F) (keys : Keys) (g : Game F) :
    (g.state = GameState.StatePlaying →
      (((Update E keys g).state = GameState.StateGameOver ↔
          (Update E keys g).asteroids.data = []) ∧
        ((Update E keys g).asteroids.data ≠ [] →
          (Update E keys g).state = GameState.StatePlaying))) ∧
    (Reachable E g → g.state = GameState.StatePlaying → g.asteroids.data ≠ []) := by
  have step : ∀ (keys : Keys) (g : Game F), g.state = GameState.StatePlaying →
      (((Update E keys g).state = GameState.StateGameOver ↔
          (Update E keys g).asteroids.data = []) ∧
        ((Update E keys g).asteroids.data ≠ [] →
          (Update E keys g).state = GameState.StatePlaying)) := by
    intro keys g h
    rw [Update_playing E keys g h]
    have hst := updatePlaying_state E keys { g with tick := wrapInt (g.tick + 1) }
    by_cases he : (updatePlaying E keys { g with tick := wrapInt (g.tick + 1) }).asteroids.data = []
    · simp [he, hst.1 he]
    · have h3 : (updatePlaying E keys { g with tick := wrapInt (g.tick + 1) }).state =
          GameState.StatePlaying := (hst.2 he).trans h
      simp [he, h3]
  refine ⟨step keys g, ?_⟩
  intro hr
  induction hr with
  | start =>
    intro _ he
    have := mainGame_asteroids_length E
    rw [he] at this
    simp at this
  | step keys g _ ih =>
    intro hp he
    cases hs : g.state with
    | StatePlaying =>
      have := ((step keys g hs).1).mpr he
      rw [this] at hp
      cases hp
    | StateGameOver =>
      rw [Update_gameOver E keys g hs] at hp he
      unfold updateGameOver at hp he
      split_ifs at hp he
      · have := restartGame_asteroids_length E { g with tick := wrapInt (g.tick + 1) }
        rw [he] at this
        simp at this
      · simp [hs] at hp

/-- C3 at the game built in `main`. -/
theorem playing_iff_asteroids_left_witness :
    (mainGame sampleEnv).state = GameState.StatePlaying ∧
    (mainGame sampleEnv).asteroids.data ≠ [] ∧
    ((Update sampleEnv idle (mainGame sampleEnv)).state = GameState.StateGameOver ↔
      (Update sampleEnv idle (mainGame sampleEnv)).asteroids.data = []) :=
  ⟨rfl, (playing_iff_asteroids_left sampleEnv idle (mainGame sampleEnv)).2 Reachable.start rfl,
   ((playing_iff_asteroids_left sampleEnv idle (mainGame sampleEnv)).1 rfl).1⟩

/-! ## C4: the speed cap -/

/-- C4 (amended): whatever the ship's velocity, heading and keys, with every
`float64` operation rounded to a relative error of at most `2^-53` and
`math.Sqrt` that accurate too, after the friction-and-cap step, and so at the end
of the tick, `dx² + dy² ≤ 25 (1 + 2^-48)`. When the speed the code computes
exceeds 5, the divisor `speed` is not zero, `dx² + dy²` is also at least
`25 (1 - 2^-48)`, and each component is a positive multiple of its value after
friction, the two factors being within the rounding of two operations of
`5 / speed`; otherwise the velocity after friction is kept. Here `s` is the ship
after rotation and thrust. -/
theorem speed_cap (rnd : F → F) (E : Env F) (keys : Keys) (g : Game F) (s : Ship F)
    (hr : RoundsWithin rnd (1 / 2 ^ 53))
    (hs : s = thrustShipRounded rnd E keys (rotateShipRounded rnd keys g.ship))
    (hsqrt : SqrtRoundedAt E (squaredSpeedRounded rnd s)) :
    (updatePlayingRounded rnd E keys g).ship = frictionCapRounded rnd E s ∧
    (frictionCapRounded rnd E s).dx * (frictionCapRounded rnd E s).dx +
      (frictionCapRounded rnd E s).dy * (frictionCapRounded rnd E s).dy ≤ 25 * (1 + 1 / 2 ^ 48) ∧
    (E.sqrt (squaredSpeedRounded rnd s) > 5 →
      E.sqrt (squaredSpeedRounded rnd s) ≠ 0 ∧
      25 * (1 - 1 / 2 ^ 48) ≤
        (frictionCapRounded rnd E s).dx * (frictionCapRounded rnd E s).dx +
          (frictionCapRounded rnd E s).dy * (frictionCapRounded rnd E s).dy ∧
      ∃ c1 c2 : F, 0 < c1 ∧ 0 < c2 ∧
        (frictionCapRounded rnd E s).dx = c1 * rnd (s.dx * rnd friction) ∧
        (frictionCapRounded rnd E s).dy = c2 * rnd (s.dy * rnd friction) ∧
        (1 - 1 / 2 ^ 53) ^ 2 * (5 / E.sqrt (squaredSpeedRounded rnd s)) ≤ c1 ∧
        c1 ≤ (1 + 1 / 2 ^ 53) ^ 2 * (5 / E.sqrt (squaredSpeedRounded rnd s)) ∧
        (1 - 1 / 2 ^ 53) ^ 2 * (5 / E.sqrt (squaredSpeedRounded rnd s)) ≤ c2 ∧
        c2 ≤ (1 + 1 / 2 ^ 53) ^ 2 * (5 / E.sqrt (squaredSpeedRounded rnd s))) ∧
    (¬ E.sqrt (squaredSpeedRounded rnd s) > 5 →
      (frictionCapRounded rnd E s).dx = rnd (s.dx * rnd friction) ∧
      (frictionCapRounded rnd E s).dy = rnd (s.dy * rnd friction)) := by
  have hb := frictionCapRounded_branches rnd E s _ _ _ rfl rfl rfl
  have hsp := speed_rounded rnd E hr (rnd (s.dx * rnd friction)) (rnd (s.dy * rnd friction)) hsqrt
  have hc := cap_error rnd hr (rnd (s.dx * rnd friction)) (rnd (s.dy * rnd friction))
    (E.sqrt (squaredSpeedRounded rnd s)) hsqrt.1 hsp.1 hsp.2
  refine ⟨?_, ?_, ?_, hb.2⟩
  · rw [(updatePlayingRounded_ship rnd E keys g).1, hs]
    rfl
  · by_cases hgt : E.sqrt (squaredSpeedRounded rnd s) > 5
    · rw [(hb.1 hgt).1, (hb.1 hgt).2]
      exact (hc.2 hgt).1
    · rw [(hb.2 hgt).1, (hb.2 hgt).2]
      exact hc.1 hgt
  · intro hgt
    have hpos : 0 < E.sqrt (squaredSpeedRounded rnd s) := lt_trans (by norm_num) hgt
    have h5 : 0 < 5 / E.sqrt (squaredSpeedRounded rnd s) := div_pos (by norm_num) hpos
    obtain ⟨m1, a1, b1, e1⟩ := rescale_rounded rnd hr (rnd (s.dx * rnd friction))
      (E.sqrt (squaredSpeedRounded rnd s))
    obtain ⟨m2, a2, b2, e2⟩ := rescale_rounded rnd hr (rnd (s.dy * rnd friction))
      (E.sqrt (squaredSpeedRounded rnd s))
    have hm1 : (0 : F) < m1 := lt_of_lt_of_le (by norm_num) a1
    have hm2 : (0 : F) < m2 := lt_of_lt_of_le (by norm_num) a2
    refine ⟨ne_of_gt hpos, ?_, m1 * (5 / E.sqrt (squaredSpeedRounded rnd s)),
      m2 * (5 / E.sqrt (squaredSpeedRounded rnd s)), mul_pos hm1 h5, mul_pos hm2 h5,
      by rw [(hb.1 hgt).1, e1], by rw [(hb.1 hgt).2, e2],
      mul_le_mul_of_nonneg_right a1 h5.le, mul_le_mul_of_nonneg_right b1 h5.le,
      mul_le_mul_of_nonneg_right a2 h5.le, mul_le_mul_of_nonneg_right b2 h5.le⟩
    rw [(hb.1 hgt).1, (hb.1 hgt).2]
    exact (hc.2 hgt).2

/-- C4 with the rounding of IEEE 754 at a ship of velocity `(500, 1200)`, whose
speed after friction is 1287. -/
theorem speed_cap_witness :
    RoundsWithin round64 (1 / 2 ^ 53) ∧
    SqrtRoundedAt sampleEnv (squaredSpeedRounded round64 heavyShip) ∧
    sampleEnv.sqrt (squaredSpeedRounded round64 heavyShip) = 1287 ∧
    (updatePlayingRounded round64 sampleEnv idle heavyGame).ship =
      frictionCapRounded round64 sampleEnv heavyShip ∧
    (frictionCapRounded round64 sampleEnv heavyShip).dx *
        (frictionCapRounded round64 sampleEnv heavyShip).dx +
      (frictionCapRounded round64 sampleEnv heavyShip).dy *
        (frictionCapRounded round64 sampleEnv heavyShip).dy ≤ 25 * (1 + 1 / 2 ^ 48) ∧
    25 * (1 - 1 / 2 ^ 48) ≤
      (frictionCapRounded round64 sampleEnv heavyShip).dx *
          (frictionCapRounded round64 sampleEnv heavyShip).dx +
        (frictionCapRounded round64 sampleEnv heavyShip).dy *
          (frictionCapRounded round64 sampleEnv heavyShip).dy := by
  have hq : SqrtRoundedAt sampleEnv (squaredSpeedRounded round64 heavyShip) := by
    unfold SqrtRoundedAt
    rw [speed_heavy, squaredSpeedRounded_heavy]
    norm_num
  have h := speed_cap round64 sampleEnv idle heavyGame heavyShip round64_within
    (by simp [thrustShipRounded, rotateShipRounded, idle, heavyGame, heavyShip]) hq
  exact ⟨round64_within, hq, speed_heavy, h.1, h.2.1,
    (h.2.2.1 (by rw [speed_heavy]; norm_num)).2.1⟩

/-- C4 as stated fails: at a ship of velocity `(500, 1200)` the velocity after
friction is `(495, 1188)`, its speed 1287 is computed without error, and the
rescaled velocity `(495 / 1287 * 5, 1188 / 1287 * 5)` as `float64` arithmetic
rounds it, `(8660768514174031 / 2^52, 5196461108504419 / 2^50)`, has
`dx² + dy² > 25`: neither at most 25 nor of magnitude exactly 5. -/
theorem speed_cap_rounding_counterexample :
    SqrtExactAt sampleEnv (squaredSpeedRounded round64 heavyShip) ∧
    sampleEnv.sqrt (squaredSpeedRounded round64 heavyShip) > 5 ∧
    (updatePlayingRounded round64 sampleEnv idle heavyGame).ship.dx =
      8660768514174031 / 2 ^ 52 ∧
    (updatePlayingRounded round64 sampleEnv idle heavyGame).ship.dy =
      5196461108504419 / 2 ^ 50 ∧
    ¬ (updatePlayingRounded round64 sampleEnv idle heavyGame).ship.dx *
        (updatePlayingRounded round64 sampleEnv idle heavyGame).ship.dx +
      (updatePlayingRounded round64 sampleEnv idle heavyGame).ship.dy *
        (updatePlayingRounded round64 sampleEnv idle heavyGame).ship.dy ≤ 25 := by
  have hship : (updatePlayingRounded round64 sampleEnv idle heavyGame).ship =
      frictionCapRounded round64 sampleEnv heavyShip := by
    rw [(updatePlayingRounded_ship round64 sampleEnv idle heavyGame).1, shipStepRounded_heavy]
  have hv := frictionCapRounded_heavy
  refine ⟨?_, by rw [speed_heavy]; norm_num, by rw [hship]; exact hv.1,
    by rw [hship]; exact hv.2, ?_⟩
  · unfold SqrtExactAt
    rw [speed_heavy, squaredSpeedRounded_heavy]
    norm_num
  · rw [hship, hv.1, hv.2]
    norm_num

/-! ## C5: the wrap of asteroids and stars -/

/-- C5: after a Playing tick every asteroid in the collection, children of this
tick's splits included, has `0 ≤ x < 640` and `0 ≤ y < 480`, whatever its earlier
position and velocity; and if every star starts on screen with a layer in
`1..5`, every star ends on screen, given the speed cap (`s` is the ship after
rotation and thrust, and `math.Sqrt` is taken exact at its squared speed after
friction). -/
theorem wrap_invariant (E : Env F) (keys : Keys) (g : Game F) :
    (∀ a ∈ (updatePlaying E keys g).asteroids.data, OnScreen a.x a.y) ∧
    (∀ s : Ship F, s = thrustShip E keys (rotateShip keys g.ship) →
      SqrtExactAt E (squaredSpeed s) →
      (∀ st ∈ g.stars, OnScreen st.x st.y ∧ 1 ≤ st.layer ∧ st.layer ≤ 5) →
      ∀ st ∈ (updatePlaying E keys g).stars, OnScreen st.x st.y) := by
  constructor
  · rw [(updatePlaying_frame E keys g).2.2.1]
    exact asteroidPhase_onScreen E keys g
  · intro s hs hsqrt hstars st hst
    rw [(updatePlaying_ship E keys g).2] at hst
    obtain ⟨st0, hst0, rfl⟩ := List.mem_map.mp hst
    have hcap := frictionCap_abs E s hsqrt
    have hship : shipStep E keys g.ship = frictionCap E s := by rw [hs]; rfl
    rw [hship]
    obtain ⟨h1, h2, h3⟩ := hstars st0 hst0
    exact moveStar_onScreen _ st0 hcap.1 hcap.2 h1 h2 h3

/-- C5 at a game with the fast ship and two stars. -/
theorem wrap_invariant_witness :
    (∀ st ∈ starGame.stars, OnScreen st.x st.y ∧ 1 ≤ st.layer ∧ st.layer ≤ 5) ∧
    (∀ st ∈ (updatePlaying sampleEnv idle starGame).stars, OnScreen st.x st.y) ∧
    (∀ a ∈ (updatePlaying sampleEnv idle starGame).asteroids.data, OnScreen a.x a.y) := by
  have hstars : ∀ st ∈ starGame.stars, OnScreen st.x st.y ∧ 1 ≤ st.layer ∧ st.layer ≤ 5 := by
    intro st hst
    simp only [starGame, List.mem_cons, List.mem_singleton, List.not_mem_nil, or_false] at hst
    rcases hst with rfl | rfl <;> norm_num [OnScreen]
  exact ⟨hstars,
    (wrap_invariant sampleEnv idle starGame).2 fastShip
      (by simp [thrustShip, rotateShip, idle, starGame, fastGame, fastShip])
      sqrtExact_fastShip hstars,
    (wrap_invariant sampleEnv idle starGame).1⟩

/-! ## C6: restart -/

/-- C6: whatever the game, `restartGame`, and so `Update` in `StateGameOver`
with the fire key held, yields `StatePlaying`, score 0, no bullets, no particles,
the zero ship, world offset (0, 0) and exactly 5 asteroids, each of size 30 with
rotation 0 at an integer position in `[0, 640) × [0, 480)`; `rand.Intn(n)` is
taken to return a value below `n`. -/
theorem restart_postcondition (E : Env F) (keys : Keys) (g r : Game F)
    (hI : ∀ k n, 0 < n → E.intn k n < n)
    (hr : r = restartGame E g ∨
      (g.state = GameState.StateGameOver ∧ keys.space = true ∧ r = Update E keys g)) :
    r.state = GameState.StatePlaying ∧ r.score = 0 ∧ r.bullets = [] ∧ r.particles = [] ∧
    (r.ship.angle = 0 ∧ r.ship.dx = 0 ∧ r.ship.dy = 0 ∧ r.ship.thrusting = false) ∧
    r.worldX = 0 ∧ r.worldY = 0 ∧ r.asteroids.data.length = 5 ∧
    (∀ a ∈ r.asteroids.data, a.size = 30 ∧ a.rotation = 0 ∧
      ∃ n m : Nat, n < 640 ∧ m < 480 ∧ a.x = (n : F) ∧ a.y = (m : F)) := by
  have key : ∀ g : Game F,
      (restartGame E g).state = GameState.StatePlaying ∧ (restartGame E g).score = 0 ∧
      (restartGame E g).bullets = [] ∧ (restartGame E g).particles = [] ∧
      ((restartGame E g).ship.angle = 0 ∧ (restartGame E g).ship.dx = 0 ∧
        (restartGame E g).ship.dy = 0 ∧ (restartGame E g).ship.thrusting = false) ∧
      (restartGame E g).worldX = 0 ∧ (restartGame E g).worldY = 0 ∧
      (restartGame E g).asteroids.data.length = 5 ∧
      (∀ a ∈ (restartGame E g).asteroids.data, a.size = 30 ∧ a.rotation = 0 ∧
        ∃ n m : Nat, n < 640 ∧ m < 480 ∧ a.x = (n : F) ∧ a.y = (m : F)) := by
    intro g
    refine ⟨rfl, rfl, rfl, rfl, ⟨rfl, rfl, rfl, rfl⟩, rfl, rfl, restartGame_asteroids_length E g, ?_⟩
    exact seedAsteroids_forall E _
      (fun c => ⟨rfl, rfl, E.intn c 640, E.intn (c + 1) 480, hI _ _ (by norm_num),
        hI _ _ (by norm_num), rfl, rfl⟩) _ _
  rcases hr with hr | ⟨hs, hk, hr⟩
  · rw [hr]; exact key g
  · rw [hr, Update_gameOver E keys g hs]
    simp only [updateGameOver, hk, if_true]
    exact key _

/-- C6 at a finished game, through `Update` with the fire key held. -/
theorem restart_postcondition_witness :
    stoppedGame.state = GameState.StateGameOver ∧ fireKey.space = true ∧
    (Update sampleEnv fireKey stoppedGame).state = GameState.StatePlaying ∧
    (Update sampleEnv fireKey stoppedGame).score = 0 ∧
    (Update sampleEnv fireKey stoppedGame).asteroids.data.length = 5 :=
  ⟨rfl, rfl,
   (restart_postcondition sampleEnv fireKey stoppedGame _ (fun _ _ h => h)
      (Or.inr ⟨rfl, rfl, rfl⟩)).1,
   (restart_postcondition sampleEnv fireKey stoppedGame _ (fun _ _ h => h)
      (Or.inr ⟨rfl, rfl, rfl⟩)).2.1,
   (restart_postcondition sampleEnv fireKey stoppedGame _ (fun _ _ h => h)
      (Or.inr ⟨rfl, rfl, rfl⟩)).2.2.2.2.2.2.2.1⟩

/-! ## C7: GameOver is frozen -/

/-- C7 (amended): in `StateGameOver`, an `Update` without the fire key changes
nothing but the tick counter, which becomes `tick + 1` in 64-bit `int`
arithmetic: exactly `tick + 1` unless `tick` is the largest `int`. The state
leaves `StateGameOver` only through a call with the fire key held. -/
theorem gameOver_frozen (E : Env F) (keys : Keys) (g : Game F)
    (hs : g.state = GameState.StateGameOver) :
    (keys.space = false → Update E keys g = { g with tick := wrapInt (g.tick + 1) }) ∧
    (keys.space = false → -2 ^ 63 ≤ g.tick → g.tick < 2 ^ 63 - 1 →
      (Update E keys g).tick = g.tick + 1) ∧
    ((Update E keys g).state ≠ GameState.StateGameOver → keys.space = true) := by
  rw [Update_gameOver E keys g hs]
  unfold updateGameOver
  refine ⟨fun hk => by simp [hk], fun hk h1 h2 => ?_, fun h => ?_⟩
  · simp only [hk, Bool.false_eq_true, if_false]
    exact wrapInt_of_range _ (by omega) (by omega)
  · by_contra hk
    simp only [hk, if_false] at h
    exact h hs

/-- C7 at a finished game with tick 0 and no key held. -/
theorem gameOver_frozen_witness :
    stoppedGame.state = GameState.StateGameOver ∧ idle.space = false ∧
    Update sampleEnv idle stoppedGame = { stoppedGame with tick := wrapInt (stoppedGame.tick + 1) } ∧
    (Update sampleEnv idle stoppedGame).tick = stoppedGame.tick + 1 :=
  ⟨rfl, rfl, (gameOver_frozen sampleEnv idle stoppedGame rfl).1 rfl,
   (gameOver_frozen sampleEnv idle stoppedGame rfl).2.1 rfl (by decide) (by decide)⟩

/-- C7 as stated fails: at the largest `int` the tick counter does not increase
by 1, it wraps to the smallest. -/
theorem tick_wraps_counterexample :
    lastTickGame.state = GameState.StateGameOver ∧ idle.space = false ∧
    (Update sampleEnv idle lastTickGame).tick ≠ lastTickGame.tick + 1 ∧
    (Update sampleEnv idle lastTickGame).tick < lastTickGame.tick := by
  refine ⟨rfl, rfl, ?_, ?_⟩
  · rw [Update_gameOver sampleEnv idle lastTickGame rfl]
    simp only [updateGameOver, idle, Bool.false_eq_true, if_false]
    decide
  · rw [Update_gameOver sampleEnv idle lastTickGame rfl]
    simp only [updateGameOver, idle, Bool.false_eq_true, if_false]
    decide

/-! ## C8: Special expiry -/

/-- C8 (amended): in a Playing tick entered with no particles, a Special
asteroid whose countdown is 1 is removed when the loop reaches it, without being
split or scored and without consuming a bullet, and 100 particles of lifetime
180 are appended for it; at the end of the tick the particle collection holds 100 particles for
each asteroid that was due to expire, so exactly 100 when this asteroid is the
only one, and each of them has lifetime 179, not 180: the particle pass of the
same tick has advanced them once. No Special asteroid with a countdown of 0 or
less remains in the collection. -/
theorem special_expiry (E : Env F) (keys : Keys) (g : Game F) (i : Nat) (a0 : Asteroid F)
    (hget : g.asteroids.data[i]? = some a0)
    (hsp : a0.asteroidType = AsteroidType.SpecialAsteroid) (hcd : a0.expansionTime = 1)
    (hparts : g.particles = []) :
    (∀ (k : Nat) (g1 : Game F), g1.asteroids.data[k]? = some a0 →
      (asteroidBody E k a0 g1).1.asteroids.data = g1.asteroids.data.eraseIdx k ∧
      (asteroidBody E k a0 g1).1.bullets = g1.bullets ∧
      (asteroidBody E k a0 g1).1.score = g1.score ∧ (asteroidBody E k a0 g1).2 = k ∧
      ∃ new : List (Particle F), (asteroidBody E k a0 g1).1.particles = g1.particles ++ new ∧
        new.length = 100 ∧ ∀ p ∈ new, p.lifetime = 180) ∧
    (updatePlaying E keys g).particles.length = 100 * List.countP expiring g.asteroids.data ∧
    1 ≤ List.countP expiring g.asteroids.data ∧
    (List.countP expiring g.asteroids.data = 1 → (updatePlaying E keys g).particles.length = 100) ∧
    (∀ p ∈ (updatePlaying E keys g).particles, p.lifetime = 179) ∧
    (∀ a ∈ (updatePlaying E keys g).asteroids.data,
      a.asteroidType = AsteroidType.SpecialAsteroid → 0 < a.expansionTime) := by
  have hdue := countdown_one_expiring a0 hsp hcd
  have hp := expiry_particles E keys g hparts
  refine ⟨fun k g1 hk => explodes_when_due E k a0 g1 hk hdue, hp.1, ?_, ?_, hp.2, ?_⟩
  · exact List.countP_pos_iff.mpr ⟨a0, List.mem_iff_getElem?.mpr ⟨i, hget⟩, hdue⟩
  · intro h1; rw [hp.1, h1]
  · rw [(updatePlaying_frame E keys g).2.2.1]
    refine asteroidPhase_forall E keys g _ ?_ ?_
    · intro ship a he hs
      have := (advanceAsteroid_explodes E ship a).not.mpr (by rw [he]; simp)
      by_contra hc
      exact this ⟨hs, not_lt.mp hc⟩
    · intro ship a c _ _
      show (0 : Int) < 180
      decide

/-- C8 at the flare game: 100 particles, each of lifetime 179. -/
theorem special_expiry_witness :
    flareGame.asteroids.data[0]? = some flare ∧ flare.expansionTime = 1 ∧
    flareGame.particles = [] ∧
    (updatePlaying sampleEnv idle flareGame).particles.length = 100 ∧
    (∀ p ∈ (updatePlaying sampleEnv idle flareGame).particles, p.lifetime = 179) :=
  ⟨rfl, rfl, rfl,
   (special_expiry sampleEnv idle flareGame 0 flare rfl rfl rfl rfl).2.2.2.1
     (by
      have h := countdown_one_expiring flare rfl rfl
      show List.countP expiring [flare] = 1
      simp [h]),
   (special_expiry sampleEnv idle flareGame 0 flare rfl rfl rfl rfl).2.2.2.2.1⟩

/-- C8 as stated fails: the flare game ends its tick with 100 particles, but
their lifetime is 179, not the initial 180. -/
theorem burst_lifetime_counterexample :
    flareGame.particles = [] ∧ flare.expansionTime = 1 ∧
    (updatePlaying sampleEnv idle flareGame).particles.length = 100 ∧
    (∀ p ∈ (updatePlaying sampleEnv idle flareGame).particles, p.lifetime = 179) ∧
    ¬ (∀ p ∈ (updatePlaying sampleEnv idle flareGame).particles, p.lifetime = 180) := by
  have h := expiry_particles sampleEnv idle flareGame rfl
  have hc : List.countP expiring flareGame.asteroids.data = 1 := by
    have h := countdown_one_expiring flare rfl rfl
    show List.countP expiring [flare] = 1
    simp [h]
  rw [hc] at h
  refine ⟨rfl, rfl, h.1, h.2, ?_⟩
  intro hall
  obtain ⟨p, hp⟩ : ∃ p, p ∈ (updatePlaying sampleEnv idle flareGame).particles :=
    List.exists_mem_of_length_pos (by rw [h.1]; norm_num)
  have h1 := h.2 p hp
  have h2 := hall p hp
  rw [h1] at h2
  norm_num at h2

/-! ## C9: bullets and particles are not wrapped -/

/-- C9 (amended): bullets and particles are moved but never wrapped. After a
Playing tick every remaining bullet is a bullet of the tick (one held at its
start, or the one fired in it) moved by its velocity minus the ship's, with its
lifetime one less and still positive; every remaining particle is a particle
present after the asteroid pass moved by its own velocity. Nothing bounds
these positions by the screen. -/
theorem bullets_particles_moved_not_wrapped (E : Env F) (keys : Keys) (g : Game F) :
    (∀ b ∈ (updatePlaying E keys g).bullets,
      ∃ b0 ∈ (fire E keys (shipPhase E keys g)).bullets,
        b.x = b0.x + (b0.dx - (updatePlaying E keys g).ship.dx) ∧
        b.y = b0.y + (b0.dy - (updatePlaying E keys g).ship.dy) ∧
        b.lifetime = wrapInt (b0.lifetime - 1) ∧ 0 < b.lifetime) ∧
    (∀ p ∈ (updatePlaying E keys g).particles,
      ∃ p0 ∈ (asteroidPhase E keys g).particles,
        p.x = p0.x + p0.dx ∧ p.y = p0.y + p0.dy ∧ p.lifetime = p0.lifetime - 1 ∧
        0 < p.lifetime) := by
  have hf := updatePlaying_frame E keys g
  constructor
  · intro b hb
    rw [hf.2.1] at hb
    have h1 := asteroidLoop_bullets_subset E _ 0 (bulletPhase E keys g) b hb
    rw [bulletPhase_bullets] at h1
    obtain ⟨hm, hl⟩ := List.mem_filter.mp h1
    obtain ⟨b0, hb0, rfl⟩ := List.mem_map.mp hm
    rw [(updatePlaying_ship E keys g).1]
    exact ⟨b0, hb0, rfl, rfl, rfl, by simpa using hl⟩
  · intro p hp
    rw [hf.2.2.2] at hp
    obtain ⟨hm, hl⟩ := List.mem_filter.mp hp
    obtain ⟨p0, hp0, rfl⟩ := List.mem_map.mp hm
    exact ⟨p0, hp0, rfl, rfl, rfl, by simpa using hl⟩

/-- C9 as stated fails: a bullet at `x = 639` moving right at 10 per tick is at
`x = 649`, off the 640-wide screen, after the tick and stays in the collection. -/
theorem bullet_leaves_screen_counterexample :
    (updatePlaying sampleEnv idle strayGame).bullets =
      [{ x := 649, y := 100, dx := 10, dy := 0, lifetime := 4 }] ∧
    ¬ ∀ b ∈ (updatePlaying sampleEnv idle strayGame).bullets,
      0 ≤ b.x ∧ b.x < 640 ∧ 0 ≤ b.y ∧ b.y < 480 := by
  refine ⟨updatePlaying_stray, ?_⟩
  rw [updatePlaying_stray]
  intro h
  have := (h _ (List.mem_singleton.mpr rfl)).2.1
  norm_num at this

/-! ## C10: the generator -/

/-- C10 (amended): for every centre `(x, y)`, every size `s ≥ 0` and every stream
of `float64` draws in `[0, 1)`, `createAsteroid` computed with rounding to
nearest returns an asteroid at `(x, y)` of size `s` and rotation 0, with 20
polygon coordinates, vertex `i` being `(fl (cos θ * r), fl (sin θ * r))` for
`θ = fl (i * fl (2π/10))` and `r` the rounded value of `s/2 + draw * s/4 - s/8`,
which satisfies `(3s/8) (1 - 2^-50) ≤ r ≤ (5s/8) (1 + 2^-50)`; velocity
components in `[-2, 2)`, rotation speed within `2^-50` of `[-0.05, 0.05]`,
countdown 180, and type Special exactly when the first draw is below the
`float64` constant 0.1, Normal otherwise; when that constant is not below 0.1,
as in IEEE 754, this is exactly when the first draw is below 0.1. -/
theorem createAsteroid_postcondition (rnd : F → F) (E : Env F) (c : Nat) (x y s : F)
    (hr : RoundsToNearest rnd)
    (hdraw : ∀ k, IsFloat64 (E.float64 k) ∧ 0 ≤ E.float64 k ∧ E.float64 k < 1) (hs : 0 ≤ s) :
    (createAsteroidRounded rnd E c x y s).1.x = x ∧
    (createAsteroidRounded rnd E c x y s).1.y = y ∧
    (createAsteroidRounded rnd E c x y s).1.size = s ∧
    (createAsteroidRounded rnd E c x y s).1.rotation = 0 ∧
    (createAsteroidRounded rnd E c x y s).1.points.length = 20 ∧
    (∀ i, i < 10 → ∃ r : F,
      r = rnd (rnd (rnd (s / 2) + rnd (rnd (E.float64 (c + 4 + i) * s) / 4)) - rnd (s / 8)) ∧
      3 * s / 8 * (1 - 1 / 2 ^ 50) ≤ r ∧ r ≤ 5 * s / 8 * (1 + 1 / 2 ^ 50) ∧
      (createAsteroidRounded rnd E c x y s).1.points[2 * i]? =
        some (rnd (E.cos (rnd ((i : F) * rnd (2 * Pi / 10))) * r)) ∧
      (createAsteroidRounded rnd E c x y s).1.points[2 * i + 1]? =
        some (rnd (E.sin (rnd ((i : F) * rnd (2 * Pi / 10))) * r))) ∧
    (-2 ≤ (createAsteroidRounded rnd E c x y s).1.dx ∧
      (createAsteroidRounded rnd E c x y s).1.dx < 2) ∧
    (-2 ≤ (createAsteroidRounded rnd E c x y s).1.dy ∧
      (createAsteroidRounded rnd E c x y s).1.dy < 2) ∧
    (-(1 / 20 * (1 + 1 / 2 ^ 50)) ≤ (createAsteroidRounded rnd E c x y s).1.rotationSpeed ∧
      (createAsteroidRounded rnd E c x y s).1.rotationSpeed ≤ 1 / 20 * (1 + 1 / 2 ^ 50)) ∧
    (createAsteroidRounded rnd E c x y s).1.expansionTime = 180 ∧
    ((createAsteroidRounded rnd E c x y s).1.asteroidType = AsteroidType.SpecialAsteroid ↔
      E.float64 c < rnd (1 / 10)) ∧
    ((createAsteroidRounded rnd E c x y s).1.asteroidType = AsteroidType.NormalAsteroid ↔
      ¬ E.float64 c < rnd (1 / 10)) ∧
    ((1 / 10 : F) ≤ rnd (1 / 10) →
      ((createAsteroidRounded rnd E c x y s).1.asteroidType = AsteroidType.SpecialAsteroid ↔
        E.float64 c < 1 / 10)) := by
  obtain ⟨f1, a1, b1⟩ := hdraw (c + 1)
  obtain ⟨f2, a2, b2⟩ := hdraw (c + 2)
  obtain ⟨f3, a3, b3⟩ := hdraw (c + 3)
  have hsp : (createAsteroidRounded rnd E c x y s).1.asteroidType = AsteroidType.SpecialAsteroid ↔
      E.float64 c < rnd (1 / 10) := by
    show (if E.float64 c < rnd (1 / 10) then AsteroidType.SpecialAsteroid
      else AsteroidType.NormalAsteroid) = _ ↔ _
    by_cases h : E.float64 c < rnd (1 / 10)
    · rw [if_pos h]; exact ⟨fun _ => h, fun _ => rfl⟩
    · rw [if_neg h]; exact ⟨fun hh => (by cases hh), fun hh => absurd hh h⟩
  refine ⟨rfl, rfl, rfl, rfl, ?_, ?_, velocity_rounded rnd hr _ f1 a1 b1,
    velocity_rounded rnd hr _ f2 a2 b2, rotationSpeed_rounded rnd hr _ a3 b3, rfl, hsp, ?_, ?_⟩
  · rw [createAsteroidRounded_points]; rfl
  · intro i hi
    have hv := createAsteroidRounded_vertex rnd E c x y s i hi
    have hb := vertexRadiusRounded_bounds rnd E c s i hr.1
      ⟨(hdraw (c + 4 + i)).2.1, (hdraw (c + 4 + i)).2.2⟩ hs
    have ha : vertexAngleRounded rnd i = rnd ((i : F) * rnd (2 * Pi / 10)) := by
      simp [vertexAngleRounded]
    rw [ha] at hv
    exact ⟨vertexRadiusRounded rnd E c s i, rfl, hb.1, hb.2, hv.1, hv.2⟩
  · show (if E.float64 c < rnd (1 / 10) then AsteroidType.SpecialAsteroid
      else AsteroidType.NormalAsteroid) = _ ↔ _
    by_cases h : E.float64 c < rnd (1 / 10)
    · rw [if_pos h]; exact ⟨fun hh => (by cases hh), fun hh => absurd h hh⟩
    · rw [if_neg h]; exact ⟨fun _ => h, fun _ => rfl⟩
  · intro hc
    exact hsp.trans (special_threshold rnd hr _ (hdraw c).1 hc)

/-- C10 with the rounding of IEEE 754, at size 30 with every draw equal to 1/2. -/
theorem createAsteroid_postcondition_witness :
    RoundsToNearest round64 ∧
    (∀ k, IsFloat64 (sampleEnv.float64 k) ∧ 0 ≤ sampleEnv.float64 k ∧ sampleEnv.float64 k < 1) ∧
    (0 : ℚ) ≤ 30 ∧ (createAsteroidRounded round64 sampleEnv 0 100 100 30).1.size = 30 ∧
    (createAsteroidRounded round64 sampleEnv 0 100 100 30).1.points.length = 20 ∧
    (-2 ≤ (createAsteroidRounded round64 sampleEnv 0 100 100 30).1.dx ∧
      (createAsteroidRounded round64 sampleEnv 0 100 100 30).1.dx < 2) ∧
    (createAsteroidRounded round64 sampleEnv 0 100 100 30).1.asteroidType =
      AsteroidType.NormalAsteroid := by
  have h := createAsteroid_postcondition round64 sampleEnv 0 100 100 30 round64_nearest
    draws_sample (by norm_num)
  refine ⟨round64_nearest, draws_sample, by norm_num, h.2.2.1, h.2.2.2.2.1, h.2.2.2.2.2.2.1,
    h.2.2.2.2.2.2.2.2.2.2.2.1.mpr ?_⟩
  rw [round64_tenth]
  norm_num [sampleEnv]

/-- C10 as stated fails in three ways. At size 0, which `s ≥ 0` allows, every
radius the code computes is 0, which is not below `5*0/8`, and no radius at all
satisfies `3*0/8 ≤ r < 5*0/8`. At size 30 and the draw `1 - 2^-53`, the largest
`float64` below 1, the sum `15 + (7.5 - 2^-50)` is rounded up to 22.5, and the
radius the code computes is `18.75 = 5*30/8`, not below it. At the draw 0 the
rotation speed is half the `float64` constant 0.1, negated, which is below
`-0.05`. -/
theorem createAsteroid_radius_counterexample :
    (0 : ℚ) ≤ 0 ∧
    (∀ k, IsFloat64 (sampleEnv.float64 k) ∧ 0 ≤ sampleEnv.float64 k ∧ sampleEnv.float64 k < 1) ∧
    vertexRadiusRounded round64 sampleEnv 0 0 0 = 0 ∧
    ¬ vertexRadiusRounded round64 sampleEnv 0 0 0 < 5 * 0 / 8 ∧
    (¬ ∃ r : ℚ, 3 * 0 / 8 ≤ r ∧ r < 5 * 0 / 8) ∧
    (0 : ℚ) ≤ 30 ∧
    (∀ k, IsFloat64 (brinkEnv.float64 k) ∧ 0 ≤ brinkEnv.float64 k ∧ brinkEnv.float64 k < 1) ∧
    vertexRadiusRounded round64 brinkEnv 0 30 0 = 5 * 30 / 8 ∧
    ¬ vertexRadiusRounded round64 brinkEnv 0 30 0 < 5 * 30 / 8 ∧
    (createAsteroidRounded round64 brinkEnv 0 100 100 30).1.points[0]? = some (5 * 30 / 8) ∧
    (∀ k, IsFloat64 (floorEnv.float64 k) ∧ 0 ≤ floorEnv.float64 k ∧ floorEnv.float64 k < 1) ∧
    (createAsteroidRounded round64 floorEnv 0 100 100 30).1.rotationSpeed =
      -(3602879701896397 / 2 ^ 56) ∧
    ¬ -(1 / 20) ≤ (createAsteroidRounded round64 floorEnv 0 100 100 30).1.rotationSpeed := by
  refine ⟨le_refl _, draws_sample, vertexRadiusRounded_zero _ _ _, ?_, ?_, by norm_num,
    draws_brink, ?_, ?_, ?_, draws_floor, rotationSpeed_floor, ?_⟩
  · rw [vertexRadiusRounded_zero]
    norm_num
  · rintro ⟨r, h1, h2⟩
    norm_num at h1 h2
    linarith
  · rw [vertexRadiusRounded_brink]
    norm_num
  · rw [vertexRadiusRounded_brink]
    norm_num
  · rw [createAsteroidRounded_brink]
    norm_num
  · rw [rotationSpeed_floor]
    norm_num

/-! ## C11: the rest scenario -/

/-- C11 (amended): in a Playing game whose ship velocity is (0, 0), one `Update`
with no key held, computed with rounding to nearest on `float64` values, leaves
the ship velocity at (0, 0), the heading unchanged, the world offset unchanged
and the number of stars unchanged; the star at index `i` ends at
`(math.Mod(fl(x + 640), 640), math.Mod(fl(y + 480), 480))`, where `fl` is the
rounding. A star in `[0, 640) × [0, 480)` is therefore unchanged when `x + 640`
and `y + 480` are `float64` values, as they are for the whole-number coordinates
`main` gives the stars. This whatever `math.Sqrt` returns at 0. -/
theorem rest_scenario (rnd : F → F) (E : Env F) (g : Game F) (hr : RoundsToNearest rnd)
    (hp : g.state = GameState.StatePlaying) (hdx : g.ship.dx = 0) (hdy : g.ship.dy = 0)
    (hwx : IsFloat64 g.worldX) (hwy : IsFloat64 g.worldY)
    (hst : ∀ st ∈ g.stars, IsFloat64 st.x ∧ IsFloat64 st.y) :
    (UpdateRounded rnd E idle g).ship.dx = 0 ∧ (UpdateRounded rnd E idle g).ship.dy = 0 ∧
    (UpdateRounded rnd E idle g).ship.angle = g.ship.angle ∧
    (UpdateRounded rnd E idle g).worldX = g.worldX ∧
    (UpdateRounded rnd E idle g).worldY = g.worldY ∧
    (UpdateRounded rnd E idle g).stars.length = g.stars.length ∧
    (∀ (i : Nat) (st : Star F), g.stars[i]? = some st →
      (UpdateRounded rnd E idle g).stars[i]? =
        some { st with x := fmod (rnd (st.x + 640)) 640, y := fmod (rnd (st.y + 480)) 480 }) ∧
    (∀ (i : Nat) (st : Star F), g.stars[i]? = some st → OnScreen st.x st.y →
      IsFloat64 (st.x + 640) → IsFloat64 (st.y + 480) →
      (UpdateRounded rnd E idle g).stars[i]? = some st) ∧
    (∀ (i : Nat) (st : Star F) (n m : Nat), g.stars[i]? = some st → st.x = n → st.y = m →
      n < 640 → m < 480 → (UpdateRounded rnd E idle g).stars[i]? = some st) := by
  have h0 : rnd 0 = 0 := rounds_zero rnd _ hr.1
  have hs := shipStepRounded_rest rnd E g.ship h0 hdx hdy
  have h := UpdateRounded_rest rnd E g hr hp hdx hdy hwx hwy
  have hfix : ∀ (i : Nat) (st : Star F), g.stars[i]? = some st → OnScreen st.x st.y →
      IsFloat64 (st.x + 640) → IsFloat64 (st.y + 480) →
      (UpdateRounded rnd E idle g).stars[i]? = some st := by
    intro i st hget hon hx hy
    have hm := hst st (List.getElem?_mem hget)
    rw [h.2.2.2.2.2, List.getElem?_map, hget, Option.map_some',
      moveStarRounded_fixed rnd _ st h0 hs.1 hs.2.1 (rounds_fix rnd hr _ hm.1)
        (rounds_fix rnd hr _ hm.2) hon (rounds_fix rnd hr _ hx) (rounds_fix rnd hr _ hy)]
  refine ⟨h.1, h.2.1, h.2.2.1, h.2.2.2.1, h.2.2.2.2.1, by rw [h.2.2.2.2.2]; simp, ?_, hfix, ?_⟩
  · intro i st hget
    have hm := hst st (List.getElem?_mem hget)
    rw [h.2.2.2.2.2, List.getElem?_map, hget, Option.map_some',
      moveStarRounded_rest rnd _ st h0 hs.1 hs.2.1 (rounds_fix rnd hr _ hm.1)
        (rounds_fix rnd hr _ hm.2)]
  · intro i st n m hget hx hy hn hm
    refine hfix i st hget ?_ ?_ ?_
    · rw [hx, hy]
      exact ⟨by positivity, by exact_mod_cast hn, by positivity, by exact_mod_cast hm⟩
    · rw [hx]
      have : IsFloat64 (((n + 640 : Nat) : F)) := isFloat64_nat _ (by omega)
      simpa using this
    · rw [hy]
      have : IsFloat64 (((m + 480 : Nat) : F)) := isFloat64_nat _ (by omega)
      simpa using this

/-- C11 with the rounding of IEEE 754, at a game with heading 1, world offset
(12, 7) and stars at two corners of the screen. -/
theorem rest_scenario_witness :
    RoundsToNearest round64 ∧ restGame.state = GameState.StatePlaying ∧
    restGame.ship.dx = 0 ∧ restGame.ship.dy = 0 ∧
    (UpdateRounded round64 sampleEnv idle restGame).ship.dx = 0 ∧
    (UpdateRounded round64 sampleEnv idle restGame).ship.dy = 0 ∧
    (UpdateRounded round64 sampleEnv idle restGame).ship.angle = 1 ∧
    (UpdateRounded round64 sampleEnv idle restGame).worldX = 12 ∧
    (UpdateRounded round64 sampleEnv idle restGame).worldY = 7 ∧
    (UpdateRounded round64 sampleEnv idle restGame).stars[1]? =
      some { x := 639, y := 479, brightness := 1 / 2, layer := 1 } := by
  have h := rest_scenario round64 sampleEnv restGame round64_nearest rfl rfl rfl
    (isFloat64_nat 12 (by norm_num)) (isFloat64_nat 7 (by norm_num))
    (by
      intro st hmem
      simp only [restGame, List.mem_cons, List.mem_singleton, List.not_mem_nil, or_false] at hmem
      rcases hmem with rfl | rfl
      · exact ⟨isFloat64_nat 0 (by norm_num), isFloat64_nat 0 (by norm_num)⟩
      · exact ⟨isFloat64_nat 639 (by norm_num), isFloat64_nat 479 (by norm_num)⟩)
  exact ⟨round64_nearest, rfl, rfl, rfl, h.1, h.2.1, h.2.2.1, h.2.2.2.1, h.2.2.2.2.1,
    h.2.2.2.2.2.2.2.2 1 _ 639 479 rfl (by norm_num) (by norm_num) (by norm_num) (by norm_num)⟩

/-- C11 as stated fails: with the ship at rest and no key held, a star at the
`float64` values of 0.1 and 0.7, inside `[0, 640) × [0, 480)`, is moved by the
tick, to `879609302221 / 2^43` (0.10000000000002274) and `12314530231091 / 2^44`
(0.6999999999999886): the sums `x + 640` and `y + 480` are rounded before
`math.Mod` takes the 640 and the 480 away again. -/
theorem rest_star_drift_counterexample :
    driftGame.state = GameState.StatePlaying ∧ driftGame.ship.dx = 0 ∧ driftGame.ship.dy = 0 ∧
    driftGame.stars[0]? = some driftStar ∧ OnScreen driftStar.x driftStar.y ∧
    IsFloat64 driftStar.x ∧ IsFloat64 driftStar.y ∧
    (UpdateRounded round64 sampleEnv idle driftGame).stars[0]? =
      some { driftStar with x := 879609302221 / 2 ^ 43, y := 12314530231091 / 2 ^ 44 } ∧
    (UpdateRounded round64 sampleEnv idle driftGame).stars[0]? ≠ some driftStar := by
  refine ⟨rfl, rfl, rfl, rfl, by norm_num [OnScreen, driftStar], isFloat64_driftStar.1,
    isFloat64_driftStar.2, by rw [UpdateRounded_drift]; rfl, ?_⟩
  rw [UpdateRounded_drift]
  intro h
  have hx := congrArg (fun o => o.map Star.x) h
  norm_num [driftStar] at hx

/-! ## C12: the first-hit tie-break -/

/-- C12 (amended): in a Playing tick with exactly one asteroid, not due to
expire, and two or more bullets that are all within hit distance of it when it is
scanned, the scan of that asteroid stops at the first bullet of the slice: that
bullet alone is removed by it, the others stay in their order, and the score gets
`+= 10`. At the end of the tick the first bullet is gone, the remaining bullets
are a subsequence of the others in their original order, and the score has
received `+= 10` once per bullet removed. When the asteroid's size at the scan is
at most 25 it is removed, and then exactly one bullet is removed in the tick and
the score is `score + 10` (in 64-bit `int` arithmetic). -/
theorem first_hit_tie_break (E : Env F) (keys : Keys) (g : Game F) (a0 : Asteroid F)
    (hone : g.asteroids.data = [a0]) (hlive : expiring a0 = false)
    (htwo : 2 ≤ (bulletPhase E keys g).bullets.length)
    (hall : allWithinHit E (advanceAsteroid E (shipStep E keys g.ship) a0)
      (bulletPhase E keys g).bullets) :
    hitScan E (advanceAsteroid E (shipStep E keys g.ship) a0) (bulletPhase E keys g).bullets 0 =
      some 0 ∧
    (asteroidBody E 0 a0 (bulletPhase E keys g)).1.bullets = (bulletPhase E keys g).bullets.tail ∧
    (asteroidBody E 0 a0 (bulletPhase E keys g)).1.score = wrapInt (g.score + 10) ∧
    (updatePlaying E keys g).bullets.Sublist (bulletPhase E keys g).bullets.tail ∧
    (updatePlaying E keys g).score =
      scoreAfter ((bulletPhase E keys g).bullets.length - (updatePlaying E keys g).bullets.length)
        g.score ∧
    1 ≤ (bulletPhase E keys g).bullets.length - (updatePlaying E keys g).bullets.length ∧
    (¬ (advanceAsteroid E (shipStep E keys g.ship) a0).size > 25 →
      (updatePlaying E keys g).bullets = (bulletPhase E keys g).bullets.tail ∧
      (updatePlaying E keys g).bullets.length + 1 = (bulletPhase E keys g).bullets.length ∧
      (updatePlaying E keys g).score = wrapInt (g.score + 10) ∧
      (-2 ^ 63 ≤ g.score → g.score + 10 < 2 ^ 63 →
        (updatePlaying E keys g).score = g.score + 10)) := by
  have hf := updatePlaying_frame E keys g
  have hb := bulletPhase_frame E keys g
  have hdata : (bulletPhase E keys g).asteroids.data = [a0] := by rw [hb.2.1]; exact hone
  have hne : (bulletPhase E keys g).bullets ≠ [] := by
    intro h; rw [h] at htwo; simp at htwo
  have hscan := hitScan_first E _ _ hne hall
  have hlive2 : ¬ ((advanceAsteroid E (bulletPhase E keys g).ship a0).asteroidType =
      AsteroidType.SpecialAsteroid ∧
      (advanceAsteroid E (bulletPhase E keys g).ship a0).expansionTime ≤ 0) := by
    rw [advanceAsteroid_explodes, hlive]; simp
  have hscan2 : hitScan E (advanceAsteroid E (bulletPhase E keys g).ship a0)
      (bulletPhase E keys g).bullets 0 = some 0 := by rw [hb.1]; exact hscan
  have hbody := asteroidBody_hit E 0 0 a0 (bulletPhase E keys g) hlive2 hscan2
  have hfuel : 0 < (bulletPhase E keys g).asteroids.data.length +
      (bulletPhase E keys g).bullets.length := by omega
  have hsub := asteroidLoop_single_hit E _ a0 _ 0 hfuel hdata hlive2 hscan2
  have hscore := asteroidLoop_score E
    ((bulletPhase E keys g).asteroids.data.length + (bulletPhase E keys g).bullets.length) 0
    (bulletPhase E keys g)
  rw [List.eraseIdx_zero] at hsub
  refine ⟨hscan, ?_, ?_, ?_, ?_, ?_, ?_⟩
  · rw [hbody.1, List.eraseIdx_zero]
  · rw [hbody.2.1, hb.2.2.2.2.1]
  · rw [hf.2.1, asteroidPhase_eq]; exact hsub
  · rw [hf.1, hf.2.1, asteroidPhase_eq, ← hb.2.2.2.2.1]; exact hscore.2
  · have := hsub.length_le
    rw [List.length_tail] at this
    rw [hf.2.1, asteroidPhase_eq]
    omega
  · intro hsmall
    have hrem := asteroidLoop_single_remove E _ a0 _ 0 hfuel hdata hlive2 hscan2
      (by rw [hb.1]; exact hsmall)
    have hbl : (updatePlaying E keys g).bullets = (bulletPhase E keys g).bullets.tail := by
      rw [hf.2.1, asteroidPhase_eq, hrem.1, List.eraseIdx_zero]
    have hsc : (updatePlaying E keys g).score = wrapInt (g.score + 10) := by
      rw [hf.1, asteroidPhase_eq, hrem.2.1, hb.2.2.2.2.1]
    refine ⟨hbl, ?_, hsc, fun h1 h2 => ?_⟩
    · rw [hbl, List.length_tail]; omega
    · rw [hsc]; exact wrapInt_of_range _ (by omega) h2

/-- C12 at one asteroid of size 20 under two bullets: the first bullet goes, the
second stays, and the score rises from 0 to 10. -/
theorem first_hit_tie_break_witness :
    pebbleTwinGame.asteroids.data = [pebble] ∧
    (bulletPhase sampleEnv idle pebbleTwinGame).bullets =
      [{ x := 100, y := 100, dx := 0, dy := 0, lifetime := 4 },
       { x := 103, y := 104, dx := 0, dy := 0, lifetime := 6 }] ∧
    (updatePlaying sampleEnv idle pebbleTwinGame).bullets =
      [{ x := 103, y := 104, dx := 0, dy := 0, lifetime := 6 }] ∧
    (updatePlaying sampleEnv idle pebbleTwinGame).score = 10 := by
  have hb := bulletPhase_rest pebbleTwinGame rfl
  have hbul := hb.2.2.2.2.2.trans advance_twin
  have hship : shipStep sampleEnv idle pebbleTwinGame.ship = Ship.zero := shipStep_idle_zero
  have h := (first_hit_tie_break sampleEnv idle pebbleTwinGame pebble rfl
    (by simp [expiring, pebble]) (by rw [hbul]; simp)
    (by rw [hship, advance_pebble, hbul]
        exact twin_within_hit pebble rfl rfl (by norm_num [pebble]))).2.2.2.2.2.2
    (by rw [hship, advance_pebble]; norm_num [pebble])
  refine ⟨rfl, hbul, ?_, ?_⟩
  · rw [h.1, hbul]; rfl
  · rw [h.2.2.2 (by decide) (by decide)]; rfl

/-- C12 as stated fails: one asteroid of size 30 under two bullets, both within
hit distance. The first bullet splits it; the child appended to the slice is
scanned later in the same pass and consumes the second bullet. Two bullets are
removed, not one, and the score rises by 20, not 10. -/
theorem second_bullet_consumed_counterexample :
    twinGame.asteroids.data = [rock] ∧ expiring rock = false ∧
    (bulletPhase sampleEnv idle twinGame).bullets.length = 2 ∧
    allWithinHit sampleEnv (advanceAsteroid sampleEnv (shipStep sampleEnv idle twinGame.ship) rock)
      (bulletPhase sampleEnv idle twinGame).bullets ∧
    (updatePlaying sampleEnv idle twinGame).bullets = [] ∧
    twinGame.score = 0 ∧ (updatePlaying sampleEnv idle twinGame).score = 20 ∧
    (updatePlaying sampleEnv idle twinGame).score ≠ twinGame.score + 10 := by
  have h := updatePlaying_twin
  have hship : shipStep sampleEnv idle twinGame.ship = Ship.zero := shipStep_idle_zero
  refine ⟨rfl, by simp [expiring, rock], by rw [h.1]; rfl, ?_, h.2.1, rfl, h.2.2, ?_⟩
  · rw [hship, advance_rock, h.1]
    exact twin_within_hit rock rfl rfl (by norm_num [rock])
  · rw [h.2.2]; decide

/-! ## C13: the size pulse of Special asteroids -/

/-- C13 (amended): a Special asteroid processed in a Playing tick gets its
countdown lowered by one and, for the new countdown `c`, the size
`30 * (1 + 0.5 * sin (π * c / 180))`, whatever size it had or was created with.
With `sin` between -1 and 1 this size lies between `0.5 * 30` and `1.5 * 30`: it
oscillates around the constant `asteroidSize = 30`, not around the asteroid's
own base size; with `sin ≥ 0`, as for `0 ≤ c ≤ 180`, it is at least 30, so above
`1.5 * B` for every base size `B < 20`. At the end of a tick every Special
asteroid of the collection either is fresh from `createAsteroid` (countdown 180)
or has this size for its countdown. -/
theorem special_size_pulse (E : Env F) (keys : Keys) (g : Game F) (ship : Ship F)
    (a0 : Asteroid F) (hsp : a0.asteroidType = AsteroidType.SpecialAsteroid) :
    (advanceAsteroid E ship a0).expansionTime = wrapInt (a0.expansionTime - 1) ∧
    (advanceAsteroid E ship a0).size =
      30 * (1 + 1 / 2 * E.sin (Pi * ((advanceAsteroid E ship a0).expansionTime : F) / 180)) ∧
    (-1 ≤ E.sin (Pi * ((advanceAsteroid E ship a0).expansionTime : F) / 180) →
      E.sin (Pi * ((advanceAsteroid E ship a0).expansionTime : F) / 180) ≤ 1 →
      1 / 2 * 30 ≤ (advanceAsteroid E ship a0).size ∧
      (advanceAsteroid E ship a0).size ≤ 3 / 2 * 30) ∧
    (0 ≤ E.sin (Pi * ((advanceAsteroid E ship a0).expansionTime : F) / 180) →
      30 ≤ (advanceAsteroid E ship a0).size ∧
      ∀ B : F, B < 20 → ¬ (advanceAsteroid E ship a0).size ≤ 3 / 2 * B) ∧
    (∀ a ∈ (updatePlaying E keys g).asteroids.data,
      a.asteroidType = AsteroidType.SpecialAsteroid →
      a.expansionTime = 180 ∨
      a.size = 30 * (1 + 1 / 2 * E.sin (Pi * (a.expansionTime : F) / 180))) := by
  obtain ⟨-, he, hs⟩ := advanceAsteroid_pulse E ship a0 hsp
  have harg : ∀ c : Int, Pi * (c : F) / 180 = (c : F) / 180 * Pi := fun c => by ring
  have hform : (advanceAsteroid E ship a0).size =
      30 * (1 + 1 / 2 * E.sin (Pi * ((advanceAsteroid E ship a0).expansionTime : F) / 180)) := by
    rw [harg, hs]
    ring
  refine ⟨he, hform, ?_, ?_, ?_⟩
  · intro h1 h2
    rw [hform]
    constructor <;> linarith
  · intro h0
    rw [hform]
    refine ⟨by linarith, fun B hB hle => ?_⟩
    linarith
  · intro a ha hspa
    rw [(updatePlaying_frame E keys g).2.2.1] at ha
    rcases asteroidPhase_pulsed E keys g a ha hspa with h | h
    · exact Or.inl h
    · right
      rw [harg, h]
      ring

/-- C13 at a Special asteroid whose countdown goes from 91 to 90: the sine is 1
and the size is 45, the top of the range around 30. -/
theorem special_size_pulse_witness :
    ember.asteroidType = AsteroidType.SpecialAsteroid ∧
    (advanceAsteroid pulseEnv Ship.zero ember).expansionTime = 90 ∧
    (advanceAsteroid pulseEnv Ship.zero ember).size = 45 := by
  have h := special_size_pulse pulseEnv idle roomGame Ship.zero ember rfl
  have he : (advanceAsteroid pulseEnv Ship.zero ember).expansionTime = 90 := by
    rw [h.1]
    show wrapInt (91 - 1) = 90
    decide
  refine ⟨rfl, he, ?_⟩
  rw [h.2.1, he]
  show 30 * (1 + 1 / 2 * bhaskaraSin (Pi * ((90 : Int) : ℚ) / 180)) = 45
  rw [show (Pi : ℚ) * ((90 : Int) : ℚ) / 180 = 1 / 2 * Pi by push_cast; ring, bhaskaraSin_mul]
  norm_num

/-- C13 as stated fails for a Special child of a split: an asteroid of size 30
is split into children created with `B = 30/2 = 15`; the appended child is
Special, is processed in the same pass, and ends the tick with countdown 179 and
size `30 * (1 + 0.5 * sin (π * 179 / 180))`, about 30.27, which is not within
`[0.5 * 15, 1.5 * 15]`. -/
theorem special_child_pulse_counterexample :
    roomGame.asteroids.data.map Asteroid.size = [30] ∧
    (createAsteroid pulseEnv 0 100 100 (30 / 2)).1.size = 15 ∧
    (createAsteroid pulseEnv 0 100 100 (30 / 2)).1.asteroidType = AsteroidType.SpecialAsteroid ∧
    (updatePlaying pulseEnv idle roomGame).asteroids.data.map Asteroid.asteroidType =
      [AsteroidType.NormalAsteroid, AsteroidType.SpecialAsteroid] ∧
    (updatePlaying pulseEnv idle roomGame).asteroids.data.map Asteroid.expansionTime =
      [180, 179] ∧
    (updatePlaying pulseEnv idle roomGame).asteroids.data.map Asteroid.size =
      [15, 1220370 / 40321] ∧
    (1220370 / 40321 : ℚ) = 30 * (1 + 1 / 2 * pulseEnv.sin (Pi * 179 / 180)) ∧
    ¬ ((1220370 / 40321 : ℚ) ≤ 3 / 2 * 15) := by
  refine ⟨rfl, ?_, pulseEnv_first_special _ _ _, updatePlaying_room.1, updatePlaying_room.2.1,
    updatePlaying_room.2.2, ?_, by norm_num⟩
  · show (30 / 2 : ℚ) = 15
    norm_num
  · show _ = 30 * (1 + 1 / 2 * bhaskaraSin (Pi * 179 / 180))
    rw [show (Pi : ℚ) * 179 / 180 = 179 / 180 * Pi by ring, bhaskaraSin_mul]
    norm_num

/-! ## C14: particle cooling -/

/-- C14 (what the code does instead): a particle spawned by a Special expiry
has colour (255, 255, 0, 255) and lifetime 180; after `k < 180` advances its
lifetime is `180 - k`, B and A are unchanged, and R = G is the cumulative fade:
the advance number `k + 1` sets each of them to `⌊channel * (180 - (k + 1)) / 180⌋`
of the channel it finds, not of 255. So R and G equal `⌊255 * (180 - k) / 180⌋`
for `k ≤ 1`, never exceed it, and are below it for every `2 ≤ k < 180`. The
particle loop keeps the particle while the lifetime it reaches is positive and
removes it when that lifetime is 0, at advance number 180. -/
theorem particle_cooling (E : Env F) (c : Nat) (a : Asteroid F) (k : Nat) (hk : k < 180) :
    (burstParticle E c a).color = { R := 255, G := 255, B := 0, A := 255 } ∧
    (burstParticle E c a).lifetime = 180 ∧
    (advanceParticle^[k] (burstParticle E c a)).lifetime = 180 - (k : F) ∧
    (advanceParticle^[k] (burstParticle E c a)).color.B = 0 ∧
    (advanceParticle^[k] (burstParticle E c a)).color.A = 255 ∧
    (advanceParticle^[k] (burstParticle E c a)).color.G =
      (advanceParticle^[k] (burstParticle E c a)).color.R ∧
    (advanceParticle^[k] (burstParticle E c a)).color.R = cumulativeFade k ∧
    (advanceParticle^[k + 1] (burstParticle E c a)).color.R =
      (advanceParticle^[k] (burstParticle E c a)).color.R * (180 - (k + 1)) / 180 ∧
    (k ≤ 1 → (advanceParticle^[k] (burstParticle E c a)).color.R = proportionalFade k) ∧
    (advanceParticle^[k] (burstParticle E c a)).color.R ≤ proportionalFade k ∧
    (2 ≤ k → (advanceParticle^[k] (burstParticle E c a)).color.R < proportionalFade k) ∧
    particleLoop 1 0 [advanceParticle^[k] (burstParticle E c a)] =
      (if k + 1 < 180 then [advanceParticle^[k + 1] (burstParticle E c a)] else []) := by
  obtain ⟨hl, hc⟩ := burst_fade E c a k (by omega)
  obtain ⟨-, hc1⟩ := burst_fade E c a (k + 1) (by omega)
  refine ⟨rfl, by show (3 * 60 : F) = 180; norm_num, ?_, by rw [hc], by rw [hc], by rw [hc],
    by rw [hc], by rw [hc1, hc]; rfl, ?_, ?_, ?_, burst_removal E c a k hk⟩
  · rw [hl, Nat.cast_sub (by omega)]
    norm_num
  · intro h1
    rw [hc]
    show cumulativeFade k = proportionalFade k
    interval_cases k <;> rfl
  · rw [hc]; exact cumulativeFade_le_proportional k
  · intro h2
    rw [hc]
    exact cumulativeFade_lt_proportional k hk h2

/-- C14 at the 38th advance: the particle has 142 of its 180 ticks left, the
proportional channel would be `⌊255 * 142 / 180⌋ = 201`, and R = G = 0. -/
theorem particle_cooling_witness :
    (38 : Nat) < 180 ∧
    (advanceParticle^[38] (burstParticle sampleEnv 0 flare)).lifetime = 142 ∧
    (advanceParticle^[38] (burstParticle sampleEnv 0 flare)).color.R = 0 ∧
    (advanceParticle^[38] (burstParticle sampleEnv 0 flare)).color.G = 0 ∧
    proportionalFade 38 = 201 := by
  have h := particle_cooling sampleEnv 0 flare 38 (by decide)
  have hc : cumulativeFade 38 = 0 := by decide
  refine ⟨by decide, ?_, h.2.2.2.2.2.2.1.trans hc, ?_, rfl⟩
  · rw [h.2.2.1]; norm_num
  · rw [h.2.2.2.2.2.1, h.2.2.2.2.2.2.1]; exact hc

/-- C14 at the second advance, the first at which the code and the claim part:
the code computes `⌊253 * 178 / 180⌋ = 250` from the channel the first advance
left, while `⌊255 * (180 - 2) / 180⌋ = 252`. -/
theorem second_advance_fade :
    (burstParticle sampleEnv 0 flare).color = { R := 255, G := 255, B := 0, A := 255 } ∧
    (burstParticle sampleEnv 0 flare).lifetime = 180 ∧
    (advanceParticle^[2] (burstParticle sampleEnv 0 flare)).lifetime = 178 ∧
    (advanceParticle^[2] (burstParticle sampleEnv 0 flare)).color.R = 250 ∧
    (advanceParticle^[2] (burstParticle sampleEnv 0 flare)).color.G = 250 ∧
    ⌊(255 : ℚ) * (180 - 2) / 180⌋ = 252 ∧
    ((advanceParticle^[2] (burstParticle sampleEnv 0 flare)).color.R : Int) ≠
      ⌊(255 : ℚ) * (180 - 2) / 180⌋ := by
  obtain ⟨hl, hc⟩ := burst_fade sampleEnv 0 flare 2 (by decide)
  have hfl : ⌊(255 : ℚ) * (180 - 2) / 180⌋ = 252 := by
    rw [Int.floor_eq_iff]
    constructor <;> norm_num
  refine ⟨rfl, by show (3 * 60 : ℚ) = 180; norm_num, ?_, by rw [hc]; rfl, by rw [hc]; rfl, hfl, ?_⟩
  · rw [hl]; norm_num
  · rw [hc, hfl]
    decide

/-! ## C15: the bullet loop as a functional pass -/

/-- C15: the bullet loop with its in-place removal (delete at index `i`, then
`i--`) computes, for every bullet list and ship velocity, the functional pass
`bulletPass`: every bullet mapped to `(x + dx - ship.dx, y + dy - ship.dy,
lifetime - 1)`, then those with `lifetime > 0` kept in their order. The loop
terminates: `len` iterations reach the end of the slice, and a larger bound
changes nothing. The result is a subsequence of the advanced bullets (none is
skipped or advanced twice), every surviving bullet has `lifetime ≥ 1`, and this
is what `updatePlaying` does to the bullets of the tick. The decrement is that
of a Go `int`; it is `lifetime - 1` for every lifetime above the smallest
`int`. -/
theorem bullet_loop_is_functional_pass (E : Env F) (keys : Keys) (g : Game F) (ship : Ship F)
    (bs : List (Bullet F)) :
    bulletLoop ship bs.length 0 bs = bulletPass ship bs ∧
    (∀ fuel, bs.length ≤ fuel → bulletLoop ship fuel 0 bs = bulletPass ship bs) ∧
    (bulletLoop ship bs.length 0 bs).Sublist (bs.map (advanceBullet ship)) ∧
    (∀ b ∈ bs, (advanceBullet ship b ∈ bulletLoop ship bs.length 0 bs ↔
      0 < (advanceBullet ship b).lifetime)) ∧
    (∀ b ∈ bulletLoop ship bs.length 0 bs, 1 ≤ b.lifetime) ∧
    ((∀ b ∈ bs, -2 ^ 63 < b.lifetime ∧ b.lifetime < 2 ^ 63) →
      bulletLoop ship bs.length 0 bs =
        (bs.map (fun b =>
          ({ x := b.x + b.dx - ship.dx, y := b.y + b.dy - ship.dy, dx := b.dx, dy := b.dy,
             lifetime := b.lifetime - 1 } : Bullet F))).filter
          (fun b => decide (b.lifetime > 0))) ∧
    (bulletPhase E keys g).bullets =
      bulletPass (shipStep E keys g.ship) (fire E keys (shipPhase E keys g)).bullets := by
  have heq := bulletLoop_eq ship bs
  refine ⟨by rw [bulletPass_eq, heq], fun fuel h => by rw [bulletPass_eq, bulletLoop_fuel ship bs fuel h],
    by rw [heq]; exact List.filter_sublist _, ?_, ?_, ?_, ?_⟩
  · intro b hb
    rw [heq, List.mem_filter]
    constructor
    · intro h; simpa using h.2
    · intro h; exact ⟨List.mem_map_of_mem _ hb, by simpa using h⟩
  · intro b hb
    rw [heq, List.mem_filter] at hb
    have : 0 < b.lifetime := by simpa using hb.2
    omega
  · intro hr
    rw [heq]
    have hmap : bs.map (advanceBullet ship) = bs.map (fun b =>
        ({ x := b.x + b.dx - ship.dx, y := b.y + b.dy - ship.dy, dx := b.dx, dy := b.dy,
           lifetime := b.lifetime - 1 } : Bullet F)) := by
      apply List.map_congr_left
      intro b hb
      obtain ⟨h1, h2⟩ := hr b hb
      simp only [advanceBullet, Bullet.mk.injEq, true_and]
      exact ⟨by ring, by ring, wrapInt_of_range _ (by omega) (by omega)⟩
    rw [hmap]
  · rw [bulletPass_eq, bulletPhase_bullets]

/-! ## C16: a bullet hit on a Special asteroid -/

/-- C16: a Special asteroid whose countdown is in `2..180` when the loop
reaches it, and which a bullet hits, is scanned with a size above 30, so above 25:
the body takes the split branch and neither removes it outright nor bursts it.
The collection grows by one entry, a child of half the size at the asteroid's
position is appended, one bullet goes, the score gets `+= 10`, and no particle is
added. With room in the slice the entry at the asteroid's index is the other
child of half the size; with a full slice (`len = cap`) that entry is still the
Special asteroid itself, the second child having been written through the stale
pointer. Here `math.Sin` is positive at `c/180 * Pi` for `c` in `1..179`. -/
theorem special_hit_splits (E : Env F) (i j : Nat) (a0 : Asteroid F) (g : Game F)
    (hget : g.asteroids.data[i]? = some a0)
    (hsp : a0.asteroidType = AsteroidType.SpecialAsteroid)
    (h2 : 2 ≤ a0.expansionTime) (h180 : a0.expansionTime ≤ 180) (hsin : SinPositiveInside E)
    (hhit : hitScan E (advanceAsteroid E g.ship a0) g.bullets 0 = some j) :
    30 < (advanceAsteroid E g.ship a0).size ∧ 25 < (advanceAsteroid E g.ship a0).size ∧
    0 < (advanceAsteroid E g.ship a0).expansionTime ∧
    (asteroidBody E i a0 g).2 = i + 1 ∧
    (asteroidBody E i a0 g).1.asteroids.data.length = g.asteroids.data.length + 1 ∧
    (∃ child, (asteroidBody E i a0 g).1.asteroids.data[g.asteroids.data.length]? = some child ∧
      child.size = (advanceAsteroid E g.ship a0).size / 2 ∧
      child.x = (advanceAsteroid E g.ship a0).x ∧ child.y = (advanceAsteroid E g.ship a0).y) ∧
    (asteroidBody E i a0 g).1.bullets = g.bullets.eraseIdx j ∧
    (asteroidBody E i a0 g).1.bullets.length + 1 = g.bullets.length ∧
    (asteroidBody E i a0 g).1.score = wrapInt (g.score + 10) ∧
    (asteroidBody E i a0 g).1.particles = g.particles ∧
    (g.asteroids.data.length < g.asteroids.cap →
      ∃ child, (asteroidBody E i a0 g).1.asteroids.data[i]? = some child ∧
        child.size = (advanceAsteroid E g.ship a0).size / 2 ∧
        child.x = (advanceAsteroid E g.ship a0).x ∧ child.y = (advanceAsteroid E g.ship a0).y) ∧
    (g.asteroids.cap ≤ g.asteroids.data.length →
      (asteroidBody E i a0 g).1.asteroids.data[i]? = some (advanceAsteroid E g.ship a0)) := by
  obtain ⟨ht, he, hs⟩ := special_scan_size E g.ship a0 hsp h2 h180 hsin
  have hs25 : (advanceAsteroid E g.ship a0).size > 25 := by
    have : (25 : F) < 30 := by norm_num
    exact lt_trans this hs
  have hpos : 0 < (advanceAsteroid E g.ship a0).expansionTime := by rw [he]; omega
  have hlive : ¬ ((advanceAsteroid E g.ship a0).asteroidType = AsteroidType.SpecialAsteroid ∧
      (advanceAsteroid E g.ship a0).expansionTime ≤ 0) := fun h => absurd h.2 (not_le.mpr hpos)
  have hsplit := asteroidBody_split E i j a0 g hget hlive hhit hs25
  have hacc := asteroidBody_hit E i j a0 g hlive hhit
  have hj := hitScan_lt E _ _ _ hhit
  refine ⟨hs, hs25, hpos, hsplit.1, hsplit.2.1, ⟨_, hsplit.2.2.1, rfl, rfl, rfl⟩, hacc.1, ?_,
    hacc.2.1, hacc.2.2.1, fun h => ⟨_, hsplit.2.2.2.1 h, rfl, rfl, rfl⟩, hsplit.2.2.2.2⟩
  rw [hacc.1, List.length_eraseIdx, if_pos hj]
  omega

/-- C16 at `emberGame`, a full slice: the Special asteroid is scanned with size
45 and takes the split branch, a child of size 22.5 is appended, and the entry at
index 0 is still the Special asteroid; after the whole tick the collection holds
it, with countdown 90 and size 45, and one child, and no particle. -/
theorem special_hit_splits_witness :
    emberGame.asteroids.data[0]? = some ember ∧
    emberGame.asteroids.cap ≤ emberGame.asteroids.data.length ∧
    (asteroidBody pulseEnv 0 ember emberGame).1.asteroids.data.length = 2 ∧
    (asteroidBody pulseEnv 0 ember emberGame).1.asteroids.data[0]? =
      some (advanceAsteroid pulseEnv Ship.zero ember) ∧
    (advanceAsteroid pulseEnv Ship.zero ember).size = 45 ∧
    (asteroidBody pulseEnv 0 ember emberGame).1.particles = [] ∧
    (updatePlaying pulseEnv idle emberGame).asteroids.data.map Asteroid.asteroidType =
      [AsteroidType.SpecialAsteroid, AsteroidType.NormalAsteroid] ∧
    (updatePlaying pulseEnv idle emberGame).asteroids.data.map Asteroid.size = [45, 45 / 2] := by
  have h := special_hit_splits pulseEnv 0 0 ember emberGame rfl rfl (by decide) (by decide)
    pulseEnv_sin_positive
    (hit_ember 5)
  exact ⟨rfl, by decide, h.2.2.2.2.1, h.2.2.2.2.2.2.2.2.2.2.2 (by decide), advance_ember.2.2.1,
    h.2.2.2.2.2.2.2.2.2.1, updatePlaying_ember.1, updatePlaying_ember.2.2.1⟩

end Model

end Asteroids
